import Mathlib

/-
  Verification of the Delhi Metro Route Finder core engine:
  a shallow embedding of `metro_graph.py`.

  Modelling conventions:
  * Python dicts are insertion-ordered association lists (`dset` assigns,
    `dget` reads); Python sets of station names are duplicate-free lists.
  * Python float distances are embedded as exact rationals.  Every distance
    in the static table is a multiple of 1/10, and the program reports
    distances only after rounding to two decimals, which collapses the
    binary floating-point error of such sums, so no comparison a claim
    depends on distinguishes the float from the rational.
  * The heap pops a minimal entry; entries are tuples ordered
    lexicographically, a total order on the entries actually stored, so the
    queue is embedded as a list with a minimum-extraction function for that
    order.
  * Frozensets of line names are embedded as canonically sorted
    duplicate-free lists, so list equality coincides with set equality.
-/

namespace DelhiMetro

/-- Python dict assignment on an insertion-ordered association list:
replaces the value in place if the key exists, else appends.  Written as a
single structural pass so that kernel evaluation is linear. -/
def dset {κ α : Type} [DecidableEq κ] (m : List (κ × α)) (k : κ) (v : α) :
    List (κ × α) :=
  match m with
  | [] => [(k, v)]
  | (k', v') :: rest => if k' = k then (k, v) :: rest else (k', v') :: dset rest k v

/-- Python dict read as an option. -/
def dget {κ α : Type} [DecidableEq κ] (m : List (κ × α)) (k : κ) : Option α :=
  match m with
  | [] => none
  | (k', v') :: rest => if k' = k then some v' else dget rest k

/-- Python `d.setdefault(k, v)`-style step used by the builders below: keep
the dict unchanged when the key exists, else append the default.  Equals
`if (dget m k).isSome then m else dset m k v`, in one pass. -/
def ensureKey {κ α : Type} [DecidableEq κ] (m : List (κ × α)) (k : κ) (v : α) :
    List (κ × α) :=
  match m with
  | [] => [(k, v)]
  | (k', v') :: rest => if k' = k then (k', v') :: rest else (k', v') :: ensureKey rest k v
/-- Edge table of the source's `yellow_line` list ((station1, station2, distance) triples); distances are stored in exact tenths of a kilometre (the source's 1.3 is 13), an order- and sum-preserving rescaling of the decimal table values that the kernel can compute with. -/
def yellow_line : List (String × String × ℤ) := [
  ("Samaypur Badli", "Rohini Sector 18,19", 13),
  ("Rohini Sector 18,19", "Haiderpur Badli Mor", 12),
  ("Haiderpur Badli Mor", "Jahangirpuri", 14),
  ("Jahangirpuri", "Adarsh Nagar", 13),
  ("Adarsh Nagar", "Azadpur", 15),
  ("Azadpur", "Model Town", 14),
  ("Model Town", "GTB Nagar", 14),
  ("GTB Nagar", "Vishwa Vidyalaya", 8),
  ("Vishwa Vidyalaya", "Vidhan Sabha", 10),
  ("Vidhan Sabha", "Civil Lines", 13),
  ("Civil Lines", "Kashmere Gate", 11),
  ("Kashmere Gate", "Chandni Chowk", 11),
  ("Chandni Chowk", "Chawri Bazar", 10),
  ("Chawri Bazar", "New Delhi", 8),
  ("New Delhi", "Rajiv Chowk", 11),
  ("Rajiv Chowk", "Patel Chowk", 13),
  ("Patel Chowk", "Central Secretariat", 9),
  ("Central Secretariat", "Udyog Bhawan", 3),
  ("Udyog Bhawan", "Lok Kalyan Marg", 16),
  ("Lok Kalyan Marg", "Jor Bagh", 12),
  ("Jor Bagh", "INA", 13),
  ("INA", "AIIMS", 8),
  ("AIIMS", "Green Park", 10),
  ("Green Park", "Hauz Khas", 18),
  ("Hauz Khas", "Malviya Nagar", 17),
  ("Malviya Nagar", "Saket", 9),
  ("Saket", "Qutab Minar", 17),
  ("Qutab Minar", "Chhatarpur", 15),
  ("Chhatarpur", "Sultanpur", 15),
  ("Sultanpur", "Ghitorni", 13),
  ("Ghitorni", "Arjan Garh", 27),
  ("Arjan Garh", "Guru Dronacharya", 23),
  ("Guru Dronacharya", "Sikanderpur", 10),
  ("Sikanderpur", "MG Road", 12),
  ("MG Road", "IFFCO Chowk", 11),
  ("IFFCO Chowk", "Huda City Centre", 15)
]

/-- Edge table of the source's `blue_line` list ((station1, station2, distance) triples); distances are stored in exact tenths of a kilometre (the source's 1.3 is 13), an order- and sum-preserving rescaling of the decimal table values that the kernel can compute with. -/
def blue_line : List (String × String × ℤ) := [
  ("Dwarka Sector 21", "Dwarka Sector 8", 26),
  ("Dwarka Sector 8", "Dwarka Sector 9", 17),
  ("Dwarka Sector 9", "Dwarka Sector 10", 10),
  ("Dwarka Sector 10", "Dwarka Sector 11", 12),
  ("Dwarka Sector 11", "Dwarka Sector 12", 10),
  ("Dwarka Sector 12", "Dwarka Sector 13", 11),
  ("Dwarka Sector 13", "Dwarka Sector 14", 11),
  ("Dwarka Sector 14", "Dwarka", 10),
  ("Dwarka", "Dwarka Mor", 12),
  ("Dwarka Mor", "Nawada", 17),
  ("Nawada", "Uttam Nagar West", 10),
  ("Uttam Nagar West", "Uttam Nagar East", 9),
  ("Uttam Nagar East", "Janakpuri West", 10),
  ("Janakpuri West", "Janakpuri East", 11),
  ("Janakpuri East", "Tilak Nagar", 11),
  ("Tilak Nagar", "Subhash Nagar", 13),
  ("Subhash Nagar", "Tagore Garden", 10),
  ("Tagore Garden", "Rajouri Garden", 12),
  ("Rajouri Garden", "Ramesh Nagar", 12),
  ("Ramesh Nagar", "Moti Nagar", 12),
  ("Moti Nagar", "Kirti Nagar", 11),
  ("Kirti Nagar", "Shadipur", 7),
  ("Shadipur", "Patel Nagar", 13),
  ("Patel Nagar", "Rajendra Place", 11),
  ("Rajendra Place", "Karol Bagh", 11),
  ("Karol Bagh", "Jhandewalan", 12),
  ("Jhandewalan", "Ramakrishna Ashram Marg", 8),
  ("Ramakrishna Ashram Marg", "Rajiv Chowk", 11),
  ("Rajiv Chowk", "Barakhamba Road", 7),
  ("Barakhamba Road", "Mandi House", 10),
  ("Mandi House", "Supreme Court", 9),
  ("Supreme Court", "Indraprastha", 11),
  ("Indraprastha", "Yamuna Bank", 18),
  ("Yamuna Bank", "Akshardham", 13),
  ("Akshardham", "Mayur Vihar Phase 1", 18),
  ("Mayur Vihar Phase 1", "Mayur Vihar Extension", 12),
  ("Mayur Vihar Extension", "New Ashok Nagar", 10),
  ("New Ashok Nagar", "Noida Sector 15", 17),
  ("Noida Sector 15", "Noida Sector 16", 11),
  ("Noida Sector 16", "Noida Sector 18", 15),
  ("Noida Sector 18", "Botanical Garden", 16),
  ("Botanical Garden", "Golf Course", 12),
  ("Golf Course", "Noida City Centre", 13),
  ("Noida City Centre", "Noida Sector 62", 16),
  ("Noida Sector 62", "Noida Electronic City", 15)
]

/-- Edge table of the source's `blue_line_branch` list ((station1, station2, distance) triples); distances are stored in exact tenths of a kilometre (the source's 1.3 is 13), an order- and sum-preserving rescaling of the decimal table values that the kernel can compute with. -/
def blue_line_branch : List (String × String × ℤ) := [
  ("Yamuna Bank", "Laxmi Nagar", 13),
  ("Laxmi Nagar", "Nirman Vihar", 11),
  ("Nirman Vihar", "Preet Vihar", 10),
  ("Preet Vihar", "Karkardooma", 12),
  ("Karkardooma", "Anand Vihar ISBT", 11),
  ("Anand Vihar ISBT", "Kaushambi", 8),
  ("Kaushambi", "Vaishali", 16)
]

/-- Edge table of the source's `red_line` list ((station1, station2, distance) triples); distances are stored in exact tenths of a kilometre (the source's 1.3 is 13), an order- and sum-preserving rescaling of the decimal table values that the kernel can compute with. -/
def red_line : List (String × String × ℤ) := [
  ("Rithala", "Rohini West", 15),
  ("Rohini West", "Rohini East", 12),
  ("Rohini East", "Pitampura", 11),
  ("Pitampura", "Kohat Enclave", 11),
  ("Kohat Enclave", "Netaji Subhash Place", 9),
  ("Netaji Subhash Place", "Keshav Puram", 12),
  ("Keshav Puram", "Kanhaiya Nagar", 8),
  ("Kanhaiya Nagar", "Inderlok", 12),
  ("Inderlok", "Shastri Nagar", 12),
  ("Shastri Nagar", "Pratap Nagar", 17),
  ("Pratap Nagar", "Pulbangash", 8),
  ("Pulbangash", "Tis Hazari", 9),
  ("Tis Hazari", "Kashmere Gate", 11),
  ("Kashmere Gate", "Shastri Park", 22),
  ("Shastri Park", "Seelampur", 16),
  ("Seelampur", "Welcome", 11),
  ("Welcome", "Shahdara", 13),
  ("Shahdara", "Mansarovar Park", 11),
  ("Mansarovar Park", "Jhilmil", 11),
  ("Jhilmil", "Dilshad Garden", 13),
  ("Dilshad Garden", "Shaheed Nagar", 11),
  ("Shaheed Nagar", "Raj Bagh", 12),
  ("Raj Bagh", "Rajendra Nagar", 11),
  ("Rajendra Nagar", "Shyam Park", 10),
  ("Shyam Park", "Mohan Nagar", 13),
  ("Mohan Nagar", "Arthala", 10),
  ("Arthala", "Hindon River", 9),
  ("Hindon River", "Shaheed Sthal", 14)
]

/-- Edge table of the source's `green_line` list ((station1, station2, distance) triples); distances are stored in exact tenths of a kilometre (the source's 1.3 is 13), an order- and sum-preserving rescaling of the decimal table values that the kernel can compute with. -/
def green_line : List (String × String × ℤ) := [
  ("Inderlok", "Ashok Park Main", 14),
  ("Ashok Park Main", "Punjabi Bagh", 13),
  ("Punjabi Bagh", "Shivaji Park", 16),
  ("Shivaji Park", "Madipur", 11),
  ("Madipur", "Paschim Vihar East", 12),
  ("Paschim Vihar East", "Paschim Vihar West", 10),
  ("Paschim Vihar West", "Peera Garhi", 17),
  ("Peera Garhi", "Udyog Nagar", 8),
  ("Udyog Nagar", "Surajmal Stadium", 12),
  ("Surajmal Stadium", "Nangloi", 11),
  ("Nangloi", "Nangloi Railway Station", 9),
  ("Nangloi Railway Station", "Rajdhani Park", 11),
  ("Rajdhani Park", "Mundka", 14),
  ("Mundka", "Mundka Industrial Area", 12),
  ("Mundka Industrial Area", "Ghevra", 13),
  ("Ghevra", "Tikri Kalan", 11),
  ("Tikri Kalan", "Tikri Border", 10),
  ("Tikri Border", "Pandit Shree Ram Sharma", 12),
  ("Pandit Shree Ram Sharma", "Bahadurgarh City", 13),
  ("Bahadurgarh City", "Brigadier Hoshiar Singh", 15)
]

/-- Edge table of the source's `green_line_branch` list ((station1, station2, distance) triples); distances are stored in exact tenths of a kilometre (the source's 1.3 is 13), an order- and sum-preserving rescaling of the decimal table values that the kernel can compute with. -/
def green_line_branch : List (String × String × ℤ) := [
  ("Ashok Park Main", "Satguru Ram Singh Marg", 11),
  ("Satguru Ram Singh Marg", "Kirti Nagar", 10)
]

/-- Edge table of the source's `violet_line` list ((station1, station2, distance) triples); distances are stored in exact tenths of a kilometre (the source's 1.3 is 13), an order- and sum-preserving rescaling of the decimal table values that the kernel can compute with. -/
def violet_line : List (String × String × ℤ) := [
  ("Kashmere Gate", "Lal Quila", 15),
  ("Lal Quila", "Jama Masjid", 8),
  ("Jama Masjid", "Delhi Gate", 14),
  ("Delhi Gate", "ITO", 13),
  ("ITO", "Mandi House", 8),
  ("Mandi House", "Janpath", 10),
  ("Janpath", "Central Secretariat", 11),
  ("Central Secretariat", "Khan Market", 21),
  ("Khan Market", "JLN Stadium", 14),
  ("JLN Stadium", "Jangpura", 9),
  ("Jangpura", "Lajpat Nagar", 15),
  ("Lajpat Nagar", "Moolchand", 10),
  ("Moolchand", "Kailash Colony", 13),
  ("Kailash Colony", "Nehru Place", 10),
  ("Nehru Place", "Kalkaji Mandir", 12),
  ("Kalkaji Mandir", "Govind Puri", 9),
  ("Govind Puri", "Harkesh Nagar", 12),
  ("Harkesh Nagar", "Jasola Apollo", 9),
  ("Jasola Apollo", "Sarita Vihar", 15),
  ("Sarita Vihar", "Mohan Estate", 14),
  ("Mohan Estate", "Tughlakabad", 13),
  ("Tughlakabad", "Badarpur", 17),
  ("Badarpur", "Sarai", 19),
  ("Sarai", "NHPC Chowk", 13),
  ("NHPC Chowk", "Mewala Maharajpur", 12),
  ("Mewala Maharajpur", "Sector 28", 11),
  ("Sector 28", "Badkal Mor", 16),
  ("Badkal Mor", "Faridabad Old", 17),
  ("Faridabad Old", "Neelam Chowk Ajronda", 14),
  ("Neelam Chowk Ajronda", "Bata Chowk", 14),
  ("Bata Chowk", "Escorts Mujesar", 16),
  ("Escorts Mujesar", "Raja Nahar Singh", 15)
]

/-- Edge table of the source's `magenta_line` list ((station1, station2, distance) triples); distances are stored in exact tenths of a kilometre (the source's 1.3 is 13), an order- and sum-preserving rescaling of the decimal table values that the kernel can compute with. -/
def magenta_line : List (String × String × ℤ) := [
  ("Janakpuri West", "Dabri Mor", 12),
  ("Dabri Mor", "Dashrath Puri", 11),
  ("Dashrath Puri", "Palam", 13),
  ("Palam", "Sadar Bazaar Cantonment", 14),
  ("Sadar Bazaar Cantonment", "Terminal 1 IGI Airport", 17),
  ("Terminal 1 IGI Airport", "Shankar Vihar", 15),
  ("Shankar Vihar", "Vasant Vihar", 13),
  ("Vasant Vihar", "Munirka", 10),
  ("Munirka", "R.K Puram", 12),
  ("R.K Puram", "IIT Delhi", 11),
  ("IIT Delhi", "Hauz Khas", 10),
  ("Hauz Khas", "Panchsheel Park", 13),
  ("Panchsheel Park", "Chirag Delhi", 12),
  ("Chirag Delhi", "Greater Kailash", 11),
  ("Greater Kailash", "Nehru Enclave", 10),
  ("Nehru Enclave", "Kalkaji Mandir", 12),
  ("Kalkaji Mandir", "Okhla NSIC", 13),
  ("Okhla NSIC", "Sukhdev Vihar", 10),
  ("Sukhdev Vihar", "Jamia Millia Islamia", 11),
  ("Jamia Millia Islamia", "Okhla Vihar", 12),
  ("Okhla Vihar", "Jasola Vihar Shaheen Bagh", 10),
  ("Jasola Vihar Shaheen Bagh", "Kalindi Kunj", 14),
  ("Kalindi Kunj", "Okhla Bird Sanctuary", 12),
  ("Okhla Bird Sanctuary", "Botanical Garden", 13)
]

/-- Edge table of the source's `pink_line` list ((station1, station2, distance) triples); distances are stored in exact tenths of a kilometre (the source's 1.3 is 13), an order- and sum-preserving rescaling of the decimal table values that the kernel can compute with. -/
def pink_line : List (String × String × ℤ) := [
  ("Majlis Park", "Azadpur", 15),
  ("Azadpur", "Shalimar Bagh", 12),
  ("Shalimar Bagh", "Netaji Subhash Place", 13),
  ("Netaji Subhash Place", "Shakurpur", 11),
  ("Shakurpur", "Punjabi Bagh West", 14),
  ("Punjabi Bagh West", "ESI Hospital", 12),
  ("ESI Hospital", "Rajouri Garden", 11),
  ("Rajouri Garden", "Maya Puri", 15),
  ("Maya Puri", "Naraina Vihar", 10),
  ("Naraina Vihar", "Delhi Cantt", 13),
  ("Delhi Cantt", "Durgabai Deshmukh South Campus", 14),
  ("Durgabai Deshmukh South Campus", "Sir Vishweshwaraiah Moti Bagh", 12),
  ("Sir Vishweshwaraiah Moti Bagh", "Bhikaji Cama Place", 11),
  ("Bhikaji Cama Place", "Sarojini Nagar", 10),
  ("Sarojini Nagar", "INA", 13),
  ("INA", "South Extension", 12),
  ("South Extension", "Lajpat Nagar", 11),
  ("Lajpat Nagar", "Vinobapuri", 10),
  ("Vinobapuri", "Ashram", 12),
  ("Ashram", "Hazrat Nizamuddin", 13),
  ("Hazrat Nizamuddin", "Mayur Vihar Phase 1", 18),
  ("Mayur Vihar Phase 1", "Mayur Vihar Pocket 1", 10),
  ("Mayur Vihar Pocket 1", "Trilokpuri Sanjay Lake", 12),
  ("Trilokpuri Sanjay Lake", "East Vinod Nagar", 11),
  ("East Vinod Nagar", "IP Extension", 10),
  ("IP Extension", "Anand Vihar ISBT", 13),
  ("Anand Vihar ISBT", "Karkardooma", 12),
  ("Karkardooma", "Karkardooma Court", 11),
  ("Karkardooma Court", "Krishna Nagar", 10),
  ("Krishna Nagar", "East Azad Nagar", 11),
  ("East Azad Nagar", "Welcome", 12),
  ("Welcome", "Jaffrabad", 10),
  ("Jaffrabad", "Maujpur", 11),
  ("Maujpur", "Gokulpuri", 12),
  ("Gokulpuri", "Johri Enclave", 11),
  ("Johri Enclave", "Shiv Vihar", 13)
]

/-- Edge table of the source's `grey_line` list ((station1, station2, distance) triples); distances are stored in exact tenths of a kilometre (the source's 1.3 is 13), an order- and sum-preserving rescaling of the decimal table values that the kernel can compute with. -/
def grey_line : List (String × String × ℤ) := [
  ("Dwarka", "Nangli", 13),
  ("Nangli", "Najafgarh", 12),
  ("Najafgarh", "Dhansa Bus Stand", 11)
]
/-- The concatenation `all_lines` of `_initialize_metro_network`, in source
order (the pink-line copy of the Karkardooma edge overwrites the
blue-branch copy during the build). -/
def all_lines : List (String × String × ℤ) :=
  yellow_line ++ blue_line ++ blue_line_branch ++ red_line ++ green_line ++
    green_line_branch ++ violet_line ++ magenta_line ++ pink_line ++ grey_line

/-- Set insertion for `self.stations` (a Python set, modelled as a
duplicate-free list in first-insertion order): one pass, append if absent. -/
def sadd (l : List String) (s : String) : List String :=
  match l with
  | [] => [s]
  | x :: xs => if x = s then x :: xs else x :: sadd xs s

/-- `self.stations` after `_initialize_metro_network`. -/
def metroStations : List String :=
  all_lines.foldl (fun st e => sadd (sadd st e.1) e.2.1) []

/-- `graph[a][b] = d` for a key `a` already present (the build guarantees
presence): replace the weight for `b` inside the adjacency list of `a`. -/
def updAdj (g : List (String × List (String × ℤ))) (a b : String) (d : ℤ) :
    List (String × List (String × ℤ)) :=
  match g with
  | [] => [(a, [(b, d)])]
  | (k, adj) :: rest => if k = a then (k, dset adj b d) :: rest else (k, adj) :: updAdj rest a b d

/-- One iteration of the graph-building loop: add both stations as empty
keys if absent, then set the edge weight in both directions. -/
def addEdge (g : List (String × List (String × ℤ))) (e : String × String × ℤ) :
    List (String × List (String × ℤ)) :=
  updAdj (updAdj (ensureKey (ensureKey g e.1 []) e.2.1 []) e.1 e.2.1 e.2.2) e.2.1 e.1 e.2.2

/-- `self.graph` after `_initialize_metro_network`. -/
def metroGraph : List (String × List (String × ℤ)) :=
  all_lines.foldl addEdge []

/-- The station list of one line of `self.lines`: both endpoints of every
edge, in order, duplicates kept (the source's list comprehension). -/
def lineStations (l : List (String × String × ℤ)) : List String :=
  l.foldr (fun e acc => e.1 :: e.2.1 :: acc) []

/-- `self.lines`. -/
def linesTable : List (String × List String) :=
  [("Yellow", lineStations yellow_line), ("Blue", lineStations blue_line),
   ("Blue Branch", lineStations blue_line_branch), ("Red", lineStations red_line),
   ("Green", lineStations green_line), ("Green Branch", lineStations green_line_branch),
   ("Violet", lineStations violet_line), ("Magenta", lineStations magenta_line),
   ("Pink", lineStations pink_line), ("Grey", lineStations grey_line)]

/-- One iteration of the station-to-lines loop: default the entry to `[]`,
then append the line name if not already present (one pass over the map;
when the station is absent the result of both source steps is `[ln]`). -/
def addStationLine (m : List (String × List String)) (ln : String) (st : String) :
    List (String × List String) :=
  match m with
  | [] => [(st, [ln])]
  | (k, ls) :: rest =>
      if k = st then (k, if ln ∈ ls then ls else ls ++ [ln]) :: rest
      else (k, ls) :: addStationLine rest ln st

/-- `self.station_lines` after `_initialize_metro_network`. -/
def metroStationLines : List (String × List String) :=
  linesTable.foldl (fun m p => p.2.foldl (fun m2 st => addStationLine m2 p.1 st) m) []

/-- Python whitespace test of `str.strip()` restricted to ASCII (every
station name and claim input is ASCII). -/
def isPySpace (c : Char) : Bool :=
  c = ' ' ∨ c = '\t' ∨ c = '\n' ∨ c = '\r' ∨ c = '\x0b' ∨ c = '\x0c'

/-- ASCII lower-casing of one character, as `str.lower()` acts on ASCII. -/
def lowerChar (c : Char) : Char :=
  if 'A' ≤ c ∧ c ≤ 'Z' then Char.ofNat (c.toNat + 32) else c

/-- `_normalize_station_name`: `name.strip().lower()`, written on the
character list so that it evaluates inside the kernel (the library's
`String.trim`/`String.toLower` are irreducible extern functions). -/
def normalizeName (s : String) : String :=
  String.mk ((((s.data.dropWhile isPySpace).reverse.dropWhile isPySpace).reverse).map lowerChar)

/-- `_get_station_mapping()`: normalized name to actual name.  Python
iterates a set in unspecified order; normalization is injective on the
station list (`metroStationMap_nodup_keys` below), so the resulting map
does not depend on that order and one fixed order is faithful. -/
def stationMapOf (stations : List String) : List (String × String) :=
  stations.foldl (fun m s => dset m (normalizeName s) s) []

/-- Resolution of a raw station name, as both search operations perform it:
normalize, then look up in the station mapping. -/
def resolveStation (smap : List (String × String)) (raw : String) : Option String :=
  dget smap (normalizeName raw)

/-- Explicit value of `metroStations`, proved equal below; heavy computations run against this literal. -/
def metroStationsL : List String := [
  "Samaypur Badli",
  "Rohini Sector 18,19",
  "Haiderpur Badli Mor",
  "Jahangirpuri",
  "Adarsh Nagar",
  "Azadpur",
  "Model Town",
  "GTB Nagar",
  "Vishwa Vidyalaya",
  "Vidhan Sabha",
  "Civil Lines",
  "Kashmere Gate",
  "Chandni Chowk",
  "Chawri Bazar",
  "New Delhi",
  "Rajiv Chowk",
  "Patel Chowk",
  "Central Secretariat",
  "Udyog Bhawan",
  "Lok Kalyan Marg",
  "Jor Bagh",
  "INA",
  "AIIMS",
  "Green Park",
  "Hauz Khas",
  "Malviya Nagar",
  "Saket",
  "Qutab Minar",
  "Chhatarpur",
  "Sultanpur",
  "Ghitorni",
  "Arjan Garh",
  "Guru Dronacharya",
  "Sikanderpur",
  "MG Road",
  "IFFCO Chowk",
  "Huda City Centre",
  "Dwarka Sector 21",
  "Dwarka Sector 8",
  "Dwarka Sector 9",
  "Dwarka Sector 10",
  "Dwarka Sector 11",
  "Dwarka Sector 12",
  "Dwarka Sector 13",
  "Dwarka Sector 14",
  "Dwarka",
  "Dwarka Mor",
  "Nawada",
  "Uttam Nagar West",
  "Uttam Nagar East",
  "Janakpuri West",
  "Janakpuri East",
  "Tilak Nagar",
  "Subhash Nagar",
  "Tagore Garden",
  "Rajouri Garden",
  "Ramesh Nagar",
  "Moti Nagar",
  "Kirti Nagar",
  "Shadipur",
  "Patel Nagar",
  "Rajendra Place",
  "Karol Bagh",
  "Jhandewalan",
  "Ramakrishna Ashram Marg",
  "Barakhamba Road",
  "Mandi House",
  "Supreme Court",
  "Indraprastha",
  "Yamuna Bank",
  "Akshardham",
  "Mayur Vihar Phase 1",
  "Mayur Vihar Extension",
  "New Ashok Nagar",
  "Noida Sector 15",
  "Noida Sector 16",
  "Noida Sector 18",
  "Botanical Garden",
  "Golf Course",
  "Noida City Centre",
  "Noida Sector 62",
  "Noida Electronic City",
  "Laxmi Nagar",
  "Nirman Vihar",
  "Preet Vihar",
  "Karkardooma",
  "Anand Vihar ISBT",
  "Kaushambi",
  "Vaishali",
  "Rithala",
  "Rohini West",
  "Rohini East",
  "Pitampura",
  "Kohat Enclave",
  "Netaji Subhash Place",
  "Keshav Puram",
  "Kanhaiya Nagar",
  "Inderlok",
  "Shastri Nagar",
  "Pratap Nagar",
  "Pulbangash",
  "Tis Hazari",
  "Shastri Park",
  "Seelampur",
  "Welcome",
  "Shahdara",
  "Mansarovar Park",
  "Jhilmil",
  "Dilshad Garden",
  "Shaheed Nagar",
  "Raj Bagh",
  "Rajendra Nagar",
  "Shyam Park",
  "Mohan Nagar",
  "Arthala",
  "Hindon River",
  "Shaheed Sthal",
  "Ashok Park Main",
  "Punjabi Bagh",
  "Shivaji Park",
  "Madipur",
  "Paschim Vihar East",
  "Paschim Vihar West",
  "Peera Garhi",
  "Udyog Nagar",
  "Surajmal Stadium",
  "Nangloi",
  "Nangloi Railway Station",
  "Rajdhani Park",
  "Mundka",
  "Mundka Industrial Area",
  "Ghevra",
  "Tikri Kalan",
  "Tikri Border",
  "Pandit Shree Ram Sharma",
  "Bahadurgarh City",
  "Brigadier Hoshiar Singh",
  "Satguru Ram Singh Marg",
  "Lal Quila",
  "Jama Masjid",
  "Delhi Gate",
  "ITO",
  "Janpath",
  "Khan Market",
  "JLN Stadium",
  "Jangpura",
  "Lajpat Nagar",
  "Moolchand",
  "Kailash Colony",
  "Nehru Place",
  "Kalkaji Mandir",
  "Govind Puri",
  "Harkesh Nagar",
  "Jasola Apollo",
  "Sarita Vihar",
  "Mohan Estate",
  "Tughlakabad",
  "Badarpur",
  "Sarai",
  "NHPC Chowk",
  "Mewala Maharajpur",
  "Sector 28",
  "Badkal Mor",
  "Faridabad Old",
  "Neelam Chowk Ajronda",
  "Bata Chowk",
  "Escorts Mujesar",
  "Raja Nahar Singh",
  "Dabri Mor",
  "Dashrath Puri",
  "Palam",
  "Sadar Bazaar Cantonment",
  "Terminal 1 IGI Airport",
  "Shankar Vihar",
  "Vasant Vihar",
  "Munirka",
  "R.K Puram",
  "IIT Delhi",
  "Panchsheel Park",
  "Chirag Delhi",
  "Greater Kailash",
  "Nehru Enclave",
  "Okhla NSIC",
  "Sukhdev Vihar",
  "Jamia Millia Islamia",
  "Okhla Vihar",
  "Jasola Vihar Shaheen Bagh",
  "Kalindi Kunj",
  "Okhla Bird Sanctuary",
  "Majlis Park",
  "Shalimar Bagh",
  "Shakurpur",
  "Punjabi Bagh West",
  "ESI Hospital",
  "Maya Puri",
  "Naraina Vihar",
  "Delhi Cantt",
  "Durgabai Deshmukh South Campus",
  "Sir Vishweshwaraiah Moti Bagh",
  "Bhikaji Cama Place",
  "Sarojini Nagar",
  "South Extension",
  "Vinobapuri",
  "Ashram",
  "Hazrat Nizamuddin",
  "Mayur Vihar Pocket 1",
  "Trilokpuri Sanjay Lake",
  "East Vinod Nagar",
  "IP Extension",
  "Karkardooma Court",
  "Krishna Nagar",
  "East Azad Nagar",
  "Jaffrabad",
  "Maujpur",
  "Gokulpuri",
  "Johri Enclave",
  "Shiv Vihar",
  "Nangli",
  "Najafgarh",
  "Dhansa Bus Stand"
]

/-- Explicit value of `metroGraph`, proved equal below. -/
def metroGraphL : List (String × List (String × ℤ)) := [
  ("Samaypur Badli", [("Rohini Sector 18,19", 13)]),
  ("Rohini Sector 18,19", [("Samaypur Badli", 13), ("Haiderpur Badli Mor", 12)]),
  ("Haiderpur Badli Mor", [("Rohini Sector 18,19", 12), ("Jahangirpuri", 14)]),
  ("Jahangirpuri", [("Haiderpur Badli Mor", 14), ("Adarsh Nagar", 13)]),
  ("Adarsh Nagar", [("Jahangirpuri", 13), ("Azadpur", 15)]),
  ("Azadpur", [("Adarsh Nagar", 15), ("Model Town", 14), ("Majlis Park", 15), ("Shalimar Bagh", 12)]),
  ("Model Town", [("Azadpur", 14), ("GTB Nagar", 14)]),
  ("GTB Nagar", [("Model Town", 14), ("Vishwa Vidyalaya", 8)]),
  ("Vishwa Vidyalaya", [("GTB Nagar", 8), ("Vidhan Sabha", 10)]),
  ("Vidhan Sabha", [("Vishwa Vidyalaya", 10), ("Civil Lines", 13)]),
  ("Civil Lines", [("Vidhan Sabha", 13), ("Kashmere Gate", 11)]),
  ("Kashmere Gate", [("Civil Lines", 11), ("Chandni Chowk", 11), ("Tis Hazari", 11), ("Shastri Park", 22), ("Lal Quila", 15)]),
  ("Chandni Chowk", [("Kashmere Gate", 11), ("Chawri Bazar", 10)]),
  ("Chawri Bazar", [("Chandni Chowk", 10), ("New Delhi", 8)]),
  ("New Delhi", [("Chawri Bazar", 8), ("Rajiv Chowk", 11)]),
  ("Rajiv Chowk", [("New Delhi", 11), ("Patel Chowk", 13), ("Ramakrishna Ashram Marg", 11), ("Barakhamba Road", 7)]),
  ("Patel Chowk", [("Rajiv Chowk", 13), ("Central Secretariat", 9)]),
  ("Central Secretariat", [("Patel Chowk", 9), ("Udyog Bhawan", 3), ("Janpath", 11), ("Khan Market", 21)]),
  ("Udyog Bhawan", [("Central Secretariat", 3), ("Lok Kalyan Marg", 16)]),
  ("Lok Kalyan Marg", [("Udyog Bhawan", 16), ("Jor Bagh", 12)]),
  ("Jor Bagh", [("Lok Kalyan Marg", 12), ("INA", 13)]),
  ("INA", [("Jor Bagh", 13), ("AIIMS", 8), ("Sarojini Nagar", 13), ("South Extension", 12)]),
  ("AIIMS", [("INA", 8), ("Green Park", 10)]),
  ("Green Park", [("AIIMS", 10), ("Hauz Khas", 18)]),
  ("Hauz Khas", [("Green Park", 18), ("Malviya Nagar", 17), ("IIT Delhi", 10), ("Panchsheel Park", 13)]),
  ("Malviya Nagar", [("Hauz Khas", 17), ("Saket", 9)]),
  ("Saket", [("Malviya Nagar", 9), ("Qutab Minar", 17)]),
  ("Qutab Minar", [("Saket", 17), ("Chhatarpur", 15)]),
  ("Chhatarpur", [("Qutab Minar", 15), ("Sultanpur", 15)]),
  ("Sultanpur", [("Chhatarpur", 15), ("Ghitorni", 13)]),
  ("Ghitorni", [("Sultanpur", 13), ("Arjan Garh", 27)]),
  ("Arjan Garh", [("Ghitorni", 27), ("Guru Dronacharya", 23)]),
  ("Guru Dronacharya", [("Arjan Garh", 23), ("Sikanderpur", 10)]),
  ("Sikanderpur", [("Guru Dronacharya", 10), ("MG Road", 12)]),
  ("MG Road", [("Sikanderpur", 12), ("IFFCO Chowk", 11)]),
  ("IFFCO Chowk", [("MG Road", 11), ("Huda City Centre", 15)]),
  ("Huda City Centre", [("IFFCO Chowk", 15)]),
  ("Dwarka Sector 21", [("Dwarka Sector 8", 26)]),
  ("Dwarka Sector 8", [("Dwarka Sector 21", 26), ("Dwarka Sector 9", 17)]),
  ("Dwarka Sector 9", [("Dwarka Sector 8", 17), ("Dwarka Sector 10", 10)]),
  ("Dwarka Sector 10", [("Dwarka Sector 9", 10), ("Dwarka Sector 11", 12)]),
  ("Dwarka Sector 11", [("Dwarka Sector 10", 12), ("Dwarka Sector 12", 10)]),
  ("Dwarka Sector 12", [("Dwarka Sector 11", 10), ("Dwarka Sector 13", 11)]),
  ("Dwarka Sector 13", [("Dwarka Sector 12", 11), ("Dwarka Sector 14", 11)]),
  ("Dwarka Sector 14", [("Dwarka Sector 13", 11), ("Dwarka", 10)]),
  ("Dwarka", [("Dwarka Sector 14", 10), ("Dwarka Mor", 12), ("Nangli", 13)]),
  ("Dwarka Mor", [("Dwarka", 12), ("Nawada", 17)]),
  ("Nawada", [("Dwarka Mor", 17), ("Uttam Nagar West", 10)]),
  ("Uttam Nagar West", [("Nawada", 10), ("Uttam Nagar East", 9)]),
  ("Uttam Nagar East", [("Uttam Nagar West", 9), ("Janakpuri West", 10)]),
  ("Janakpuri West", [("Uttam Nagar East", 10), ("Janakpuri East", 11), ("Dabri Mor", 12)]),
  ("Janakpuri East", [("Janakpuri West", 11), ("Tilak Nagar", 11)]),
  ("Tilak Nagar", [("Janakpuri East", 11), ("Subhash Nagar", 13)]),
  ("Subhash Nagar", [("Tilak Nagar", 13), ("Tagore Garden", 10)]),
  ("Tagore Garden", [("Subhash Nagar", 10), ("Rajouri Garden", 12)]),
  ("Rajouri Garden", [("Tagore Garden", 12), ("Ramesh Nagar", 12), ("ESI Hospital", 11), ("Maya Puri", 15)]),
  ("Ramesh Nagar", [("Rajouri Garden", 12), ("Moti Nagar", 12)]),
  ("Moti Nagar", [("Ramesh Nagar", 12), ("Kirti Nagar", 11)]),
  ("Kirti Nagar", [("Moti Nagar", 11), ("Shadipur", 7), ("Satguru Ram Singh Marg", 10)]),
  ("Shadipur", [("Kirti Nagar", 7), ("Patel Nagar", 13)]),
  ("Patel Nagar", [("Shadipur", 13), ("Rajendra Place", 11)]),
  ("Rajendra Place", [("Patel Nagar", 11), ("Karol Bagh", 11)]),
  ("Karol Bagh", [("Rajendra Place", 11), ("Jhandewalan", 12)]),
  ("Jhandewalan", [("Karol Bagh", 12), ("Ramakrishna Ashram Marg", 8)]),
  ("Ramakrishna Ashram Marg", [("Jhandewalan", 8), ("Rajiv Chowk", 11)]),
  ("Barakhamba Road", [("Rajiv Chowk", 7), ("Mandi House", 10)]),
  ("Mandi House", [("Barakhamba Road", 10), ("Supreme Court", 9), ("ITO", 8), ("Janpath", 10)]),
  ("Supreme Court", [("Mandi House", 9), ("Indraprastha", 11)]),
  ("Indraprastha", [("Supreme Court", 11), ("Yamuna Bank", 18)]),
  ("Yamuna Bank", [("Indraprastha", 18), ("Akshardham", 13), ("Laxmi Nagar", 13)]),
  ("Akshardham", [("Yamuna Bank", 13), ("Mayur Vihar Phase 1", 18)]),
  ("Mayur Vihar Phase 1", [("Akshardham", 18), ("Mayur Vihar Extension", 12), ("Hazrat Nizamuddin", 18), ("Mayur Vihar Pocket 1", 10)]),
  ("Mayur Vihar Extension", [("Mayur Vihar Phase 1", 12), ("New Ashok Nagar", 10)]),
  ("New Ashok Nagar", [("Mayur Vihar Extension", 10), ("Noida Sector 15", 17)]),
  ("Noida Sector 15", [("New Ashok Nagar", 17), ("Noida Sector 16", 11)]),
  ("Noida Sector 16", [("Noida Sector 15", 11), ("Noida Sector 18", 15)]),
  ("Noida Sector 18", [("Noida Sector 16", 15), ("Botanical Garden", 16)]),
  ("Botanical Garden", [("Noida Sector 18", 16), ("Golf Course", 12), ("Okhla Bird Sanctuary", 13)]),
  ("Golf Course", [("Botanical Garden", 12), ("Noida City Centre", 13)]),
  ("Noida City Centre", [("Golf Course", 13), ("Noida Sector 62", 16)]),
  ("Noida Sector 62", [("Noida City Centre", 16), ("Noida Electronic City", 15)]),
  ("Noida Electronic City", [("Noida Sector 62", 15)]),
  ("Laxmi Nagar", [("Yamuna Bank", 13), ("Nirman Vihar", 11)]),
  ("Nirman Vihar", [("Laxmi Nagar", 11), ("Preet Vihar", 10)]),
  ("Preet Vihar", [("Nirman Vihar", 10), ("Karkardooma", 12)]),
  ("Karkardooma", [("Preet Vihar", 12), ("Anand Vihar ISBT", 12), ("Karkardooma Court", 11)]),
  ("Anand Vihar ISBT", [("Karkardooma", 12), ("Kaushambi", 8), ("IP Extension", 13)]),
  ("Kaushambi", [("Anand Vihar ISBT", 8), ("Vaishali", 16)]),
  ("Vaishali", [("Kaushambi", 16)]),
  ("Rithala", [("Rohini West", 15)]),
  ("Rohini West", [("Rithala", 15), ("Rohini East", 12)]),
  ("Rohini East", [("Rohini West", 12), ("Pitampura", 11)]),
  ("Pitampura", [("Rohini East", 11), ("Kohat Enclave", 11)]),
  ("Kohat Enclave", [("Pitampura", 11), ("Netaji Subhash Place", 9)]),
  ("Netaji Subhash Place", [("Kohat Enclave", 9), ("Keshav Puram", 12), ("Shalimar Bagh", 13), ("Shakurpur", 11)]),
  ("Keshav Puram", [("Netaji Subhash Place", 12), ("Kanhaiya Nagar", 8)]),
  ("Kanhaiya Nagar", [("Keshav Puram", 8), ("Inderlok", 12)]),
  ("Inderlok", [("Kanhaiya Nagar", 12), ("Shastri Nagar", 12), ("Ashok Park Main", 14)]),
  ("Shastri Nagar", [("Inderlok", 12), ("Pratap Nagar", 17)]),
  ("Pratap Nagar", [("Shastri Nagar", 17), ("Pulbangash", 8)]),
  ("Pulbangash", [("Pratap Nagar", 8), ("Tis Hazari", 9)]),
  ("Tis Hazari", [("Pulbangash", 9), ("Kashmere Gate", 11)]),
  ("Shastri Park", [("Kashmere Gate", 22), ("Seelampur", 16)]),
  ("Seelampur", [("Shastri Park", 16), ("Welcome", 11)]),
  ("Welcome", [("Seelampur", 11), ("Shahdara", 13), ("East Azad Nagar", 12), ("Jaffrabad", 10)]),
  ("Shahdara", [("Welcome", 13), ("Mansarovar Park", 11)]),
  ("Mansarovar Park", [("Shahdara", 11), ("Jhilmil", 11)]),
  ("Jhilmil", [("Mansarovar Park", 11), ("Dilshad Garden", 13)]),
  ("Dilshad Garden", [("Jhilmil", 13), ("Shaheed Nagar", 11)]),
  ("Shaheed Nagar", [("Dilshad Garden", 11), ("Raj Bagh", 12)]),
  ("Raj Bagh", [("Shaheed Nagar", 12), ("Rajendra Nagar", 11)]),
  ("Rajendra Nagar", [("Raj Bagh", 11), ("Shyam Park", 10)]),
  ("Shyam Park", [("Rajendra Nagar", 10), ("Mohan Nagar", 13)]),
  ("Mohan Nagar", [("Shyam Park", 13), ("Arthala", 10)]),
  ("Arthala", [("Mohan Nagar", 10), ("Hindon River", 9)]),
  ("Hindon River", [("Arthala", 9), ("Shaheed Sthal", 14)]),
  ("Shaheed Sthal", [("Hindon River", 14)]),
  ("Ashok Park Main", [("Inderlok", 14), ("Punjabi Bagh", 13), ("Satguru Ram Singh Marg", 11)]),
  ("Punjabi Bagh", [("Ashok Park Main", 13), ("Shivaji Park", 16)]),
  ("Shivaji Park", [("Punjabi Bagh", 16), ("Madipur", 11)]),
  ("Madipur", [("Shivaji Park", 11), ("Paschim Vihar East", 12)]),
  ("Paschim Vihar East", [("Madipur", 12), ("Paschim Vihar West", 10)]),
  ("Paschim Vihar West", [("Paschim Vihar East", 10), ("Peera Garhi", 17)]),
  ("Peera Garhi", [("Paschim Vihar West", 17), ("Udyog Nagar", 8)]),
  ("Udyog Nagar", [("Peera Garhi", 8), ("Surajmal Stadium", 12)]),
  ("Surajmal Stadium", [("Udyog Nagar", 12), ("Nangloi", 11)]),
  ("Nangloi", [("Surajmal Stadium", 11), ("Nangloi Railway Station", 9)]),
  ("Nangloi Railway Station", [("Nangloi", 9), ("Rajdhani Park", 11)]),
  ("Rajdhani Park", [("Nangloi Railway Station", 11), ("Mundka", 14)]),
  ("Mundka", [("Rajdhani Park", 14), ("Mundka Industrial Area", 12)]),
  ("Mundka Industrial Area", [("Mundka", 12), ("Ghevra", 13)]),
  ("Ghevra", [("Mundka Industrial Area", 13), ("Tikri Kalan", 11)]),
  ("Tikri Kalan", [("Ghevra", 11), ("Tikri Border", 10)]),
  ("Tikri Border", [("Tikri Kalan", 10), ("Pandit Shree Ram Sharma", 12)]),
  ("Pandit Shree Ram Sharma", [("Tikri Border", 12), ("Bahadurgarh City", 13)]),
  ("Bahadurgarh City", [("Pandit Shree Ram Sharma", 13), ("Brigadier Hoshiar Singh", 15)]),
  ("Brigadier Hoshiar Singh", [("Bahadurgarh City", 15)]),
  ("Satguru Ram Singh Marg", [("Ashok Park Main", 11), ("Kirti Nagar", 10)]),
  ("Lal Quila", [("Kashmere Gate", 15), ("Jama Masjid", 8)]),
  ("Jama Masjid", [("Lal Quila", 8), ("Delhi Gate", 14)]),
  ("Delhi Gate", [("Jama Masjid", 14), ("ITO", 13)]),
  ("ITO", [("Delhi Gate", 13), ("Mandi House", 8)]),
  ("Janpath", [("Mandi House", 10), ("Central Secretariat", 11)]),
  ("Khan Market", [("Central Secretariat", 21), ("JLN Stadium", 14)]),
  ("JLN Stadium", [("Khan Market", 14), ("Jangpura", 9)]),
  ("Jangpura", [("JLN Stadium", 9), ("Lajpat Nagar", 15)]),
  ("Lajpat Nagar", [("Jangpura", 15), ("Moolchand", 10), ("South Extension", 11), ("Vinobapuri", 10)]),
  ("Moolchand", [("Lajpat Nagar", 10), ("Kailash Colony", 13)]),
  ("Kailash Colony", [("Moolchand", 13), ("Nehru Place", 10)]),
  ("Nehru Place", [("Kailash Colony", 10), ("Kalkaji Mandir", 12)]),
  ("Kalkaji Mandir", [("Nehru Place", 12), ("Govind Puri", 9), ("Nehru Enclave", 12), ("Okhla NSIC", 13)]),
  ("Govind Puri", [("Kalkaji Mandir", 9), ("Harkesh Nagar", 12)]),
  ("Harkesh Nagar", [("Govind Puri", 12), ("Jasola Apollo", 9)]),
  ("Jasola Apollo", [("Harkesh Nagar", 9), ("Sarita Vihar", 15)]),
  ("Sarita Vihar", [("Jasola Apollo", 15), ("Mohan Estate", 14)]),
  ("Mohan Estate", [("Sarita Vihar", 14), ("Tughlakabad", 13)]),
  ("Tughlakabad", [("Mohan Estate", 13), ("Badarpur", 17)]),
  ("Badarpur", [("Tughlakabad", 17), ("Sarai", 19)]),
  ("Sarai", [("Badarpur", 19), ("NHPC Chowk", 13)]),
  ("NHPC Chowk", [("Sarai", 13), ("Mewala Maharajpur", 12)]),
  ("Mewala Maharajpur", [("NHPC Chowk", 12), ("Sector 28", 11)]),
  ("Sector 28", [("Mewala Maharajpur", 11), ("Badkal Mor", 16)]),
  ("Badkal Mor", [("Sector 28", 16), ("Faridabad Old", 17)]),
  ("Faridabad Old", [("Badkal Mor", 17), ("Neelam Chowk Ajronda", 14)]),
  ("Neelam Chowk Ajronda", [("Faridabad Old", 14), ("Bata Chowk", 14)]),
  ("Bata Chowk", [("Neelam Chowk Ajronda", 14), ("Escorts Mujesar", 16)]),
  ("Escorts Mujesar", [("Bata Chowk", 16), ("Raja Nahar Singh", 15)]),
  ("Raja Nahar Singh", [("Escorts Mujesar", 15)]),
  ("Dabri Mor", [("Janakpuri West", 12), ("Dashrath Puri", 11)]),
  ("Dashrath Puri", [("Dabri Mor", 11), ("Palam", 13)]),
  ("Palam", [("Dashrath Puri", 13), ("Sadar Bazaar Cantonment", 14)]),
  ("Sadar Bazaar Cantonment", [("Palam", 14), ("Terminal 1 IGI Airport", 17)]),
  ("Terminal 1 IGI Airport", [("Sadar Bazaar Cantonment", 17), ("Shankar Vihar", 15)]),
  ("Shankar Vihar", [("Terminal 1 IGI Airport", 15), ("Vasant Vihar", 13)]),
  ("Vasant Vihar", [("Shankar Vihar", 13), ("Munirka", 10)]),
  ("Munirka", [("Vasant Vihar", 10), ("R.K Puram", 12)]),
  ("R.K Puram", [("Munirka", 12), ("IIT Delhi", 11)]),
  ("IIT Delhi", [("R.K Puram", 11), ("Hauz Khas", 10)]),
  ("Panchsheel Park", [("Hauz Khas", 13), ("Chirag Delhi", 12)]),
  ("Chirag Delhi", [("Panchsheel Park", 12), ("Greater Kailash", 11)]),
  ("Greater Kailash", [("Chirag Delhi", 11), ("Nehru Enclave", 10)]),
  ("Nehru Enclave", [("Greater Kailash", 10), ("Kalkaji Mandir", 12)]),
  ("Okhla NSIC", [("Kalkaji Mandir", 13), ("Sukhdev Vihar", 10)]),
  ("Sukhdev Vihar", [("Okhla NSIC", 10), ("Jamia Millia Islamia", 11)]),
  ("Jamia Millia Islamia", [("Sukhdev Vihar", 11), ("Okhla Vihar", 12)]),
  ("Okhla Vihar", [("Jamia Millia Islamia", 12), ("Jasola Vihar Shaheen Bagh", 10)]),
  ("Jasola Vihar Shaheen Bagh", [("Okhla Vihar", 10), ("Kalindi Kunj", 14)]),
  ("Kalindi Kunj", [("Jasola Vihar Shaheen Bagh", 14), ("Okhla Bird Sanctuary", 12)]),
  ("Okhla Bird Sanctuary", [("Kalindi Kunj", 12), ("Botanical Garden", 13)]),
  ("Majlis Park", [("Azadpur", 15)]),
  ("Shalimar Bagh", [("Azadpur", 12), ("Netaji Subhash Place", 13)]),
  ("Shakurpur", [("Netaji Subhash Place", 11), ("Punjabi Bagh West", 14)]),
  ("Punjabi Bagh West", [("Shakurpur", 14), ("ESI Hospital", 12)]),
  ("ESI Hospital", [("Punjabi Bagh West", 12), ("Rajouri Garden", 11)]),
  ("Maya Puri", [("Rajouri Garden", 15), ("Naraina Vihar", 10)]),
  ("Naraina Vihar", [("Maya Puri", 10), ("Delhi Cantt", 13)]),
  ("Delhi Cantt", [("Naraina Vihar", 13), ("Durgabai Deshmukh South Campus", 14)]),
  ("Durgabai Deshmukh South Campus", [("Delhi Cantt", 14), ("Sir Vishweshwaraiah Moti Bagh", 12)]),
  ("Sir Vishweshwaraiah Moti Bagh", [("Durgabai Deshmukh South Campus", 12), ("Bhikaji Cama Place", 11)]),
  ("Bhikaji Cama Place", [("Sir Vishweshwaraiah Moti Bagh", 11), ("Sarojini Nagar", 10)]),
  ("Sarojini Nagar", [("Bhikaji Cama Place", 10), ("INA", 13)]),
  ("South Extension", [("INA", 12), ("Lajpat Nagar", 11)]),
  ("Vinobapuri", [("Lajpat Nagar", 10), ("Ashram", 12)]),
  ("Ashram", [("Vinobapuri", 12), ("Hazrat Nizamuddin", 13)]),
  ("Hazrat Nizamuddin", [("Ashram", 13), ("Mayur Vihar Phase 1", 18)]),
  ("Mayur Vihar Pocket 1", [("Mayur Vihar Phase 1", 10), ("Trilokpuri Sanjay Lake", 12)]),
  ("Trilokpuri Sanjay Lake", [("Mayur Vihar Pocket 1", 12), ("East Vinod Nagar", 11)]),
  ("East Vinod Nagar", [("Trilokpuri Sanjay Lake", 11), ("IP Extension", 10)]),
  ("IP Extension", [("East Vinod Nagar", 10), ("Anand Vihar ISBT", 13)]),
  ("Karkardooma Court", [("Karkardooma", 11), ("Krishna Nagar", 10)]),
  ("Krishna Nagar", [("Karkardooma Court", 10), ("East Azad Nagar", 11)]),
  ("East Azad Nagar", [("Krishna Nagar", 11), ("Welcome", 12)]),
  ("Jaffrabad", [("Welcome", 10), ("Maujpur", 11)]),
  ("Maujpur", [("Jaffrabad", 11), ("Gokulpuri", 12)]),
  ("Gokulpuri", [("Maujpur", 12), ("Johri Enclave", 11)]),
  ("Johri Enclave", [("Gokulpuri", 11), ("Shiv Vihar", 13)]),
  ("Shiv Vihar", [("Johri Enclave", 13)]),
  ("Nangli", [("Dwarka", 13), ("Najafgarh", 12)]),
  ("Najafgarh", [("Nangli", 12), ("Dhansa Bus Stand", 11)]),
  ("Dhansa Bus Stand", [("Najafgarh", 11)])
]

/-- Explicit value of `metroStationLines`, proved equal below. -/
def metroStationLinesL : List (String × List String) := [
  ("Samaypur Badli", ["Yellow"]),
  ("Rohini Sector 18,19", ["Yellow"]),
  ("Haiderpur Badli Mor", ["Yellow"]),
  ("Jahangirpuri", ["Yellow"]),
  ("Adarsh Nagar", ["Yellow"]),
  ("Azadpur", ["Yellow", "Pink"]),
  ("Model Town", ["Yellow"]),
  ("GTB Nagar", ["Yellow"]),
  ("Vishwa Vidyalaya", ["Yellow"]),
  ("Vidhan Sabha", ["Yellow"]),
  ("Civil Lines", ["Yellow"]),
  ("Kashmere Gate", ["Yellow", "Red", "Violet"]),
  ("Chandni Chowk", ["Yellow"]),
  ("Chawri Bazar", ["Yellow"]),
  ("New Delhi", ["Yellow"]),
  ("Rajiv Chowk", ["Yellow", "Blue"]),
  ("Patel Chowk", ["Yellow"]),
  ("Central Secretariat", ["Yellow", "Violet"]),
  ("Udyog Bhawan", ["Yellow"]),
  ("Lok Kalyan Marg", ["Yellow"]),
  ("Jor Bagh", ["Yellow"]),
  ("INA", ["Yellow", "Pink"]),
  ("AIIMS", ["Yellow"]),
  ("Green Park", ["Yellow"]),
  ("Hauz Khas", ["Yellow", "Magenta"]),
  ("Malviya Nagar", ["Yellow"]),
  ("Saket", ["Yellow"]),
  ("Qutab Minar", ["Yellow"]),
  ("Chhatarpur", ["Yellow"]),
  ("Sultanpur", ["Yellow"]),
  ("Ghitorni", ["Yellow"]),
  ("Arjan Garh", ["Yellow"]),
  ("Guru Dronacharya", ["Yellow"]),
  ("Sikanderpur", ["Yellow"]),
  ("MG Road", ["Yellow"]),
  ("IFFCO Chowk", ["Yellow"]),
  ("Huda City Centre", ["Yellow"]),
  ("Dwarka Sector 21", ["Blue"]),
  ("Dwarka Sector 8", ["Blue"]),
  ("Dwarka Sector 9", ["Blue"]),
  ("Dwarka Sector 10", ["Blue"]),
  ("Dwarka Sector 11", ["Blue"]),
  ("Dwarka Sector 12", ["Blue"]),
  ("Dwarka Sector 13", ["Blue"]),
  ("Dwarka Sector 14", ["Blue"]),
  ("Dwarka", ["Blue", "Grey"]),
  ("Dwarka Mor", ["Blue"]),
  ("Nawada", ["Blue"]),
  ("Uttam Nagar West", ["Blue"]),
  ("Uttam Nagar East", ["Blue"]),
  ("Janakpuri West", ["Blue", "Magenta"]),
  ("Janakpuri East", ["Blue"]),
  ("Tilak Nagar", ["Blue"]),
  ("Subhash Nagar", ["Blue"]),
  ("Tagore Garden", ["Blue"]),
  ("Rajouri Garden", ["Blue", "Pink"]),
  ("Ramesh Nagar", ["Blue"]),
  ("Moti Nagar", ["Blue"]),
  ("Kirti Nagar", ["Blue", "Green Branch"]),
  ("Shadipur", ["Blue"]),
  ("Patel Nagar", ["Blue"]),
  ("Rajendra Place", ["Blue"]),
  ("Karol Bagh", ["Blue"]),
  ("Jhandewalan", ["Blue"]),
  ("Ramakrishna Ashram Marg", ["Blue"]),
  ("Barakhamba Road", ["Blue"]),
  ("Mandi House", ["Blue", "Violet"]),
  ("Supreme Court", ["Blue"]),
  ("Indraprastha", ["Blue"]),
  ("Yamuna Bank", ["Blue", "Blue Branch"]),
  ("Akshardham", ["Blue"]),
  ("Mayur Vihar Phase 1", ["Blue", "Pink"]),
  ("Mayur Vihar Extension", ["Blue"]),
  ("New Ashok Nagar", ["Blue"]),
  ("Noida Sector 15", ["Blue"]),
  ("Noida Sector 16", ["Blue"]),
  ("Noida Sector 18", ["Blue"]),
  ("Botanical Garden", ["Blue", "Magenta"]),
  ("Golf Course", ["Blue"]),
  ("Noida City Centre", ["Blue"]),
  ("Noida Sector 62", ["Blue"]),
  ("Noida Electronic City", ["Blue"]),
  ("Laxmi Nagar", ["Blue Branch"]),
  ("Nirman Vihar", ["Blue Branch"]),
  ("Preet Vihar", ["Blue Branch"]),
  ("Karkardooma", ["Blue Branch", "Pink"]),
  ("Anand Vihar ISBT", ["Blue Branch", "Pink"]),
  ("Kaushambi", ["Blue Branch"]),
  ("Vaishali", ["Blue Branch"]),
  ("Rithala", ["Red"]),
  ("Rohini West", ["Red"]),
  ("Rohini East", ["Red"]),
  ("Pitampura", ["Red"]),
  ("Kohat Enclave", ["Red"]),
  ("Netaji Subhash Place", ["Red", "Pink"]),
  ("Keshav Puram", ["Red"]),
  ("Kanhaiya Nagar", ["Red"]),
  ("Inderlok", ["Red", "Green"]),
  ("Shastri Nagar", ["Red"]),
  ("Pratap Nagar", ["Red"]),
  ("Pulbangash", ["Red"]),
  ("Tis Hazari", ["Red"]),
  ("Shastri Park", ["Red"]),
  ("Seelampur", ["Red"]),
  ("Welcome", ["Red", "Pink"]),
  ("Shahdara", ["Red"]),
  ("Mansarovar Park", ["Red"]),
  ("Jhilmil", ["Red"]),
  ("Dilshad Garden", ["Red"]),
  ("Shaheed Nagar", ["Red"]),
  ("Raj Bagh", ["Red"]),
  ("Rajendra Nagar", ["Red"]),
  ("Shyam Park", ["Red"]),
  ("Mohan Nagar", ["Red"]),
  ("Arthala", ["Red"]),
  ("Hindon River", ["Red"]),
  ("Shaheed Sthal", ["Red"]),
  ("Ashok Park Main", ["Green", "Green Branch"]),
  ("Punjabi Bagh", ["Green"]),
  ("Shivaji Park", ["Green"]),
  ("Madipur", ["Green"]),
  ("Paschim Vihar East", ["Green"]),
  ("Paschim Vihar West", ["Green"]),
  ("Peera Garhi", ["Green"]),
  ("Udyog Nagar", ["Green"]),
  ("Surajmal Stadium", ["Green"]),
  ("Nangloi", ["Green"]),
  ("Nangloi Railway Station", ["Green"]),
  ("Rajdhani Park", ["Green"]),
  ("Mundka", ["Green"]),
  ("Mundka Industrial Area", ["Green"]),
  ("Ghevra", ["Green"]),
  ("Tikri Kalan", ["Green"]),
  ("Tikri Border", ["Green"]),
  ("Pandit Shree Ram Sharma", ["Green"]),
  ("Bahadurgarh City", ["Green"]),
  ("Brigadier Hoshiar Singh", ["Green"]),
  ("Satguru Ram Singh Marg", ["Green Branch"]),
  ("Lal Quila", ["Violet"]),
  ("Jama Masjid", ["Violet"]),
  ("Delhi Gate", ["Violet"]),
  ("ITO", ["Violet"]),
  ("Janpath", ["Violet"]),
  ("Khan Market", ["Violet"]),
  ("JLN Stadium", ["Violet"]),
  ("Jangpura", ["Violet"]),
  ("Lajpat Nagar", ["Violet", "Pink"]),
  ("Moolchand", ["Violet"]),
  ("Kailash Colony", ["Violet"]),
  ("Nehru Place", ["Violet"]),
  ("Kalkaji Mandir", ["Violet", "Magenta"]),
  ("Govind Puri", ["Violet"]),
  ("Harkesh Nagar", ["Violet"]),
  ("Jasola Apollo", ["Violet"]),
  ("Sarita Vihar", ["Violet"]),
  ("Mohan Estate", ["Violet"]),
  ("Tughlakabad", ["Violet"]),
  ("Badarpur", ["Violet"]),
  ("Sarai", ["Violet"]),
  ("NHPC Chowk", ["Violet"]),
  ("Mewala Maharajpur", ["Violet"]),
  ("Sector 28", ["Violet"]),
  ("Badkal Mor", ["Violet"]),
  ("Faridabad Old", ["Violet"]),
  ("Neelam Chowk Ajronda", ["Violet"]),
  ("Bata Chowk", ["Violet"]),
  ("Escorts Mujesar", ["Violet"]),
  ("Raja Nahar Singh", ["Violet"]),
  ("Dabri Mor", ["Magenta"]),
  ("Dashrath Puri", ["Magenta"]),
  ("Palam", ["Magenta"]),
  ("Sadar Bazaar Cantonment", ["Magenta"]),
  ("Terminal 1 IGI Airport", ["Magenta"]),
  ("Shankar Vihar", ["Magenta"]),
  ("Vasant Vihar", ["Magenta"]),
  ("Munirka", ["Magenta"]),
  ("R.K Puram", ["Magenta"]),
  ("IIT Delhi", ["Magenta"]),
  ("Panchsheel Park", ["Magenta"]),
  ("Chirag Delhi", ["Magenta"]),
  ("Greater Kailash", ["Magenta"]),
  ("Nehru Enclave", ["Magenta"]),
  ("Okhla NSIC", ["Magenta"]),
  ("Sukhdev Vihar", ["Magenta"]),
  ("Jamia Millia Islamia", ["Magenta"]),
  ("Okhla Vihar", ["Magenta"]),
  ("Jasola Vihar Shaheen Bagh", ["Magenta"]),
  ("Kalindi Kunj", ["Magenta"]),
  ("Okhla Bird Sanctuary", ["Magenta"]),
  ("Majlis Park", ["Pink"]),
  ("Shalimar Bagh", ["Pink"]),
  ("Shakurpur", ["Pink"]),
  ("Punjabi Bagh West", ["Pink"]),
  ("ESI Hospital", ["Pink"]),
  ("Maya Puri", ["Pink"]),
  ("Naraina Vihar", ["Pink"]),
  ("Delhi Cantt", ["Pink"]),
  ("Durgabai Deshmukh South Campus", ["Pink"]),
  ("Sir Vishweshwaraiah Moti Bagh", ["Pink"]),
  ("Bhikaji Cama Place", ["Pink"]),
  ("Sarojini Nagar", ["Pink"]),
  ("South Extension", ["Pink"]),
  ("Vinobapuri", ["Pink"]),
  ("Ashram", ["Pink"]),
  ("Hazrat Nizamuddin", ["Pink"]),
  ("Mayur Vihar Pocket 1", ["Pink"]),
  ("Trilokpuri Sanjay Lake", ["Pink"]),
  ("East Vinod Nagar", ["Pink"]),
  ("IP Extension", ["Pink"]),
  ("Karkardooma Court", ["Pink"]),
  ("Krishna Nagar", ["Pink"]),
  ("East Azad Nagar", ["Pink"]),
  ("Jaffrabad", ["Pink"]),
  ("Maujpur", ["Pink"]),
  ("Gokulpuri", ["Pink"]),
  ("Johri Enclave", ["Pink"]),
  ("Shiv Vihar", ["Pink"]),
  ("Nangli", ["Grey"]),
  ("Najafgarh", ["Grey"]),
  ("Dhansa Bus Stand", ["Grey"])
]

/-- Explicit value of `stationMapOf metroStations`, proved equal below. -/
def metroStationMapL : List (String × String) := [
  ("samaypur badli", "Samaypur Badli"),
  ("rohini sector 18,19", "Rohini Sector 18,19"),
  ("haiderpur badli mor", "Haiderpur Badli Mor"),
  ("jahangirpuri", "Jahangirpuri"),
  ("adarsh nagar", "Adarsh Nagar"),
  ("azadpur", "Azadpur"),
  ("model town", "Model Town"),
  ("gtb nagar", "GTB Nagar"),
  ("vishwa vidyalaya", "Vishwa Vidyalaya"),
  ("vidhan sabha", "Vidhan Sabha"),
  ("civil lines", "Civil Lines"),
  ("kashmere gate", "Kashmere Gate"),
  ("chandni chowk", "Chandni Chowk"),
  ("chawri bazar", "Chawri Bazar"),
  ("new delhi", "New Delhi"),
  ("rajiv chowk", "Rajiv Chowk"),
  ("patel chowk", "Patel Chowk"),
  ("central secretariat", "Central Secretariat"),
  ("udyog bhawan", "Udyog Bhawan"),
  ("lok kalyan marg", "Lok Kalyan Marg"),
  ("jor bagh", "Jor Bagh"),
  ("ina", "INA"),
  ("aiims", "AIIMS"),
  ("green park", "Green Park"),
  ("hauz khas", "Hauz Khas"),
  ("malviya nagar", "Malviya Nagar"),
  ("saket", "Saket"),
  ("qutab minar", "Qutab Minar"),
  ("chhatarpur", "Chhatarpur"),
  ("sultanpur", "Sultanpur"),
  ("ghitorni", "Ghitorni"),
  ("arjan garh", "Arjan Garh"),
  ("guru dronacharya", "Guru Dronacharya"),
  ("sikanderpur", "Sikanderpur"),
  ("mg road", "MG Road"),
  ("iffco chowk", "IFFCO Chowk"),
  ("huda city centre", "Huda City Centre"),
  ("dwarka sector 21", "Dwarka Sector 21"),
  ("dwarka sector 8", "Dwarka Sector 8"),
  ("dwarka sector 9", "Dwarka Sector 9"),
  ("dwarka sector 10", "Dwarka Sector 10"),
  ("dwarka sector 11", "Dwarka Sector 11"),
  ("dwarka sector 12", "Dwarka Sector 12"),
  ("dwarka sector 13", "Dwarka Sector 13"),
  ("dwarka sector 14", "Dwarka Sector 14"),
  ("dwarka", "Dwarka"),
  ("dwarka mor", "Dwarka Mor"),
  ("nawada", "Nawada"),
  ("uttam nagar west", "Uttam Nagar West"),
  ("uttam nagar east", "Uttam Nagar East"),
  ("janakpuri west", "Janakpuri West"),
  ("janakpuri east", "Janakpuri East"),
  ("tilak nagar", "Tilak Nagar"),
  ("subhash nagar", "Subhash Nagar"),
  ("tagore garden", "Tagore Garden"),
  ("rajouri garden", "Rajouri Garden"),
  ("ramesh nagar", "Ramesh Nagar"),
  ("moti nagar", "Moti Nagar"),
  ("kirti nagar", "Kirti Nagar"),
  ("shadipur", "Shadipur"),
  ("patel nagar", "Patel Nagar"),
  ("rajendra place", "Rajendra Place"),
  ("karol bagh", "Karol Bagh"),
  ("jhandewalan", "Jhandewalan"),
  ("ramakrishna ashram marg", "Ramakrishna Ashram Marg"),
  ("barakhamba road", "Barakhamba Road"),
  ("mandi house", "Mandi House"),
  ("supreme court", "Supreme Court"),
  ("indraprastha", "Indraprastha"),
  ("yamuna bank", "Yamuna Bank"),
  ("akshardham", "Akshardham"),
  ("mayur vihar phase 1", "Mayur Vihar Phase 1"),
  ("mayur vihar extension", "Mayur Vihar Extension"),
  ("new ashok nagar", "New Ashok Nagar"),
  ("noida sector 15", "Noida Sector 15"),
  ("noida sector 16", "Noida Sector 16"),
  ("noida sector 18", "Noida Sector 18"),
  ("botanical garden", "Botanical Garden"),
  ("golf course", "Golf Course"),
  ("noida city centre", "Noida City Centre"),
  ("noida sector 62", "Noida Sector 62"),
  ("noida electronic city", "Noida Electronic City"),
  ("laxmi nagar", "Laxmi Nagar"),
  ("nirman vihar", "Nirman Vihar"),
  ("preet vihar", "Preet Vihar"),
  ("karkardooma", "Karkardooma"),
  ("anand vihar isbt", "Anand Vihar ISBT"),
  ("kaushambi", "Kaushambi"),
  ("vaishali", "Vaishali"),
  ("rithala", "Rithala"),
  ("rohini west", "Rohini West"),
  ("rohini east", "Rohini East"),
  ("pitampura", "Pitampura"),
  ("kohat enclave", "Kohat Enclave"),
  ("netaji subhash place", "Netaji Subhash Place"),
  ("keshav puram", "Keshav Puram"),
  ("kanhaiya nagar", "Kanhaiya Nagar"),
  ("inderlok", "Inderlok"),
  ("shastri nagar", "Shastri Nagar"),
  ("pratap nagar", "Pratap Nagar"),
  ("pulbangash", "Pulbangash"),
  ("tis hazari", "Tis Hazari"),
  ("shastri park", "Shastri Park"),
  ("seelampur", "Seelampur"),
  ("welcome", "Welcome"),
  ("shahdara", "Shahdara"),
  ("mansarovar park", "Mansarovar Park"),
  ("jhilmil", "Jhilmil"),
  ("dilshad garden", "Dilshad Garden"),
  ("shaheed nagar", "Shaheed Nagar"),
  ("raj bagh", "Raj Bagh"),
  ("rajendra nagar", "Rajendra Nagar"),
  ("shyam park", "Shyam Park"),
  ("mohan nagar", "Mohan Nagar"),
  ("arthala", "Arthala"),
  ("hindon river", "Hindon River"),
  ("shaheed sthal", "Shaheed Sthal"),
  ("ashok park main", "Ashok Park Main"),
  ("punjabi bagh", "Punjabi Bagh"),
  ("shivaji park", "Shivaji Park"),
  ("madipur", "Madipur"),
  ("paschim vihar east", "Paschim Vihar East"),
  ("paschim vihar west", "Paschim Vihar West"),
  ("peera garhi", "Peera Garhi"),
  ("udyog nagar", "Udyog Nagar"),
  ("surajmal stadium", "Surajmal Stadium"),
  ("nangloi", "Nangloi"),
  ("nangloi railway station", "Nangloi Railway Station"),
  ("rajdhani park", "Rajdhani Park"),
  ("mundka", "Mundka"),
  ("mundka industrial area", "Mundka Industrial Area"),
  ("ghevra", "Ghevra"),
  ("tikri kalan", "Tikri Kalan"),
  ("tikri border", "Tikri Border"),
  ("pandit shree ram sharma", "Pandit Shree Ram Sharma"),
  ("bahadurgarh city", "Bahadurgarh City"),
  ("brigadier hoshiar singh", "Brigadier Hoshiar Singh"),
  ("satguru ram singh marg", "Satguru Ram Singh Marg"),
  ("lal quila", "Lal Quila"),
  ("jama masjid", "Jama Masjid"),
  ("delhi gate", "Delhi Gate"),
  ("ito", "ITO"),
  ("janpath", "Janpath"),
  ("khan market", "Khan Market"),
  ("jln stadium", "JLN Stadium"),
  ("jangpura", "Jangpura"),
  ("lajpat nagar", "Lajpat Nagar"),
  ("moolchand", "Moolchand"),
  ("kailash colony", "Kailash Colony"),
  ("nehru place", "Nehru Place"),
  ("kalkaji mandir", "Kalkaji Mandir"),
  ("govind puri", "Govind Puri"),
  ("harkesh nagar", "Harkesh Nagar"),
  ("jasola apollo", "Jasola Apollo"),
  ("sarita vihar", "Sarita Vihar"),
  ("mohan estate", "Mohan Estate"),
  ("tughlakabad", "Tughlakabad"),
  ("badarpur", "Badarpur"),
  ("sarai", "Sarai"),
  ("nhpc chowk", "NHPC Chowk"),
  ("mewala maharajpur", "Mewala Maharajpur"),
  ("sector 28", "Sector 28"),
  ("badkal mor", "Badkal Mor"),
  ("faridabad old", "Faridabad Old"),
  ("neelam chowk ajronda", "Neelam Chowk Ajronda"),
  ("bata chowk", "Bata Chowk"),
  ("escorts mujesar", "Escorts Mujesar"),
  ("raja nahar singh", "Raja Nahar Singh"),
  ("dabri mor", "Dabri Mor"),
  ("dashrath puri", "Dashrath Puri"),
  ("palam", "Palam"),
  ("sadar bazaar cantonment", "Sadar Bazaar Cantonment"),
  ("terminal 1 igi airport", "Terminal 1 IGI Airport"),
  ("shankar vihar", "Shankar Vihar"),
  ("vasant vihar", "Vasant Vihar"),
  ("munirka", "Munirka"),
  ("r.k puram", "R.K Puram"),
  ("iit delhi", "IIT Delhi"),
  ("panchsheel park", "Panchsheel Park"),
  ("chirag delhi", "Chirag Delhi"),
  ("greater kailash", "Greater Kailash"),
  ("nehru enclave", "Nehru Enclave"),
  ("okhla nsic", "Okhla NSIC"),
  ("sukhdev vihar", "Sukhdev Vihar"),
  ("jamia millia islamia", "Jamia Millia Islamia"),
  ("okhla vihar", "Okhla Vihar"),
  ("jasola vihar shaheen bagh", "Jasola Vihar Shaheen Bagh"),
  ("kalindi kunj", "Kalindi Kunj"),
  ("okhla bird sanctuary", "Okhla Bird Sanctuary"),
  ("majlis park", "Majlis Park"),
  ("shalimar bagh", "Shalimar Bagh"),
  ("shakurpur", "Shakurpur"),
  ("punjabi bagh west", "Punjabi Bagh West"),
  ("esi hospital", "ESI Hospital"),
  ("maya puri", "Maya Puri"),
  ("naraina vihar", "Naraina Vihar"),
  ("delhi cantt", "Delhi Cantt"),
  ("durgabai deshmukh south campus", "Durgabai Deshmukh South Campus"),
  ("sir vishweshwaraiah moti bagh", "Sir Vishweshwaraiah Moti Bagh"),
  ("bhikaji cama place", "Bhikaji Cama Place"),
  ("sarojini nagar", "Sarojini Nagar"),
  ("south extension", "South Extension"),
  ("vinobapuri", "Vinobapuri"),
  ("ashram", "Ashram"),
  ("hazrat nizamuddin", "Hazrat Nizamuddin"),
  ("mayur vihar pocket 1", "Mayur Vihar Pocket 1"),
  ("trilokpuri sanjay lake", "Trilokpuri Sanjay Lake"),
  ("east vinod nagar", "East Vinod Nagar"),
  ("ip extension", "IP Extension"),
  ("karkardooma court", "Karkardooma Court"),
  ("krishna nagar", "Krishna Nagar"),
  ("east azad nagar", "East Azad Nagar"),
  ("jaffrabad", "Jaffrabad"),
  ("maujpur", "Maujpur"),
  ("gokulpuri", "Gokulpuri"),
  ("johri enclave", "Johri Enclave"),
  ("shiv vihar", "Shiv Vihar"),
  ("nangli", "Nangli"),
  ("najafgarh", "Najafgarh"),
  ("dhansa bus stand", "Dhansa Bus Stand")
]

/-- The result dictionary of `calculate_fare`. -/
structure FareInfo where
  token_fare : ℤ
  smart_card_fare : ℤ
  savings : ℤ
  recommended_fare : ℤ
deriving DecidableEq

/-- `calculate_fare`.  `int(token_fare * 0.9)` truncates a positive float
product; for the six tier values the float product is exactly the integer
9, 18, 27, 36, 45 or 54, which is also the rational floor used here. -/
def calculate_fare (distance : ℚ) (use_smart_card : Bool) : FareInfo :=
  let token_fare : ℤ :=
    if distance ≤ 2 then 10
    else if distance ≤ 5 then 20
    else if distance ≤ 12 then 30
    else if distance ≤ 21 then 40
    else if distance ≤ 32 then 50
    else 60
  let smart_card_fare : ℤ := Int.floor ((token_fare : ℚ) * (9 / 10 : ℚ))
  { token_fare := token_fare
    smart_card_fare := smart_card_fare
    savings := token_fare - smart_card_fare
    recommended_fare := if use_smart_card then smart_card_fare else token_fare }

/-- Python `round(d, 2)` as applied to reported route distances.  Every
reported distance is a sum of table weights, an exact multiple of 0.1 km
(here an integer number of tenths), on which rounding to two decimals is
the identity: the float error of such sums stays far below 0.005, so
`round(·, 2)` recovers exactly the rational value embedded here. -/
def round2 (d : ℤ) : ℤ := d

/-- Boolean membership in a string list (single pass, kernel-friendly). -/
def smem (s : String) : List String → Bool
  | [] => false
  | x :: xs => if x = s then true else smem s xs

/-- Lexicographic comparison of character lists. -/
def charListLt : List Char → List Char → Bool
  | _, [] => false
  | [], _ :: _ => true
  | x :: xs, y :: ys => if x < y then true else if y < x then false else charListLt xs ys

/-- Python string `<`: lexicographic comparison of code points. -/
def strLt (a b : String) : Bool :=
  charListLt a.data b.data

/-- Python list `<` given an element comparison: lexicographic, a strict
prefix is smaller. -/
def listLt {α : Type} (lt : α → α → Bool) : List α → List α → Bool
  | _, [] => false
  | [], _ :: _ => true
  | x :: xs, y :: ys => if lt x y then true else if lt y x then false else listLt lt xs ys

/-- `station_lines.get(st, [])`. -/
def getLines (slines : List (String × List String)) (st : String) : List String :=
  (dget slines st).getD []

/-- Insert into a sorted list of line names (for the canonical form of a
Python set of line names). -/
def sortInsert (s : String) : List String → List String
  | [] => [s]
  | x :: xs => if strLt s x then s :: x :: xs else x :: sortInsert s xs

/-- Canonical (sorted) form of a Python set/frozenset of line names:
equality of canonical forms coincides with equality of the sets, and the
intersection below preserves canonicity, so frozenset-valued state is
embedded by this form. -/
def canonSet (l : List String) : List String := l.foldr sortInsert []

/-- A line-change event emitted by `_identify_line_changes` (Python lists
the two sets in unspecified order; here they are canonically sorted). -/
structure LineChange where
  station : String
  from_lines : List String
  to_lines : List String
  position : Nat
deriving DecidableEq

/-- The loop of `_identify_line_changes` over the tail of the path: `cur`
is the running line set, `i` the 0-based position of the next station. -/
def idlcAux (slines : List (String × List String)) : List String → Nat → List String → List LineChange
  | _, _, [] => []
  | cur, i, st :: rest =>
    let sl := canonSet (getLines slines st)
    let common := cur.filter (fun l => smem l sl)
    if common = [] ∧ cur ≠ [] ∧ sl ≠ [] then
      { station := st, from_lines := cur, to_lines := sl, position := i } ::
        idlcAux slines sl (i + 1) rest
    else if common ≠ [] then idlcAux slines common (i + 1) rest
    else idlcAux slines cur (i + 1) rest

/-- `_identify_line_changes`: seed the running set with the first
station's lines, then scan the rest of the path. -/
def identify_line_changes (slines : List (String × List String)) (path : List String) :
    List LineChange :=
  match path with
  | [] => []
  | st :: rest => idlcAux slines (canonSet (getLines slines st)) 1 rest

/-- `new_distance < distances[neighbor]` where a missing entry is the
initial `+inf` (every station starts at infinity; a finite value always
beats it). -/
def ltOpt (a : ℤ) : Option ℤ → Bool
  | none => true
  | some b => decide (a < b)

/-- `current_dist > distances[current]`, with `+inf` on the right giving
`false` (a popped station always has a recorded finite distance; the
`none` branch is unreachable on closed graphs). -/
def gtOpt (a : ℤ) : Option ℤ → Bool
  | none => false
  | some b => decide (b < a)

/-- State of Dijkstra's loop in `find_shortest_path`: the distance and
predecessor dicts (total maps, `none` standing for `+inf` resp. `None`),
the heap contents, and the visited set. -/
structure DState where
  dist : String → Option ℤ
  prev : String → Option String
  queue : List (ℤ × String)
  visited : List String

/-- Priority order of heap entries `(distance_from_start, station_name)`:
Python tuple comparison. -/
def pqLt (a b : ℤ × String) : Bool :=
  if a.1 < b.1 then true else if b.1 < a.1 then false else strLt a.2 b.2

/-- Minimal heap entry (ties cannot arise between distinct entries of the
queues the loop builds, and identical entries are interchangeable). -/
def minEntry (x : ℤ × String) : List (ℤ × String) → ℤ × String
  | [] => x
  | y :: ys => if pqLt y x then minEntry y ys else minEntry x ys

/-- Remove the first occurrence of an entry. -/
def eraseEntry (m : ℤ × String) : List (ℤ × String) → List (ℤ × String)
  | [] => []
  | y :: ys => if y = m then ys else y :: eraseEntry m ys

/-- `heapq.heappop`: extract a minimal entry. -/
def popMin (q : List (ℤ × String)) : Option ((ℤ × String) × List (ℤ × String)) :=
  match q with
  | [] => none
  | x :: xs => some (minEntry x xs, eraseEntry (minEntry x xs) (x :: xs))

/-- One neighbor-relaxation step of `find_shortest_path`: skip a visited
neighbor, and on improvement record distance, predecessor and a heap
entry. -/
def relaxStep (u : String) (d : ℤ) (st : DState) (p : String × ℤ) : DState :=
  if smem p.1 st.visited then st
  else
    if ltOpt (d + p.2) (st.dist p.1) then
      { st with
        dist := fun v => if v = p.1 then some (d + p.2) else st.dist v
        prev := fun v => if v = p.1 then some u else st.prev v
        queue := (d + p.2, p.1) :: st.queue }
    else st

/-- The neighbor-relaxation loop of `find_shortest_path`. -/
def relaxFold (u : String) (d : ℤ) (s : DState) (nbrs : List (String × ℤ)) : DState :=
  nbrs.foldl (relaxStep u d) s

/-- The `while pq:` loop of `find_shortest_path`, with fuel (the concrete
fuel below strictly exceeds the possible number of iterations): pop the
minimal entry, skip already-visited stations, stop when the destination is
popped, skip stale entries, else relax the neighbors. -/
def dloop (g : List (String × List (String × ℤ))) (endS : String) :
    Nat → DState → DState
  | 0, s => s
  | f + 1, s =>
    match popMin s.queue with
    | none => s
    | some (e, q) =>
      if smem e.2 s.visited then dloop g endS f { s with queue := q }
      else
        if e.2 = endS then { s with queue := q, visited := e.2 :: s.visited }
        else
          if gtOpt e.1 (s.dist e.2) then dloop g endS f { s with queue := q, visited := e.2 :: s.visited }
          else
            dloop g endS f
              (relaxFold e.2 e.1 { s with queue := q, visited := e.2 :: s.visited }
                ((dget g e.2).getD []))

/-- One iteration more than the heap can ever pop: the initial entry plus
one push per adjacency-list element. -/
def dijFuel (g : List (String × List (String × ℤ))) : Nat :=
  2 + g.length + (g.map (fun p => p.2.length)).sum

/-- The initial Dijkstra state: every distance `+inf` except the source at
0 (`{station: float("infinity") for station in self.stations}` followed by
`distances[start] = 0`; stations outside the dict, which Python would fail
on, are likewise `+inf` here and never touched on closed graphs), no
predecessors, the heap `[(0, start)]`, nothing visited. -/
def initDState (start : String) : DState :=
  { dist := fun v => if v = start then some 0 else none
    prev := fun _ => none
    queue := [(0, start)]
    visited := [] }

/-- Path reconstruction of `find_shortest_path`, written forward: follow
predecessor links from the end (the recorded distance strictly decreases
along predecessor links, so the chain length never reaches the fuel
bound). -/
def reconstruct (prev : String → Option String) : Nat → String → List String
  | 0, v => [v]
  | f + 1, v =>
    match prev v with
    | none => [v]
    | some u => reconstruct prev f u ++ [v]

/-- `find_shortest_path`, parameterized by the station mapping, adjacency
dict and station-lines dict the bound method reads from `self`. -/
def findShortestPathIn (smap : List (String × String))
    (g : List (String × List (String × ℤ))) (slines : List (String × List String))
    (start endS : String) : List String × ℤ × List LineChange :=
  if start = "" ∨ endS = "" then ([], 0, [])
  else
    match resolveStation smap start, resolveStation smap endS with
    | some s, some e =>
      if (dget g s).isNone ∨ (dget g e).isNone then ([], 0, [])
      else
        let fin := dloop g e (dijFuel g) (initDState s)
        match fin.dist e with
        | none => ([], 0, [])
        | some d =>
          let path := reconstruct fin.prev (smap.length + 1) e
          (path, round2 d, identify_line_changes slines path)
    | _, _ => ([], 0, [])

/-- A queue entry of `find_route_least_changes`:
`(changes, distance, station, path, frozenset_of_active_lines)`. -/
structure LCEntry where
  changes : Nat
  dist : ℤ
  station : String
  path : List String
  lines : List String
deriving DecidableEq

/-- Python tuple comparison of queue entries.  Two distinct entries always
differ in the first four components (the path determines the rest), so the
frozenset component never decides and is omitted. -/
def lcLt (a b : LCEntry) : Bool :=
  if a.changes < b.changes then true
  else if b.changes < a.changes then false
  else if a.dist < b.dist then true
  else if b.dist < a.dist then false
  else if strLt a.station b.station then true
  else if strLt b.station a.station then false
  else listLt strLt a.path b.path

/-- Minimal entry of the least-changes queue. -/
def lcMin (x : LCEntry) : List LCEntry → LCEntry
  | [] => x
  | y :: ys => if lcLt y x then lcMin y ys else lcMin x ys

/-- Remove the first occurrence of an entry. -/
def lcErase (m : LCEntry) : List LCEntry → List LCEntry
  | [] => []
  | y :: ys => if y = m then ys else y :: lcErase m ys

/-- `heapq.heappop` for the least-changes queue. -/
def lcPop (q : List LCEntry) : Option (LCEntry × List LCEntry) :=
  match q with
  | [] => none
  | x :: xs => some (lcMin x xs, lcErase (lcMin x xs) (x :: xs))

/-- The neighbor expansion of one popped least-changes state: skip
neighbors already on the path (cycle avoidance); staying on a common line
keeps the intersection and the change count, otherwise charge one change
and reset to the neighbor's full line set. -/
def lcExpand (g : List (String × List (String × ℤ)))
    (slines : List (String × List String)) (en : LCEntry) (q : List LCEntry) :
    List LCEntry :=
  ((dget g en.station).getD []).foldl
    (fun acc p =>
      if smem p.1 en.path then acc
      else
        let nl := canonSet (getLines slines p.1)
        let common := en.lines.filter (fun l => smem l nl)
        (if common ≠ [] then
          { changes := en.changes, dist := en.dist + p.2, station := p.1,
            path := en.path ++ [p.1], lines := common }
        else
          { changes := en.changes + 1, dist := en.dist + p.2, station := p.1,
            path := en.path ++ [p.1], lines := nl }) :: acc)
    q

/-- The `while pq:` loop of `find_route_least_changes`, with fuel (the
concrete fuel below exceeds the number of simple paths and hence of
iterations): pop the minimal entry, return on the destination, apply the
`(station, lineset)`-keyed pruning, else record the key and expand. -/
def lcLoop (g : List (String × List (String × ℤ)))
    (slines : List (String × List String)) (endS : String) :
    Nat → List LCEntry → List ((String × List String) × Nat) →
      List String × ℤ × List LineChange
  | 0, _, _ => ([], 0, [])
  | f + 1, pq, visited =>
    match lcPop pq with
    | none => ([], 0, [])
    | some (en, q) =>
      if en.station = endS then
        (en.path, round2 en.dist, identify_line_changes slines en.path)
      else
        if (match dget visited (en.station, en.lines) with
            | some c => decide (c ≤ en.changes)
            | none => false) then
          lcLoop g slines endS f q visited
        else
          lcLoop g slines endS f (lcExpand g slines en q)
            (dset visited (en.station, en.lines) en.changes)

/-- Fuel exceeding any possible number of least-changes iterations (each
queue entry carries a distinct simple path over the keys of `g` plus the
source). -/
def lcFuel (g : List (String × List (String × ℤ))) : Nat :=
  (g.length + 2) ^ (g.length + 2)

/-- `find_route_least_changes`, parameterized like `findShortestPathIn`. -/
def findLeastChangesIn (smap : List (String × String))
    (g : List (String × List (String × ℤ))) (slines : List (String × List String))
    (start endS : String) : List String × ℤ × List LineChange :=
  if start = "" ∨ endS = "" then ([], 0, [])
  else
    match resolveStation smap start, resolveStation smap endS with
    | some s, some e =>
      lcLoop g slines e (lcFuel g)
        [{ changes := 0, dist := 0, station := s, path := [s],
           lines := canonSet (getLines slines s) }] []
    | _, _ => ([], 0, [])

/-- The bound method `MetroGraph.find_shortest_path` of the constructed
network. -/
def find_shortest_path (start endS : String) : List String × ℤ × List LineChange :=
  findShortestPathIn (stationMapOf metroStations) metroGraph metroStationLines start endS

/-- The bound method `MetroGraph.find_route_least_changes` of the
constructed network. -/
def find_route_least_changes (start endS : String) : List String × ℤ × List LineChange :=
  findLeastChangesIn (stationMapOf metroStations) metroGraph metroStationLines start endS

/-- The stored weight of the ordered pair `(u, v)`: look up `u`'s adjacency
dict, then `v` in it. -/
def dget2 (g : List (String × List (String × ℤ))) (u v : String) : Option ℤ :=
  match dget g u with
  | none => none
  | some adj => dget adj v

/-- An edge of the adjacency dict from `u` to `v`. -/
def EdgeIn (g : List (String × List (String × ℤ))) (u v : String) : Prop :=
  (dget2 g u v).isSome = true

/-- A walk: every consecutive pair of stations is an edge. -/
def IsWalkIn (g : List (String × List (String × ℤ))) (p : List String) : Prop :=
  List.Chain' (EdgeIn g) p

/-- `b` is reachable from `a`: some walk starts at `a` and ends at `b`. -/
def ReachableIn (g : List (String × List (String × ℤ))) (a b : String) : Prop :=
  ∃ p, IsWalkIn g p ∧ p.head? = some a ∧ p.getLast? = some b

/-- The total weight of a walk (the sum of the stored weights of its
consecutive pairs). -/
def walkWeight (g : List (String × List (String × ℤ))) : List String → ℤ
  | u :: v :: rest => (dget2 g u v).getD 0 + walkWeight g (v :: rest)
  | _ => 0

/-- Whether `e2` joins the same unordered station pair as `e1` (used to
state which table rows survive the overwriting build). -/
def samePair (e1 e2 : String × String × ℤ) : Prop :=
  (e2.1 = e1.1 ∧ e2.2.1 = e1.2.1) ∨ (e2.1 = e1.2.1 ∧ e2.2.1 = e1.1)

/-- A two-component toy network (for exercising the no-route behaviour,
which cannot arise on the connected metro network). -/
def toyGraph : List (String × List (String × ℤ)) :=
  [(("Alpha"), [(("Beta"), 1)]), (("Beta"), [(("Alpha"), 1)]), (("Gamma"), [])]

/-- Station mapping of the toy network. -/
def toySmap : List (String × String) :=
  [(("alpha"), ("Alpha")), (("beta"), ("Beta")), (("gamma"), ("Gamma"))]

/-- Station-to-lines dict of the toy network. -/
def toySlines : List (String × List String) :=
  [(("Alpha"), [("Red")]), (("Beta"), [("Red")]), (("Gamma"), [("Blue")])]



/-- `d` is the least total weight of any walk from `a` to `b`. -/
def IsMinDist (g : List (String × List (String × ℤ))) (a b : String) (d : ℤ) : Prop :=
  (∃ p, IsWalkIn g p ∧ p.head? = some a ∧ p.getLast? = some b ∧ walkWeight g p = d) ∧
  (∀ p, IsWalkIn g p → p.head? = some a → p.getLast? = some b → d ≤ walkWeight g p)

/-- Well-formedness of an adjacency dict as the build produces it:
positive weights, duplicate-free keys, duplicate-free adjacency lists. -/
structure GraphWF (g : List (String × List (String × ℤ))) : Prop where
  pos : ∀ u v w, dget2 g u v = some w → 0 < w
  adj_nodup : ∀ u adj, dget g u = some adj → (adj.map Prod.fst).Nodup
  keys_nodup : (g.map Prod.fst).Nodup

/-- Invariant of the Dijkstra loop of `find_shortest_path`, stated over
the state at the top of each iteration; `a` is the resolved source and
`endS` the resolved destination. -/
structure DijkInv (g : List (String × List (String × ℤ))) (a endS : String)
    (s : DState) : Prop where
  sound : ∀ v dv, s.dist v = some dv →
    ∃ p, IsWalkIn g p ∧ p.head? = some a ∧ p.getLast? = some v ∧ walkWeight g p = dv
  vis_some : ∀ v ∈ s.visited, (s.dist v).isSome = true
  vis_opt : ∀ v ∈ s.visited, ∀ dv, s.dist v = some dv →
    ∀ p, IsWalkIn g p → p.head? = some a → p.getLast? = some v → dv ≤ walkWeight g p
  relax_closed : ∀ x ∈ s.visited, ∀ dx, s.dist x = some dx →
    ∀ y w, dget2 g x y = some w → ∃ dy, s.dist y = some dy ∧ dy ≤ dx + w
  queue_complete : ∀ v, ¬ v ∈ s.visited → ∀ dv, s.dist v = some dv → (dv, v) ∈ s.queue
  queue_geq : ∀ e ∈ s.queue, ∃ dx, s.dist e.2 = some dx ∧ dx ≤ e.1
  vis_mono : ∀ y ∈ s.visited, ∀ dy, s.dist y = some dy → ∀ e ∈ s.queue, dy ≤ e.1
  dist_src : s.dist a = some 0
  end_unvisited : ¬ endS ∈ s.visited

/-- Termination potential of the Dijkstra loop: one unit per queue entry
plus, for every not-yet-visited graph key, one unit plus its degree. -/
def dijPot (g : List (String × List (String × ℤ))) (s : DState) : Nat :=
  s.queue.length +
    ((g.map Prod.fst).filter (fun v => ! smem v s.visited)).foldr
      (fun v acc => acc + ((dget g v).getD []).length + 1) 0

set_option maxRecDepth 1000000 in
set_option maxHeartbeats 4000000 in
/-- The built station set evaluates to its literal mirror. -/
theorem metroStations_eq : metroStations = metroStationsL := by rfl

set_option maxRecDepth 1000000 in
set_option maxHeartbeats 8000000 in
/-- The built adjacency dict evaluates to its literal mirror. -/
theorem metroGraph_eq : metroGraph = metroGraphL := by rfl

set_option maxRecDepth 1000000 in
set_option maxHeartbeats 8000000 in
/-- The built station-to-lines dict evaluates to its literal mirror. -/
theorem metroStationLines_eq : metroStationLines = metroStationLinesL := by rfl

set_option maxRecDepth 1000000 in
set_option maxHeartbeats 4000000 in
/-- The station mapping of the literal station list evaluates to its
literal mirror. -/
theorem metroStationMap_eq : stationMapOf metroStationsL = metroStationMapL := by rfl


theorem smem_iff (s : String) (l : List String) : smem s l = true ↔ s ∈ l := by
  induction l with
  | nil => simp [smem]
  | cons x xs ih =>
      by_cases h : x = s
      · subst h; simp [smem]
      · have hne : ¬ s = x := fun hh => h hh.symm
        simp [smem, h, ih, List.mem_cons, hne]

theorem dget_dset {κ α : Type} [DecidableEq κ] (m : List (κ × α)) (k k' : κ) (v : α) :
    dget (dset m k v) k' = if k = k' then some v else dget m k' := by
  induction m with
  | nil =>
      by_cases h : k = k' <;> simp [dset, dget, h]
  | cons p rest ih =>
      obtain ⟨k0, v0⟩ := p
      by_cases h0 : k0 = k
      · subst h0
        by_cases h : k0 = k' <;> simp [dset, dget, h]
      · by_cases h : k0 = k'
        · subst h
          have hk : ¬ k = k0 := fun hh => h0 hh.symm
          simp [dset, dget, h0, hk, ih]
        · simp [dset, dget, h0, h, ih]

theorem dget_ensureKey {κ α : Type} [DecidableEq κ] (m : List (κ × α)) (k k' : κ) (v : α) :
    dget (ensureKey m k v) k' =
      if k = k' then some ((dget m k).getD v) else dget m k' := by
  induction m with
  | nil => by_cases h : k = k' <;> simp [ensureKey, dget, h]
  | cons p rest ih =>
      obtain ⟨k0, v0⟩ := p
      by_cases h0 : k0 = k
      · subst h0
        by_cases h : k0 = k' <;> simp [ensureKey, dget, h]
      · by_cases h : k0 = k'
        · subst h
          have hk : ¬ k = k0 := fun hh => h0 hh.symm
          simp [ensureKey, dget, h0, hk]
        · simp [ensureKey, dget, h0, h, ih]

theorem dget_updAdj (g : List (String × List (String × ℤ))) (a b k : String) (d : ℤ) :
    dget (updAdj g a b d) k =
      if a = k then some (dset ((dget g a).getD []) b d) else dget g k := by
  induction g with
  | nil => by_cases h : a = k <;> simp [updAdj, dget, h, dset]
  | cons p rest ih =>
      obtain ⟨k0, adj⟩ := p
      by_cases h0 : k0 = a
      · subst h0
        by_cases h : k0 = k <;> simp [updAdj, dget, h]
      · by_cases h : k0 = k
        · subst h
          have hk : ¬ a = k0 := fun hh => h0 hh.symm
          simp [updAdj, dget, h0, hk]
        · simp [updAdj, dget, h0, h, ih]

/-- C4: the fare tiers have inclusive upper bounds 2, 5, 12, 21 and 32 with
values 10/20/30/40/50 and 60 beyond; the smart-card fare is the floor of
nine tenths of the token fare; savings are the difference; the
recommendation follows the flag. -/
theorem C4_calculate_fare_spec (d : ℚ) (flag : Bool) :
    ((d ≤ 2 → (calculate_fare d flag).token_fare = 10) ∧
     (2 < d → d ≤ 5 → (calculate_fare d flag).token_fare = 20) ∧
     (5 < d → d ≤ 12 → (calculate_fare d flag).token_fare = 30) ∧
     (12 < d → d ≤ 21 → (calculate_fare d flag).token_fare = 40) ∧
     (21 < d → d ≤ 32 → (calculate_fare d flag).token_fare = 50) ∧
     (32 < d → (calculate_fare d flag).token_fare = 60)) ∧
    (calculate_fare d flag).smart_card_fare =
      ⌊((calculate_fare d flag).token_fare : ℚ) * (9 / 10 : ℚ)⌋ ∧
    (calculate_fare d flag).savings =
      (calculate_fare d flag).token_fare - (calculate_fare d flag).smart_card_fare ∧
    (calculate_fare d flag).recommended_fare =
      (if flag then (calculate_fare d flag).smart_card_fare
       else (calculate_fare d flag).token_fare) := by
  refine ⟨⟨?_, ?_, ?_, ?_, ?_, ?_⟩, ?_, ?_, ?_⟩
  · intro h; simp [calculate_fare, h]
  · intro h1 h2; simp [calculate_fare, h2, show ¬ d ≤ 2 by linarith]
  · intro h1 h2; simp [calculate_fare, h2, show ¬ d ≤ 2 by linarith, show ¬ d ≤ 5 by linarith]
  · intro h1 h2
    simp [calculate_fare, h2, show ¬ d ≤ 2 by linarith, show ¬ d ≤ 5 by linarith,
      show ¬ d ≤ 12 by linarith]
  · intro h1 h2
    simp [calculate_fare, h2, show ¬ d ≤ 2 by linarith, show ¬ d ≤ 5 by linarith,
      show ¬ d ≤ 12 by linarith, show ¬ d ≤ 21 by linarith]
  · intro h1
    simp [calculate_fare, show ¬ d ≤ 2 by linarith, show ¬ d ≤ 5 by linarith,
      show ¬ d ≤ 12 by linarith, show ¬ d ≤ 21 by linarith, show ¬ d ≤ 32 by linarith]
  · rfl
  · rfl
  · cases flag <;> rfl

/-- Witness for C4: the first tier applies at distance 1. -/
theorem C4_calculate_fare_spec_witness :
    (calculate_fare 1 false).token_fare = 10 :=
  (C4_calculate_fare_spec 1 false).1.1 (by norm_num)

theorem dget2_addEdge_self (g : List (String × List (String × ℤ)))
    (e : String × String × ℤ) :
    dget2 (addEdge g e) e.1 e.2.1 = some e.2.2 ∧
    dget2 (addEdge g e) e.2.1 e.1 = some e.2.2 := by
  obtain ⟨a, b, d⟩ := e
  by_cases hab : b = a
  · subst hab
    simp [addEdge, dget2, dget_updAdj, dget_dset]
  · have hba : ¬ a = b := fun h => hab h.symm
    constructor
    · simp [addEdge, dget2, dget_updAdj, dget_ensureKey, hab, hba, dget_dset]
    · simp [addEdge, dget2, dget_updAdj, dget_ensureKey, hab, hba, dget_dset]

/-- Both `setdefault`-style steps of `addEdge` at once: the two touched
keys acquire an empty adjacency list if absent, others are unchanged. -/
theorem dget_ensure2 (g : List (String × List (String × ℤ))) (a b x : String) :
    dget (ensureKey (ensureKey g a []) b []) x =
      (if x = a ∨ x = b then some ((dget g x).getD []) else dget g x) := by
  by_cases hxa : x = a
  · subst hxa
    by_cases hbx : b = x
    · subst hbx
      simp [dget_ensureKey]
    · simp [dget_ensureKey, hbx]
  · by_cases hxb : x = b
    · subst hxb
      have hax : ¬ a = x := fun h => hxa h.symm
      simp [dget_ensureKey, hax, hxa]
    · have hax : ¬ a = x := fun h => hxa h.symm
      have hbx : ¬ b = x := fun h => hxb h.symm
      simp [dget_ensureKey, hax, hbx, hxa, hxb]

/-- An `addEdge` away from either orientation of its own pair, every
stored weight is unchanged. -/
theorem dget2_addEdge_other (g : List (String × List (String × ℤ)))
    (e : String × String × ℤ) (u v : String)
    (h1 : ¬ (u = e.1 ∧ v = e.2.1)) (h2 : ¬ (u = e.2.1 ∧ v = e.1)) :
    dget2 (addEdge g e) u v = dget2 g u v := by
  obtain ⟨a, b, d⟩ := e
  simp only [addEdge, dget2, dget_updAdj]
  by_cases hub : u = b
  · subst hub
    have hva : ¬ v = a := fun hv => h2 ⟨rfl, hv⟩
    have hav : ¬ a = v := fun h => hva h.symm
    simp only [if_pos rfl, dget_dset, if_neg hav]
    by_cases hab : a = u
    · subst hab
      have hvb : ¬ a = v := hav
      simp only [if_pos rfl, dget_dset, if_neg hav, dget_ensure2, if_pos (Or.inl rfl)]
      cases hg : dget g a <;> simp [dget, dget_dset, hav]
    · have hau : ¬ a = u := hab
      simp only [if_neg hau, dget_ensure2, if_pos (Or.inr rfl)]
      cases hg : dget g u <;> simp [dget, dget_dset, hav]
  · by_cases hua : u = a
    · subst hua
      have hvb : ¬ v = b := fun hv => h1 ⟨rfl, hv⟩
      have hbv : ¬ b = v := fun h => hvb h.symm
      have hbu : ¬ b = u := fun h => hub h.symm
      simp only [if_neg hbu, if_pos rfl, dget_dset, if_neg hbv, dget_ensure2,
        if_pos (Or.inl rfl)]
      cases hg : dget g u <;> simp [dget, dget_dset, hbv]
    · have hbu : ¬ b = u := fun h => hub h.symm
      have hau : ¬ a = u := fun h => hua h.symm
      have hor : ¬ (u = a ∨ u = b) := by
        rintro (h | h)
        · exact hua h
        · exact hub h
      simp [if_neg hbu, if_neg hau, dget_ensure2, hor]

/-- `addEdge` preserves symmetry of the stored weights. -/
theorem symm_addEdge (g : List (String × List (String × ℤ)))
    (e : String × String × ℤ) (h : ∀ u v, dget2 g u v = dget2 g v u) :
    ∀ u v, dget2 (addEdge g e) u v = dget2 (addEdge g e) v u := by
  intro u v
  by_cases h1 : (u = e.1 ∧ v = e.2.1) ∨ (u = e.2.1 ∧ v = e.1)
  · rcases h1 with ⟨hu, hv⟩ | ⟨hu, hv⟩
    · subst hu; subst hv
      rw [(dget2_addEdge_self g e).1, (dget2_addEdge_self g e).2]
    · subst hu; subst hv
      rw [(dget2_addEdge_self g e).2, (dget2_addEdge_self g e).1]
  · rw [not_or] at h1
    obtain ⟨hA, hB⟩ := h1
    rw [dget2_addEdge_other g e u v hA hB,
        dget2_addEdge_other g e v u (fun hh => hB ⟨hh.2, hh.1⟩) (fun hh => hA ⟨hh.2, hh.1⟩)]
    exact h u v

/-- The whole build preserves symmetry. -/
theorem symm_foldl (L : List (String × String × ℤ))
    (g : List (String × List (String × ℤ)))
    (h : ∀ u v, dget2 g u v = dget2 g v u) :
    ∀ u v, dget2 (L.foldl addEdge g) u v = dget2 (L.foldl addEdge g) v u := by
  induction L generalizing g with
  | nil => exact h
  | cons e rest ih => exact ih (addEdge g e) (symm_addEdge g e h)

/-- The adjacency dict of the constructed network is symmetric. -/
theorem metroGraph_symm : ∀ u v, dget2 metroGraph u v = dget2 metroGraph v u := by
  have h0 : ∀ u v, dget2 ([] : List (String × List (String × ℤ))) u v =
      dget2 ([] : List (String × List (String × ℤ))) v u := by
    intro u v; rfl
  exact symm_foldl all_lines [] h0

/-- A key present before `addEdge` is present after, and both endpoint
keys are present after. -/
theorem dget_addEdge_isSome (g : List (String × List (String × ℤ)))
    (e : String × String × ℤ) (k : String) :
    ((dget g k).isSome = true → (dget (addEdge g e) k).isSome = true) ∧
    (dget (addEdge g e) e.1).isSome = true ∧
    (dget (addEdge g e) e.2.1).isSome = true := by
  obtain ⟨a, b, d⟩ := e
  refine ⟨?_, ?_, ?_⟩
  · intro hk
    simp only [addEdge, dget_updAdj, dget_ensure2]
    by_cases h1 : b = k
    · simp [h1]
    · by_cases h2 : a = k
      · simp [h1, h2]
      · have : ¬ (k = a ∨ k = b) := by
          rintro (h | h)
          · exact h2 h.symm
          · exact h1 h.symm
        simp [h1, h2, this, hk]
  · simp only [addEdge, dget_updAdj, dget_ensure2]
    by_cases h1 : b = a <;> simp [h1]
  · simp only [addEdge, dget_updAdj, dget_ensure2]
    simp

/-- After the build, a key present at any stage stays present. -/
theorem dget_foldl_isSome_mono (L : List (String × String × ℤ))
    (g : List (String × List (String × ℤ))) (k : String)
    (hk : (dget g k).isSome = true) :
    (dget (L.foldl addEdge g) k).isSome = true := by
  induction L generalizing g with
  | nil => exact hk
  | cons e rest ih => exact ih (addEdge g e) ((dget_addEdge_isSome g e k).1 hk)

/-- Every endpoint of every table row is a key of the built adjacency
dict. -/
theorem dget_foldl_isSome (L : List (String × String × ℤ))
    (g : List (String × List (String × ℤ))) (e : String × String × ℤ)
    (he : e ∈ L) :
    (dget (L.foldl addEdge g) e.1).isSome = true ∧
    (dget (L.foldl addEdge g) e.2.1).isSome = true := by
  induction L generalizing g with
  | nil => cases he
  | cons e0 rest ih =>
      rcases List.mem_cons.mp he with h | h
      · subst h
        exact ⟨dget_foldl_isSome_mono rest _ _ (dget_addEdge_isSome g e e.1).2.1,
               dget_foldl_isSome_mono rest _ _ (dget_addEdge_isSome g e e.1).2.2⟩
      · exact ih (addEdge g e0) h

/-- Membership in a Python-set list after insertion. -/
theorem mem_sadd (l : List String) (s x : String) :
    x ∈ sadd l s ↔ x ∈ l ∨ x = s := by
  induction l with
  | nil => simp [sadd]
  | cons y ys ih =>
      by_cases h : y = s
      · subst h
        simp [sadd]
        intro hx
        exact Or.inl hx
      · simp [sadd, h, List.mem_cons, ih, or_assoc]

/-- The station fold only grows the set. -/
theorem mem_stations_foldl_mono (L : List (String × String × ℤ))
    (st : List String) (x : String) (hx : x ∈ st) :
    x ∈ L.foldl (fun st e => sadd (sadd st e.1) e.2.1) st := by
  induction L generalizing st with
  | nil => exact hx
  | cons e rest ih =>
      exact ih _ ((mem_sadd _ _ _).mpr (Or.inl ((mem_sadd _ _ _).mpr (Or.inl hx))))

/-- Both endpoints of every table row are in the station set. -/
theorem mem_stations_foldl (L : List (String × String × ℤ))
    (st : List String) (e : String × String × ℤ) (he : e ∈ L) :
    e.1 ∈ L.foldl (fun st e => sadd (sadd st e.1) e.2.1) st ∧
    e.2.1 ∈ L.foldl (fun st e => sadd (sadd st e.1) e.2.1) st := by
  induction L generalizing st with
  | nil => cases he
  | cons e0 rest ih =>
      rcases List.mem_cons.mp he with h | h
      · subst h
        constructor
        · exact mem_stations_foldl_mono rest _ _
            ((mem_sadd _ _ _).mpr (Or.inl ((mem_sadd _ _ _).mpr (Or.inr rfl))))
        · exact mem_stations_foldl_mono rest _ _ ((mem_sadd _ _ _).mpr (Or.inr rfl))
      · exact ih _ h

/-- Once both orientations of a pair hold weight `d`, edges on other pairs
never change that. -/
theorem dget2_foldl_frozen (L : List (String × String × ℤ))
    (g : List (String × List (String × ℤ))) (e : String × String × ℤ)
    (hset : dget2 g e.1 e.2.1 = some e.2.2 ∧ dget2 g e.2.1 e.1 = some e.2.2)
    (hno : ∀ e2 ∈ L, ¬ samePair e e2) :
    dget2 (L.foldl addEdge g) e.1 e.2.1 = some e.2.2 ∧
    dget2 (L.foldl addEdge g) e.2.1 e.1 = some e.2.2 := by
  induction L generalizing g with
  | nil => exact hset
  | cons e0 rest ih =>
      have hnp : ¬ samePair e e0 := hno e0 (List.mem_cons_self _ _)
      rw [samePair, not_or] at hnp
      obtain ⟨hp1, hp2⟩ := hnp
      have hs1 : dget2 (addEdge g e0) e.1 e.2.1 = some e.2.2 := by
        rw [dget2_addEdge_other g e0 e.1 e.2.1
          (fun hh => hp1 ⟨hh.1.symm, hh.2.symm⟩) (fun hh => hp2 ⟨hh.2.symm, hh.1.symm⟩)]
        exact hset.1
      have hs2 : dget2 (addEdge g e0) e.2.1 e.1 = some e.2.2 := by
        rw [dget2_addEdge_other g e0 e.2.1 e.1
          (fun hh => hp2 ⟨hh.1.symm, hh.2.symm⟩) (fun hh => hp1 ⟨hh.2.symm, hh.1.symm⟩)]
        exact hset.2
      exact ih (addEdge g e0) ⟨hs1, hs2⟩ (fun e2 h2 => hno e2 (List.mem_cons_of_mem _ h2))

set_option maxRecDepth 100000 in
/-- C6 counterexample: the blue-branch row (Karkardooma, Anand Vihar ISBT, 1.1)
is a row of the static table, yet the graph stores 1.2 for that pair in
both directions — the later pink-line row for the same unordered pair
overwrote it, so "the graph stores d" fails for this table edge. -/
theorem C6_counterexample :
    (("Karkardooma"), ("Anand Vihar ISBT"), (11 : ℤ)) ∈ all_lines ∧
    dget2 metroGraph ("Karkardooma") ("Anand Vihar ISBT") = some (12 : ℤ) ∧
    ¬ dget2 metroGraph ("Karkardooma") ("Anand Vihar ISBT") = some (11 : ℤ) := by
  refine ⟨by decide, ?_, ?_⟩
  · rw [show metroGraph = metroGraphL from metroGraph_eq]
    decide
  · rw [show metroGraph = metroGraphL from metroGraph_eq]
    decide

/-- C6 (amended): the adjacency dict of the built network is symmetric;
every endpoint of every table row is in the station set and is an
adjacency key; and every table row that is the last row for its unordered
pair is stored with its weight in both directions.  (The unamended claim —
every row is stored as written — is refuted by `C6_counterexample`: a
duplicated pair keeps only the last weight.) -/
theorem C6_build_invariants :
    (∀ u v, dget2 metroGraph u v = dget2 metroGraph v u) ∧
    (∀ e ∈ all_lines, e.1 ∈ metroStations ∧ e.2.1 ∈ metroStations ∧
       (dget metroGraph e.1).isSome = true ∧ (dget metroGraph e.2.1).isSome = true) ∧
    (∀ (e : String × String × ℤ) (L1 L2 : List (String × String × ℤ)),
       all_lines = L1 ++ e :: L2 → (∀ e2 ∈ L2, ¬ samePair e e2) →
       dget2 metroGraph e.1 e.2.1 = some e.2.2 ∧
       dget2 metroGraph e.2.1 e.1 = some e.2.2) := by
  refine ⟨metroGraph_symm, ?_, ?_⟩
  · intro e he
    exact ⟨(mem_stations_foldl all_lines [] e he).1,
           (mem_stations_foldl all_lines [] e he).2,
           (dget_foldl_isSome all_lines [] e he).1,
           (dget_foldl_isSome all_lines [] e he).2⟩
  · intro e L1 L2 hsplit hno
    have : metroGraph = L2.foldl addEdge (addEdge (L1.foldl addEdge []) e) := by
      rw [metroGraph, hsplit, List.foldl_append]
      rfl
    rw [this]
    exact dget2_foldl_frozen L2 _ e (dget2_addEdge_self _ e) hno

set_option maxRecDepth 100000 in
/-- Witness for C6 (amended) at the final grey-line row, which is the last
row of the table and so trivially last for its pair. -/
theorem C6_build_invariants_witness :
    dget2 metroGraph ("Najafgarh") ("Dhansa Bus Stand") = some (11 : ℤ) :=
  (C6_build_invariants.2.2 (("Najafgarh"), ("Dhansa Bus Stand"), (11 : ℤ))
    (all_lines.take 232) [] (by decide) (by simp)).1

/-- Empty inputs short-circuit `find_shortest_path`. -/
theorem findShortestPathIn_empty (smap : List (String × String))
    (g : List (String × List (String × ℤ))) (slines : List (String × List String))
    (raw1 raw2 : String) (h : raw1 = "" ∨ raw2 = "") :
    findShortestPathIn smap g slines raw1 raw2 = ([], 0, []) := by
  unfold findShortestPathIn
  simp [h]

/-- Empty inputs short-circuit `find_route_least_changes`. -/
theorem findLeastChangesIn_empty (smap : List (String × String))
    (g : List (String × List (String × ℤ))) (slines : List (String × List String))
    (raw1 raw2 : String) (h : raw1 = "" ∨ raw2 = "") :
    findLeastChangesIn smap g slines raw1 raw2 = ([], 0, []) := by
  unfold findLeastChangesIn
  simp [h]

/-- A failed resolution short-circuits `find_shortest_path`. -/
theorem findShortestPathIn_resolve_fail (smap : List (String × String))
    (g : List (String × List (String × ℤ))) (slines : List (String × List String))
    (raw1 raw2 : String)
    (h : resolveStation smap raw1 = none ∨ resolveStation smap raw2 = none) :
    findShortestPathIn smap g slines raw1 raw2 = ([], 0, []) := by
  unfold findShortestPathIn
  by_cases hg : raw1 = "" ∨ raw2 = ""
  · simp [hg]
  · rcases h with h1 | h1 <;>
      cases h2 : resolveStation smap raw1 <;> cases h3 : resolveStation smap raw2 <;>
        simp_all

/-- A failed resolution short-circuits `find_route_least_changes`. -/
theorem findLeastChangesIn_resolve_fail (smap : List (String × String))
    (g : List (String × List (String × ℤ))) (slines : List (String × List String))
    (raw1 raw2 : String)
    (h : resolveStation smap raw1 = none ∨ resolveStation smap raw2 = none) :
    findLeastChangesIn smap g slines raw1 raw2 = ([], 0, []) := by
  unfold findLeastChangesIn
  by_cases hg : raw1 = "" ∨ raw2 = ""
  · simp [hg]
  · rcases h with h1 | h1 <;>
      cases h2 : resolveStation smap raw1 <;> cases h3 : resolveStation smap raw2 <;>
        simp_all

set_option maxRecDepth 400000 in
/-- C1 counterexample: at a concrete unknown input, both search operations
RETURN the plain triple ([], 0, []) — no exception escapes and no
StationNotFoundError exists anywhere in the program — refuting the claim
that an unresolved name fails with StationNotFoundError rather than
returning a normal result. -/
theorem C1_counterexample :
    resolveStation (stationMapOf metroStations) ("Fake Station") = none ∧
    find_shortest_path ("Fake Station") ("Rajiv Chowk") = ([], 0, []) ∧
    find_route_least_changes ("Fake Station") ("Rajiv Chowk") = ([], 0, []) := by
  refine ⟨?_, ?_, ?_⟩
  · rw [metroStations_eq, metroStationMap_eq]
    decide
  · rw [find_shortest_path, metroStations_eq, metroStationMap_eq, metroGraph_eq,
      metroStationLines_eq]
    decide
  · rw [find_route_least_changes, metroStations_eq, metroStationMap_eq, metroGraph_eq,
      metroStationLines_eq]
    decide

/-- C1 (amended): when either raw station name fails to resolve, both
search operations return the empty result ([], 0, []) — exactly the same
normal value as a no-route outcome — instead of raising any error. -/
theorem C1_unknown_station_empty (raw1 raw2 : String)
    (h : resolveStation (stationMapOf metroStations) raw1 = none ∨
         resolveStation (stationMapOf metroStations) raw2 = none) :
    find_shortest_path raw1 raw2 = ([], 0, []) ∧
    find_route_least_changes raw1 raw2 = ([], 0, []) :=
  ⟨findShortestPathIn_resolve_fail _ _ _ _ _ h,
   findLeastChangesIn_resolve_fail _ _ _ _ _ h⟩

set_option maxRecDepth 400000 in
/-- Witness for C1 (amended) at a second concrete unknown name. -/
theorem C1_unknown_station_empty_witness :
    find_shortest_path ("Xyzzy") ("Kashmere Gate") = ([], 0, []) ∧
    find_route_least_changes ("Xyzzy") ("Kashmere Gate") = ([], 0, []) :=
  C1_unknown_station_empty ("Xyzzy") ("Kashmere Gate")
    (Or.inl (by rw [metroStations_eq, metroStationMap_eq]; decide))

/-- C9: both search operations are total Lean functions into result
triples (no exception escapes: every failure path of the source returns
([], 0, [])); in particular empty and unresolvable inputs give exactly
([], 0, []). -/
theorem C9_total_empty_inputs (raw1 raw2 : String) :
    ((raw1 = "" ∨ raw2 = "") →
      find_shortest_path raw1 raw2 = ([], 0, []) ∧
      find_route_least_changes raw1 raw2 = ([], 0, [])) ∧
    ((resolveStation (stationMapOf metroStations) raw1 = none ∨
      resolveStation (stationMapOf metroStations) raw2 = none) →
      find_shortest_path raw1 raw2 = ([], 0, []) ∧
      find_route_least_changes raw1 raw2 = ([], 0, [])) := by
  constructor
  · intro h
    exact ⟨findShortestPathIn_empty _ _ _ _ _ h, findLeastChangesIn_empty _ _ _ _ _ h⟩
  · intro h
    exact ⟨findShortestPathIn_resolve_fail _ _ _ _ _ h,
           findLeastChangesIn_resolve_fail _ _ _ _ _ h⟩

/-- Witness for C9 at the empty first input. -/
theorem C9_total_empty_inputs_witness :
    find_shortest_path ("") ("Rajiv Chowk") = ([], 0, []) ∧
    find_route_least_changes ("") ("Rajiv Chowk") = ([], 0, []) :=
  (C9_total_empty_inputs ("") ("Rajiv Chowk")).1 (Or.inl rfl)

/-- Self-route through `find_shortest_path`: when both inputs resolve to
the same station `A` which is an adjacency key, the first heap pop is the
destination, the loop breaks, and the reconstruction yields ([A], 0, []). -/
theorem findShortestPathIn_self (smap : List (String × String))
    (g : List (String × List (String × ℤ))) (slines : List (String × List String))
    (raw1 raw2 A : String) (h1 : ¬ (raw1 = "" ∨ raw2 = ""))
    (hr1 : resolveStation smap raw1 = some A) (hr2 : resolveStation smap raw2 = some A)
    (hg : (dget g A).isSome = true) :
    findShortestPathIn smap g slines raw1 raw2 = ([A], 0, []) := by
  unfold findShortestPathIn
  have hnone : (dget g A).isNone = false := by
    cases hd : dget g A <;> simp_all
  obtain ⟨f, hf⟩ : ∃ f, dijFuel g = f + 1 :=
    ⟨dijFuel g - 1, by unfold dijFuel; omega⟩
  simp only [if_neg h1, hr1, hr2, hnone, hf]
  simp only [Bool.or_self, Bool.false_eq_true, if_false, dloop, initDState, popMin,
    minEntry, eraseEntry, smem]
  simp [reconstruct, identify_line_changes, idlcAux, round2]

/-- Self-route through `find_route_least_changes`: the initial queue entry
is popped, its station equals the destination, and the result is
([A], 0, []) by the normal goal test with no special case. -/
theorem findLeastChangesIn_self (smap : List (String × String))
    (g : List (String × List (String × ℤ))) (slines : List (String × List String))
    (raw1 raw2 A : String) (h1 : ¬ (raw1 = "" ∨ raw2 = ""))
    (hr1 : resolveStation smap raw1 = some A) (hr2 : resolveStation smap raw2 = some A) :
    findLeastChangesIn smap g slines raw1 raw2 = ([A], 0, []) := by
  unfold findLeastChangesIn
  obtain ⟨f, hf⟩ : ∃ f, lcFuel g = f + 1 :=
    ⟨lcFuel g - 1, by
      have : 0 < lcFuel g := by
        unfold lcFuel
        positivity
      omega⟩
  simp only [if_neg h1, hr1, hr2, hf]
  simp only [lcLoop, lcPop, lcMin, lcErase]
  simp [identify_line_changes, idlcAux, round2]

/-- C2: a self-route query — both raw inputs resolving to the same station
`A` of the network — returns the path [A], distance 0 and no line changes,
from the shortest-path search (pop-and-break plus reconstruction) and from
the least-changes search (plain pop-on-goal, no special case). -/
theorem C2_self_route (raw1 raw2 A : String) (h1 : ¬ (raw1 = "" ∨ raw2 = ""))
    (hr1 : resolveStation (stationMapOf metroStations) raw1 = some A)
    (hr2 : resolveStation (stationMapOf metroStations) raw2 = some A)
    (hg : (dget metroGraph A).isSome = true) :
    find_shortest_path raw1 raw2 = ([A], 0, []) ∧
    find_route_least_changes raw1 raw2 = ([A], 0, []) :=
  ⟨findShortestPathIn_self _ _ _ _ _ _ h1 hr1 hr2 hg,
   findLeastChangesIn_self _ _ _ _ _ _ h1 hr1 hr2⟩

set_option maxRecDepth 400000 in
/-- Witness for C2: the self-route at Rajiv Chowk (with differing raw
spellings resolving to the same station). -/
theorem C2_self_route_witness :
    find_shortest_path ("Rajiv Chowk") ("  rajiv chowk  ") = ([("Rajiv Chowk")], 0, []) ∧
    find_route_least_changes ("Rajiv Chowk") ("  rajiv chowk  ") = ([("Rajiv Chowk")], 0, []) :=
  C2_self_route ("Rajiv Chowk") ("  rajiv chowk  ") ("Rajiv Chowk")
    (by decide)
    (by rw [metroStations_eq, metroStationMap_eq]; decide)
    (by rw [metroStations_eq, metroStationMap_eq]; decide)
    (by rw [metroGraph_eq]; decide)

/-- A key that owns an entry of an association list looks up to something. -/
theorem dget_isSome_of_mem {κ α : Type} [DecidableEq κ] (m : List (κ × α))
    (p : κ × α) (hp : p ∈ m) : (dget m p.1).isSome = true := by
  induction m with
  | nil => cases hp
  | cons q rest ih =>
      rcases List.mem_cons.mp hp with h | h
      · subst h; simp [dget]
      · by_cases hq : q.1 = p.1
        · cases q; simp_all [dget]
        · cases q; simp only [dget]; simp_all [ih h]

/-- Every neighbor delivered to the relaxation loop is an edge target. -/
theorem edge_of_mem_adj (g : List (String × List (String × ℤ))) (u : String)
    (p : String × ℤ) (hp : p ∈ (dget g u).getD []) : EdgeIn g u p.1 := by
  unfold EdgeIn dget2
  cases hg : dget g u with
  | none => rw [hg] at hp; cases hp
  | some adj =>
      rw [hg] at hp
      exact dget_isSome_of_mem adj p hp

/-- Relaxation preserves the predecessor-edge invariant. -/
theorem relaxFold_prev_edge (g : List (String × List (String × ℤ))) (u : String)
    (d : ℤ) (s : DState) (nbrs : List (String × ℤ))
    (hnb : ∀ p ∈ nbrs, EdgeIn g u p.1)
    (hs : ∀ v w, s.prev v = some w → EdgeIn g w v) :
    ∀ v w, (relaxFold u d s nbrs).prev v = some w → EdgeIn g w v := by
  induction nbrs generalizing s with
  | nil => exact hs
  | cons p rest ih =>
      show ∀ v w, (relaxFold u d (relaxStep u d s p) rest).prev v = some w →
        EdgeIn g w v
      refine ih _ (fun q hq => hnb q (List.mem_cons_of_mem _ hq)) ?_
      intro v w hvw
      unfold relaxStep at hvw
      by_cases h1 : smem p.1 s.visited = true
      · rw [if_pos h1] at hvw
        exact hs v w hvw
      · rw [if_neg (by simp [h1])] at hvw
        by_cases h2 : ltOpt (d + p.2) (s.dist p.1) = true
        · rw [if_pos h2] at hvw
          simp only at hvw
          by_cases hv : v = p.1
          · rw [if_pos hv] at hvw
            cases hvw
            rw [hv]
            exact hnb p (List.mem_cons_self _ _)
          · rw [if_neg hv] at hvw
            exact hs v w hvw
        · rw [if_neg (by simp [h2])] at hvw
          exact hs v w hvw

/-- The whole Dijkstra loop preserves the predecessor-edge invariant. -/
theorem dloop_prev_edge (g : List (String × List (String × ℤ))) (endS : String)
    (f : Nat) (s : DState)
    (hs : ∀ v w, s.prev v = some w → EdgeIn g w v) :
    ∀ v w, (dloop g endS f s).prev v = some w → EdgeIn g w v := by
  induction f generalizing s with
  | zero => exact hs
  | succ f ih =>
      rw [dloop]
      cases hp : popMin s.queue with
      | none => exact hs
      | some pr =>
          obtain ⟨e, q⟩ := pr
          simp only
          by_cases h1 : smem e.2 s.visited
          · simp only [h1, if_true]
            exact ih _ hs
          · simp only [h1, Bool.false_eq_true, if_false]
            by_cases h2 : e.2 = endS
            · simp only [h2, if_true]
              exact hs
            · simp only [h2, if_false]
              by_cases h3 : gtOpt e.1 (s.dist e.2) = true
              · simp only [h3, if_true]
                exact ih _ hs
              · simp only [h3, Bool.false_eq_true, if_false]
                exact ih _ (relaxFold_prev_edge g e.2 e.1 _ _
                  (fun p hp2 => edge_of_mem_adj g e.2 p hp2) hs)

/-- Reconstruction along predecessor links yields an edge-chain ending at
the requested station. -/
theorem reconstruct_chain (g : List (String × List (String × ℤ)))
    (prev : String → Option String)
    (hprev : ∀ v w, prev v = some w → EdgeIn g w v) :
    ∀ (f : Nat) (v : String),
      List.Chain' (EdgeIn g) (reconstruct prev f v) ∧
      (reconstruct prev f v).getLast? = some v := by
  intro f
  induction f with
  | zero => intro v; simp [reconstruct]
  | succ f ih =>
      intro v
      cases hp : prev v with
      | none => simp [reconstruct, hp]
      | some u =>
          have hu := ih u
          refine ⟨?_, ?_⟩
          · simp only [reconstruct, hp]
            refine List.Chain'.append hu.1 (by simp) ?_
            intro x hx y hy
            simp only [List.head?_cons, Option.mem_def, Option.some.injEq] at hy
            subst hy
            rw [hu.2] at hx
            simp only [Option.mem_def, Option.some.injEq] at hx
            subst hx
            exact hprev v u hp
          · simp [reconstruct, hp]

/-- Every path returned by `find_shortest_path` is an edge-chain of its
graph. -/
theorem findShortestPathIn_chain (smap : List (String × String))
    (g : List (String × List (String × ℤ))) (slines : List (String × List String))
    (raw1 raw2 : String) :
    List.Chain' (EdgeIn g) (findShortestPathIn smap g slines raw1 raw2).1 := by
  unfold findShortestPathIn
  by_cases hg : raw1 = "" ∨ raw2 = ""
  · simp [hg]
  · rw [if_neg hg]
    cases h1 : resolveStation smap raw1 with
    | none => simp
    | some s =>
        cases h2 : resolveStation smap raw2 with
        | none => simp
        | some e =>
            simp only
            by_cases h3 : (dget g s).isNone = true ∨ (dget g e).isNone = true
            · rw [if_pos h3]
              simp
            · rw [if_neg h3]
              cases h4 : (dloop g e (dijFuel g) (initDState s)).dist e with
              | none => simp
              | some d =>
                  simp only
                  have hprev : ∀ v w,
                      (dloop g e (dijFuel g) (initDState s)).prev v = some w →
                      EdgeIn g w v := by
                    refine dloop_prev_edge g e (dijFuel g) (initDState s) ?_
                    intro v w hvw
                    simp [initDState] at hvw
                  exact (reconstruct_chain g _ hprev (smap.length + 1) e).1

/-- Membership of the popped least-changes entry. -/
theorem lcMin_mem (x : LCEntry) (xs : List LCEntry) : lcMin x xs ∈ x :: xs := by
  induction xs generalizing x with
  | nil => simp [lcMin]
  | cons y ys ih =>
      simp only [lcMin]
      by_cases h : lcLt y x = true
      · rw [if_pos h]
        rcases List.mem_cons.mp (ih y) with h1 | h1
        · rw [h1]; simp
        · simp [List.mem_cons, h1]
      · rw [if_neg (by simp [h])]
        rcases List.mem_cons.mp (ih x) with h1 | h1
        · rw [h1]; simp
        · simp [List.mem_cons, h1]

/-- Erasure only removes entries. -/
theorem lcErase_subset (m : LCEntry) (l : List LCEntry) :
    ∀ y ∈ lcErase m l, y ∈ l := by
  induction l with
  | nil => simp [lcErase]
  | cons z zs ih =>
      intro y hy
      simp only [lcErase] at hy
      by_cases h : z = m
      · rw [if_pos h] at hy
        exact List.mem_cons_of_mem _ hy
      · rw [if_neg h] at hy
        rcases List.mem_cons.mp hy with h1 | h1
        · rw [h1]; simp
        · exact List.mem_cons_of_mem _ (ih y h1)

/-- Expansion preserves that every queued path is an edge-chain ending at
its entry's station. -/
theorem lcExpand_inv (g : List (String × List (String × ℤ)))
    (slines : List (String × List String)) (en : LCEntry) (q : List LCEntry)
    (hen : List.Chain' (EdgeIn g) en.path ∧ en.path.getLast? = some en.station)
    (hq : ∀ x ∈ q, List.Chain' (EdgeIn g) x.path ∧ x.path.getLast? = some x.station) :
    ∀ x ∈ lcExpand g slines en q,
      List.Chain' (EdgeIn g) x.path ∧ x.path.getLast? = some x.station := by
  unfold lcExpand
  have hstep : ∀ (nbrs : List (String × ℤ)) (acc : List LCEntry),
      (∀ p ∈ nbrs, EdgeIn g en.station p.1) →
      (∀ x ∈ acc, List.Chain' (EdgeIn g) x.path ∧ x.path.getLast? = some x.station) →
      ∀ x ∈ nbrs.foldl (fun acc p =>
          if smem p.1 en.path then acc
          else
            (if en.lines.filter (fun l => smem l (canonSet (getLines slines p.1))) ≠ [] then
              { changes := en.changes, dist := en.dist + p.2, station := p.1,
                path := en.path ++ [p.1],
                lines := en.lines.filter (fun l => smem l (canonSet (getLines slines p.1))) }
            else
              { changes := en.changes + 1, dist := en.dist + p.2, station := p.1,
                path := en.path ++ [p.1],
                lines := canonSet (getLines slines p.1) }) :: acc) acc,
        List.Chain' (EdgeIn g) x.path ∧ x.path.getLast? = some x.station := by
    intro nbrs
    induction nbrs with
    | nil => intro acc _ hacc; exact hacc
    | cons p rest ih =>
        intro acc hnb hacc
        simp only [List.foldl_cons]
        refine ih _ (fun q2 hq2 => hnb q2 (List.mem_cons_of_mem _ hq2)) ?_
        intro x hx
        by_cases h1 : smem p.1 en.path = true
        · rw [if_pos h1] at hx
          exact hacc x hx
        · rw [if_neg (by simp [h1])] at hx
          have hnewpath : List.Chain' (EdgeIn g) (en.path ++ [p.1]) ∧
              (en.path ++ [p.1]).getLast? = some p.1 := by
            constructor
            · refine List.Chain'.append hen.1 (by simp) ?_
              intro a ha b hb
              simp only [List.head?_cons, Option.mem_def, Option.some.injEq] at hb
              subst hb
              rw [hen.2] at ha
              simp only [Option.mem_def, Option.some.injEq] at ha
              subst ha
              exact hnb p (List.mem_cons_self _ _)
            · simp
          rcases List.mem_cons.mp hx with h2 | h2
          · by_cases h3 : en.lines.filter
                (fun l => smem l (canonSet (getLines slines p.1))) ≠ []
            · rw [if_pos h3] at h2
              rw [h2]
              exact hnewpath
            · rw [if_neg h3] at h2
              rw [h2]
              exact hnewpath
          · exact hacc x h2
  intro x hx
  refine hstep _ q (fun p hp => edge_of_mem_adj g en.station p hp) hq x ?_
  exact hx

/-- The least-changes loop only returns edge-chains. -/
theorem lcLoop_chain (g : List (String × List (String × ℤ)))
    (slines : List (String × List String)) (endS : String) (f : Nat)
    (pq : List LCEntry) (visited : List ((String × List String) × Nat))
    (hq : ∀ x ∈ pq, List.Chain' (EdgeIn g) x.path ∧ x.path.getLast? = some x.station) :
    List.Chain' (EdgeIn g) (lcLoop g slines endS f pq visited).1 := by
  induction f generalizing pq visited with
  | zero => simp [lcLoop]
  | succ f ih =>
      rw [lcLoop]
      cases hp : lcPop pq with
      | none => simp
      | some pr =>
          obtain ⟨en, q⟩ := pr
          have hmem : en ∈ pq ∧ ∀ y ∈ q, y ∈ pq := by
            cases pq with
            | nil => simp [lcPop] at hp
            | cons x xs =>
                simp only [lcPop, Option.some.injEq] at hp
                injection hp with hp1 hp2
                constructor
                · rw [← hp1]
                  exact lcMin_mem x xs
                · intro y hy
                  rw [← hp2] at hy
                  exact lcErase_subset _ _ y hy
          have hen : en ∈ pq := hmem.1
          have hqsub : ∀ y ∈ q, y ∈ pq := hmem.2
          simp only
          by_cases h1 : en.station = endS
          · simp only [h1, if_true]
            exact (hq en hen).1
          · simp only [h1, if_false]
            cases hv : dget visited (en.station, en.lines) with
            | none =>
                simp only
                exact ih _ _ (lcExpand_inv g slines en q (hq en hen)
                  (fun y hy => hq y (hqsub y hy)))
            | some c =>
                simp only
                by_cases h2 : decide (c ≤ en.changes) = true
                · simp only [h2, if_true]
                  exact ih _ _ (fun y hy => hq y (hqsub y hy))
                · simp only [h2, Bool.false_eq_true, if_false]
                  exact ih _ _ (lcExpand_inv g slines en q (hq en hen)
                    (fun y hy => hq y (hqsub y hy)))

/-- Every path returned by `find_route_least_changes` is an edge-chain. -/
theorem findLeastChangesIn_chain (smap : List (String × String))
    (g : List (String × List (String × ℤ))) (slines : List (String × List String))
    (raw1 raw2 : String) :
    List.Chain' (EdgeIn g) (findLeastChangesIn smap g slines raw1 raw2).1 := by
  unfold findLeastChangesIn
  by_cases hg : raw1 = "" ∨ raw2 = ""
  · simp [hg]
  · rw [if_neg hg]
    cases h1 : resolveStation smap raw1 with
    | none => simp
    | some s =>
        cases h2 : resolveStation smap raw2 with
        | none => simp
        | some e =>
            simp only
            refine lcLoop_chain g slines e (lcFuel g) _ [] ?_
            intro x hx
            simp only [List.mem_singleton] at hx
            subst hx
            simp

/-- C7: for every pair of inputs, every consecutive pair of stations in the
path returned by either search operation is an edge of the network's
adjacency dict (continuity; vacuous for paths shorter than 2). -/
theorem C7_path_continuity (raw1 raw2 : String) :
    List.Chain' (EdgeIn metroGraph) (find_shortest_path raw1 raw2).1 ∧
    List.Chain' (EdgeIn metroGraph) (find_route_least_changes raw1 raw2).1 :=
  ⟨findShortestPathIn_chain (stationMapOf metroStations) metroGraph metroStationLines raw1 raw2,
   findLeastChangesIn_chain (stationMapOf metroStations) metroGraph metroStationLines raw1 raw2⟩

/-- Reachability is reflexive (the one-station walk). -/
theorem reachable_refl (g : List (String × List (String × ℤ))) (a : String) :
    ReachableIn g a a :=
  ⟨[a], by simp [IsWalkIn], by simp, by simp⟩

/-- Reachability extends along an edge. -/
theorem reachable_step (g : List (String × List (String × ℤ))) (a u v : String)
    (h : ReachableIn g a u) (he : EdgeIn g u v) : ReachableIn g a v := by
  obtain ⟨p, hw, hh, hl⟩ := h
  refine ⟨p ++ [v], ?_, ?_, by simp⟩
  · refine List.Chain'.append hw (by simp [IsWalkIn]) ?_
    intro x hx y hy
    simp only [List.head?_cons, Option.mem_def, Option.some.injEq] at hy
    subst hy
    rw [hl] at hx
    simp only [Option.mem_def, Option.some.injEq] at hx
    subst hx
    exact he
  · cases p with
    | nil => simp at hh
    | cons z zs => simpa using hh

/-- Membership of the popped heap entry. -/
theorem minEntry_mem (x : ℤ × String) (xs : List (ℤ × String)) :
    minEntry x xs ∈ x :: xs := by
  induction xs generalizing x with
  | nil => simp [minEntry]
  | cons y ys ih =>
      simp only [minEntry]
      by_cases h : pqLt y x = true
      · rw [if_pos h]
        rcases List.mem_cons.mp (ih y) with h1 | h1
        · rw [h1]; simp
        · simp [List.mem_cons, h1]
      · rw [if_neg (by simp [h])]
        rcases List.mem_cons.mp (ih x) with h1 | h1
        · rw [h1]; simp
        · simp [List.mem_cons, h1]

/-- Heap erasure only removes entries. -/
theorem eraseEntry_subset (m : ℤ × String) (l : List (ℤ × String)) :
    ∀ y ∈ eraseEntry m l, y ∈ l := by
  induction l with
  | nil => simp [eraseEntry]
  | cons z zs ih =>
      intro y hy
      simp only [eraseEntry] at hy
      by_cases h : z = m
      · rw [if_pos h] at hy
        exact List.mem_cons_of_mem _ hy
      · rw [if_neg h] at hy
        rcases List.mem_cons.mp hy with h1 | h1
        · rw [h1]; simp
        · exact List.mem_cons_of_mem _ (ih y h1)

/-- Relaxation preserves soundness: finite distances only at reachable
stations, and every queued station has a finite distance. -/
theorem relaxFold_sound (g : List (String × List (String × ℤ))) (a u : String)
    (d : ℤ) (s : DState) (nbrs : List (String × ℤ))
    (hu : ReachableIn g a u)
    (hnb : ∀ p ∈ nbrs, EdgeIn g u p.1)
    (h1 : ∀ v dd, s.dist v = some dd → ReachableIn g a v)
    (h2 : ∀ p ∈ s.queue, (s.dist p.2).isSome = true) :
    (∀ v dd, (relaxFold u d s nbrs).dist v = some dd → ReachableIn g a v) ∧
    (∀ p ∈ (relaxFold u d s nbrs).queue,
      ((relaxFold u d s nbrs).dist p.2).isSome = true) := by
  induction nbrs generalizing s with
  | nil => exact ⟨h1, h2⟩
  | cons p rest ih =>
      show (∀ v dd, (relaxFold u d (relaxStep u d s p) rest).dist v = some dd →
          ReachableIn g a v) ∧
        (∀ q ∈ (relaxFold u d (relaxStep u d s p) rest).queue,
          ((relaxFold u d (relaxStep u d s p) rest).dist q.2).isSome = true)
      unfold relaxStep
      by_cases hc1 : smem p.1 s.visited = true
      · rw [if_pos hc1]
        exact ih _ (fun q hq => hnb q (List.mem_cons_of_mem _ hq)) h1 h2
      · rw [if_neg (by simp [hc1])]
        by_cases hc2 : ltOpt (d + p.2) (s.dist p.1) = true
        · rw [if_pos hc2]
          refine ih _ (fun q hq => hnb q (List.mem_cons_of_mem _ hq)) ?_ ?_
          · intro v dd hv
            simp only at hv
            by_cases hvp : v = p.1
            · rw [hvp]
              exact reachable_step g a u p.1 hu (hnb p (List.mem_cons_self _ _))
            · rw [if_neg hvp] at hv
              exact h1 v dd hv
          · intro q hq
            simp only [List.mem_cons] at hq
            rcases hq with h | h
            · rw [h]
              simp
            · simp only
              by_cases hvp : q.2 = p.1
              · rw [if_pos hvp]
                simp
              · rw [if_neg hvp]
                exact h2 q h
        · rw [if_neg (by simp [hc2])]
          exact ih _ (fun q hq => hnb q (List.mem_cons_of_mem _ hq)) h1 h2

/-- The Dijkstra loop preserves soundness of the distance map. -/
theorem dloop_sound (g : List (String × List (String × ℤ))) (endS a : String)
    (f : Nat) (s : DState)
    (hs1 : ∀ v dd, s.dist v = some dd → ReachableIn g a v)
    (hs2 : ∀ p ∈ s.queue, (s.dist p.2).isSome = true) :
    ∀ v dd, (dloop g endS f s).dist v = some dd → ReachableIn g a v := by
  induction f generalizing s with
  | zero => exact hs1
  | succ f ih =>
      rw [dloop]
      cases hp : popMin s.queue with
      | none => exact hs1
      | some pr =>
          obtain ⟨e, q⟩ := pr
          have hmem : e ∈ s.queue ∧ ∀ y ∈ q, y ∈ s.queue := by
            cases hq : s.queue with
            | nil => rw [hq] at hp; simp [popMin] at hp
            | cons x xs =>
                rw [hq] at hp
                simp only [popMin, Option.some.injEq] at hp
                injection hp with hp1 hp2
                constructor
                · rw [← hp1]
                  exact minEntry_mem x xs
                · intro y hy
                  rw [← hp2] at hy
                  exact eraseEntry_subset _ _ y hy
          simp only
          by_cases h1 : smem e.2 s.visited = true
          · rw [if_pos h1]
            exact ih _ hs1 (fun p hp2 => hs2 p (hmem.2 p hp2))
          · rw [if_neg (by simp [h1])]
            by_cases h2 : e.2 = endS
            · rw [if_pos h2]
              exact hs1
            · rw [if_neg h2]
              have hreach : ReachableIn g a e.2 := by
                have := hs2 e hmem.1
                cases hde : s.dist e.2 with
                | none => rw [hde] at this; simp at this
                | some dd => exact hs1 e.2 dd hde
              by_cases h3 : gtOpt e.1 (s.dist e.2) = true
              · rw [if_pos h3]
                exact ih _ hs1 (fun p hp2 => hs2 p (hmem.2 p hp2))
              · rw [if_neg (by simp [h3])]
                have hrs := relaxFold_sound g a e.2 e.1
                  { s with queue := q, visited := e.2 :: s.visited }
                  ((dget g e.2).getD []) hreach
                  (fun p hp2 => edge_of_mem_adj g e.2 p hp2)
                  hs1 (fun p hp2 => hs2 p (hmem.2 p hp2))
                exact ih _ hrs.1 hrs.2

/-- `find_shortest_path` on a pair with no connecting walk returns the
plain empty result. -/
theorem findShortestPathIn_no_route (smap : List (String × String))
    (g : List (String × List (String × ℤ))) (slines : List (String × List String))
    (raw1 raw2 a b : String)
    (hr1 : resolveStation smap raw1 = some a) (hr2 : resolveStation smap raw2 = some b)
    (hnr : ¬ ReachableIn g a b) :
    findShortestPathIn smap g slines raw1 raw2 = ([], 0, []) := by
  unfold findShortestPathIn
  by_cases hg : raw1 = "" ∨ raw2 = ""
  · simp [hg]
  · rw [if_neg hg]
    simp only [hr1, hr2]
    by_cases h3 : (dget g a).isNone = true ∨ (dget g b).isNone = true
    · rw [if_pos h3]
    · rw [if_neg h3]
      cases hd : (dloop g b (dijFuel g) (initDState a)).dist b with
      | none => simp
      | some dd =>
          exfalso
          refine hnr (dloop_sound g b a (dijFuel g) (initDState a) ?_ ?_ b dd hd)
          · intro v dd2 hv
            simp only [initDState] at hv
            by_cases hva : v = a
            · rw [hva]
              exact reachable_refl g a
            · rw [if_neg hva] at hv
              cases hv
          · intro p hp
            simp only [initDState, List.mem_singleton] at hp
            subst hp
            simp [initDState]

/-- The least-changes loop never returns a route to an unreachable
destination: every queued station is reachable from the source, so the
goal test never fires and the loop drains to the empty result. -/
theorem lcLoop_no_route (g : List (String × List (String × ℤ)))
    (slines : List (String × List String)) (endS a : String) (f : Nat)
    (pq : List LCEntry) (visited : List ((String × List String) × Nat))
    (hq : ∀ x ∈ pq, ReachableIn g a x.station)
    (hnr : ¬ ReachableIn g a endS) :
    lcLoop g slines endS f pq visited = ([], 0, []) := by
  induction f generalizing pq visited with
  | zero => rfl
  | succ f ih =>
      rw [lcLoop]
      cases hp : lcPop pq with
      | none => rfl
      | some pr =>
          obtain ⟨en, q⟩ := pr
          have hmem : en ∈ pq ∧ ∀ y ∈ q, y ∈ pq := by
            cases hq2 : pq with
            | nil => rw [hq2] at hp; simp [lcPop] at hp
            | cons x xs =>
                rw [hq2] at hp
                simp only [lcPop, Option.some.injEq] at hp
                injection hp with hp1 hp2
                constructor
                · rw [← hp1]
                  exact lcMin_mem x xs
                · intro y hy
                  rw [← hp2] at hy
                  exact lcErase_subset _ _ y hy
          simp only
          by_cases h1 : en.station = endS
          · exfalso
            refine hnr ?_
            rw [← h1]
            exact hq en hmem.1
          · rw [if_neg h1]
            have hexp : ∀ x ∈ lcExpand g slines en q, ReachableIn g a x.station := by
              unfold lcExpand
              have hstep : ∀ (nbrs : List (String × ℤ)) (acc : List LCEntry),
                  (∀ p ∈ nbrs, EdgeIn g en.station p.1) →
                  (∀ x ∈ acc, ReachableIn g a x.station) →
                  ∀ x ∈ nbrs.foldl (fun acc p =>
                      if smem p.1 en.path then acc
                      else
                        (if en.lines.filter
                            (fun l => smem l (canonSet (getLines slines p.1))) ≠ [] then
                          { changes := en.changes, dist := en.dist + p.2, station := p.1,
                            path := en.path ++ [p.1],
                            lines := en.lines.filter
                              (fun l => smem l (canonSet (getLines slines p.1))) }
                        else
                          { changes := en.changes + 1, dist := en.dist + p.2,
                            station := p.1, path := en.path ++ [p.1],
                            lines := canonSet (getLines slines p.1) }) :: acc) acc,
                    ReachableIn g a x.station := by
                intro nbrs
                induction nbrs with
                | nil => intro acc _ hacc; exact hacc
                | cons p rest ihn =>
                    intro acc hnb hacc
                    simp only [List.foldl_cons]
                    refine ihn _ (fun q2 hq2 => hnb q2 (List.mem_cons_of_mem _ hq2)) ?_
                    intro x hx
                    by_cases hc1 : smem p.1 en.path = true
                    · rw [if_pos hc1] at hx
                      exact hacc x hx
                    · rw [if_neg (by simp [hc1])] at hx
                      have hre : ReachableIn g a p.1 :=
                        reachable_step g a en.station p.1 (hq en hmem.1)
                          (hnb p (List.mem_cons_self _ _))
                      rcases List.mem_cons.mp hx with h2 | h2
                      · by_cases h3 : en.lines.filter
                            (fun l => smem l (canonSet (getLines slines p.1))) ≠ []
                        · rw [if_pos h3] at h2
                          rw [h2]
                          exact hre
                        · rw [if_neg h3] at h2
                          rw [h2]
                          exact hre
                      · exact hacc x h2
              intro x hx
              exact hstep _ q (fun p hp2 => edge_of_mem_adj g en.station p hp2)
                (fun y hy => hq y (hmem.2 y hy)) x hx
            cases hv : dget visited (en.station, en.lines) with
            | none =>
                simp only
                exact ih _ _ hexp
            | some c =>
                simp only
                by_cases h2 : decide (c ≤ en.changes) = true
                · rw [if_pos h2]
                  exact ih _ _ (fun y hy => hq y (hmem.2 y hy))
                · rw [if_neg (by simp at h2 ⊢; omega)]
                  exact ih _ _ hexp

/-- `find_route_least_changes` on a pair with no connecting walk returns
the plain empty result. -/
theorem findLeastChangesIn_no_route (smap : List (String × String))
    (g : List (String × List (String × ℤ))) (slines : List (String × List String))
    (raw1 raw2 a b : String)
    (hr1 : resolveStation smap raw1 = some a) (hr2 : resolveStation smap raw2 = some b)
    (hnr : ¬ ReachableIn g a b) :
    findLeastChangesIn smap g slines raw1 raw2 = ([], 0, []) := by
  unfold findLeastChangesIn
  by_cases hg : raw1 = "" ∨ raw2 = ""
  · simp [hg]
  · rw [if_neg hg]
    simp only [hr1, hr2]
    refine lcLoop_no_route g slines b a (lcFuel g) _ [] ?_ hnr
    intro x hx
    simp only [List.mem_singleton] at hx
    subst hx
    exact reachable_refl g a

/-- In the toy network, edges out of the Alpha-Beta component stay in it. -/
theorem toy_edge_target (x y : String)
    (hx : x = ("Alpha") ∨ x = ("Beta")) (he : EdgeIn toyGraph x y) :
    y = ("Alpha") ∨ y = ("Beta") := by
  rcases hx with h | h
  · subst h
    have hga : dget toyGraph ("Alpha") = some [(("Beta"), (1 : ℤ))] := by decide
    simp only [EdgeIn, dget2, hga] at he
    by_cases hy : ("Beta" : String) = y
    · right; exact hy.symm
    · simp [dget, hy] at he
  · subst h
    have hgb : dget toyGraph ("Beta") = some [(("Alpha"), (1 : ℤ))] := by decide
    simp only [EdgeIn, dget2, hgb] at he
    by_cases hy : ("Alpha" : String) = y
    · left; exact hy.symm
    · simp [dget, hy] at he

/-- A walk of the toy network starting in the Alpha-Beta component ends in
it. -/
theorem toy_walk_closed (p : List String) (hw : IsWalkIn toyGraph p) :
    ∀ x, p.head? = some x → (x = ("Alpha") ∨ x = ("Beta")) →
    ∀ y, p.getLast? = some y → (y = ("Alpha") ∨ y = ("Beta")) := by
  induction p with
  | nil =>
      intro x hx
      cases hx
  | cons a rest ih =>
      intro x hx hxm y hy
      simp only [List.head?_cons, Option.some.injEq] at hx
      subst hx
      cases rest with
      | nil =>
          simp only [List.getLast?_singleton, Option.some.injEq] at hy
          subst hy
          exact hxm
      | cons b rest2 =>
          rw [IsWalkIn, List.chain'_cons] at hw
          have hb : b = ("Alpha") ∨ b = ("Beta") := toy_edge_target a b hxm hw.1
          rw [List.getLast?_cons_cons] at hy
          exact ih hw.2 b (by simp) hb y hy

/-- Gamma is not reachable from Alpha in the toy network. -/
theorem toy_not_reach : ¬ ReachableIn toyGraph ("Alpha") ("Gamma") := by
  rintro ⟨p, hw, hh, hl⟩
  rcases toy_walk_closed p hw ("Alpha") hh (Or.inl rfl) ("Gamma") hl with h | h <;>
    simp at h

/-- C5: a pair of resolved, distinct stations with no walk between them
makes both search operations return the empty path, distance 0 and empty
change list as a plain value, not an error.  (Stated for an arbitrary
network handed to the two methods: the metro network is connected, so it
has no such pair.) -/
theorem C5_no_route_empty (smap : List (String × String))
    (g : List (String × List (String × ℤ))) (slines : List (String × List String))
    (raw1 raw2 a b : String)
    (hr1 : resolveStation smap raw1 = some a) (hr2 : resolveStation smap raw2 = some b)
    (_hab : a ≠ b) (hnr : ¬ ReachableIn g a b) :
    findShortestPathIn smap g slines raw1 raw2 = ([], 0, []) ∧
    findLeastChangesIn smap g slines raw1 raw2 = ([], 0, []) :=
  ⟨findShortestPathIn_no_route smap g slines raw1 raw2 a b hr1 hr2 hnr,
   findLeastChangesIn_no_route smap g slines raw1 raw2 a b hr1 hr2 hnr⟩

/-- Witness for C5 on the two-component toy network. -/
theorem C5_no_route_empty_witness :
    findShortestPathIn toySmap toyGraph toySlines ("alpha") ("Gamma") = ([], 0, []) ∧
    findLeastChangesIn toySmap toyGraph toySlines ("alpha") ("Gamma") = ([], 0, []) :=
  C5_no_route_empty toySmap toyGraph toySlines ("alpha") ("Gamma") ("Alpha") ("Gamma")
    (by decide) (by decide) (by decide) toy_not_reach

theorem charListLt_trans (x : List Char) :
    ∀ y z, charListLt x y = true → charListLt y z = true → charListLt x z = true := by
  induction x with
  | nil =>
      intro y z h1 h2
      cases z with
      | nil => cases y <;> simp [charListLt] at h2
      | cons c cs => simp [charListLt]
  | cons a as ih =>
      intro y z h1 h2
      cases y with
      | nil => simp [charListLt] at h1
      | cons b bs =>
          cases z with
          | nil => simp [charListLt] at h2
          | cons c cs =>
              simp only [charListLt] at h1 h2 ⊢
              by_cases hab : a < b
              · by_cases hbc : b < c
                · simp [lt_trans hab hbc]
                · by_cases hcb : c < b
                  · simp [hbc, hcb] at h2
                  · have hbc2 : b = c := le_antisymm (not_lt.mp hcb) (not_lt.mp hbc)
                    subst hbc2
                    simp [hab]
              · by_cases hba : b < a
                · simp [hab, hba] at h1
                · have hab2 : a = b := le_antisymm (not_lt.mp hba) (not_lt.mp hab)
                  subst hab2
                  simp only [lt_irrefl, if_false] at h1
                  by_cases hbc : a < c
                  · simp [hbc]
                  · by_cases hcb : c < a
                    · simp [hbc, hcb] at h2
                    · simp only [hbc, hcb, if_false] at h2 ⊢
                      exact ih bs cs h1 h2

theorem charListLt_connex (x : List Char) :
    ∀ y, charListLt x y = false → charListLt y x = false → x = y := by
  induction x with
  | nil =>
      intro y h1 h2
      cases y with
      | nil => rfl
      | cons b bs => simp [charListLt] at h1
  | cons a as ih =>
      intro y h1 h2
      cases y with
      | nil => simp [charListLt] at h2
      | cons b bs =>
          simp only [charListLt] at h1 h2
          by_cases hab : a < b
          · simp [hab] at h1
          · by_cases hba : b < a
            · simp [hab, hba] at h2
            · have hab2 : a = b := le_antisymm (not_lt.mp hba) (not_lt.mp hab)
              subst hab2
              simp only [lt_irrefl, if_false] at h1 h2
              rw [ih bs h1 h2]

theorem charListLt_irrefl (x : List Char) : charListLt x x = false := by
  induction x with
  | nil => rfl
  | cons a as ih => simp [charListLt, ih]

theorem strLt_trans (x y z : String) (h1 : strLt x y = true) (h2 : strLt y z = true) :
    strLt x z = true :=
  charListLt_trans x.data y.data z.data h1 h2

theorem strLt_connex (x y : String) (h1 : strLt x y = false) (h2 : strLt y x = false) :
    x = y := by
  cases x with
  | mk dx =>
      cases y with
      | mk dy =>
          have h3 : dx = dy := charListLt_connex dx dy h1 h2
          rw [h3]

theorem strLt_irrefl (x : String) : strLt x x = false :=
  charListLt_irrefl x.data

theorem pqLt_trans (x y z : ℤ × String) (h1 : pqLt x y = true) (h2 : pqLt y z = true) :
    pqLt x z = true := by
  simp only [pqLt] at h1 h2 ⊢
  by_cases hxy : x.1 < y.1
  · by_cases hyz : y.1 < z.1
    · have h3 : x.1 < z.1 := by omega
      simp [h3]
    · by_cases hzy : z.1 < y.1
      · simp [hyz, hzy] at h2
      · have h3 : x.1 < z.1 := by omega
        simp [h3]
  · by_cases hyx : y.1 < x.1
    · simp [hxy, hyx] at h1
    · simp only [hxy, hyx, if_false] at h1
      by_cases hyz : y.1 < z.1
      · have h3 : x.1 < z.1 := by omega
        simp [h3]
      · by_cases hzy : z.1 < y.1
        · simp [hyz, hzy] at h2
        · simp only [hyz, hzy, if_false] at h2
          have hxz : ¬ x.1 < z.1 := by omega
          have hzx : ¬ z.1 < x.1 := by omega
          simp only [hxz, hzx, if_false]
          exact strLt_trans _ _ _ h1 h2

theorem pqLt_eq_of_not (x y : ℤ × String) (h1 : pqLt x y = false) (h2 : pqLt y x = false) :
    x = y := by
  simp only [pqLt] at h1 h2
  by_cases hxy : x.1 < y.1
  · simp [hxy] at h1
  · by_cases hyx : y.1 < x.1
    · simp [hyx, hxy] at h2
    · simp only [hxy, hyx, if_false] at h1 h2
      have h3 : x.1 = y.1 := by omega
      have h4 : x.2 = y.2 := strLt_connex _ _ h1 h2
      exact Prod.ext h3 h4

theorem pqLt_irrefl (x : ℤ × String) : pqLt x x = false := by
  simp [pqLt, strLt_irrefl]

theorem minEntry_not_lt (x : ℤ × String) (xs : List (ℤ × String)) :
    ∀ y ∈ x :: xs, pqLt y (minEntry x xs) = false := by
  induction xs generalizing x with
  | nil =>
      intro y hy
      simp only [List.mem_singleton] at hy
      subst hy
      simp [minEntry, pqLt_irrefl]
  | cons z zs ih =>
      intro y hy
      simp only [minEntry]
      by_cases h : pqLt z x = true
      · rw [if_pos h]
        rcases List.mem_cons.mp hy with h1 | h1
        · subst h1
          cases hc : pqLt y (minEntry z zs)
          · rfl
          · exfalso
            have h2 : pqLt z (minEntry z zs) = true := pqLt_trans z y _ h hc
            have h3 := ih z z (List.mem_cons_self z zs)
            rw [h3] at h2
            cases h2
        · exact ih z y h1
      · rw [if_neg (by simp [h])]
        rcases List.mem_cons.mp hy with h1 | h1
        · rw [h1]
          exact ih x x (List.mem_cons_self x zs)
        · rcases List.mem_cons.mp h1 with h2 | h2
          · subst h2
            cases hc : pqLt y (minEntry x zs)
            · rfl
            · exfalso
              have hxm := ih x x (List.mem_cons_self x zs)
              by_cases hmx : pqLt (minEntry x zs) x = true
              · have h4 : pqLt y x = true := pqLt_trans _ _ _ hc hmx
                exact h h4
              · have h5 : minEntry x zs = x :=
                  pqLt_eq_of_not _ _ (by simpa using hmx) hxm
                rw [h5] at hc
                exact h hc
          · exact ih x y (List.mem_cons_of_mem _ h2)

theorem mem_eraseEntry_of_ne (m y : ℤ × String) (l : List (ℤ × String))
    (hy : y ∈ l) (hne : y ≠ m) : y ∈ eraseEntry m l := by
  induction l with
  | nil => cases hy
  | cons z zs ih =>
      simp only [eraseEntry]
      by_cases h : z = m
      · rw [if_pos h]
        rcases List.mem_cons.mp hy with h1 | h1
        · exact absurd (h1.trans h) hne
        · exact h1
      · rw [if_neg h]
        rcases List.mem_cons.mp hy with h1 | h1
        · rw [h1]; simp
        · exact List.mem_cons_of_mem _ (ih h1)

theorem eraseEntry_length (m : ℤ × String) (l : List (ℤ × String)) (hm : m ∈ l) :
    (eraseEntry m l).length + 1 = l.length := by
  induction l with
  | nil => cases hm
  | cons z zs ih =>
      simp only [eraseEntry]
      by_cases h : z = m
      · rw [if_pos h]
        simp
      · rw [if_neg h]
        rcases List.mem_cons.mp hm with h1 | h1
        · exact absurd h1.symm h
        · simp only [List.length_cons]
          rw [← ih h1]

theorem walkWeight_nonneg (g : List (String × List (String × ℤ)))
    (hpos : ∀ u v w, dget2 g u v = some w → 0 < w) :
    ∀ p, 0 ≤ walkWeight g p := by
  intro p
  induction p with
  | nil => simp [walkWeight]
  | cons u rest ih =>
      cases rest with
      | nil => simp [walkWeight]
      | cons v rest2 =>
          simp only [walkWeight]
          have h1 : 0 ≤ (dget2 g u v).getD 0 := by
            cases h : dget2 g u v with
            | none => simp
            | some w =>
                simp only [Option.getD_some]
                exact le_of_lt (hpos u v w h)
          have h2 : 0 ≤ walkWeight g (v :: rest2) := ih
          linarith

theorem walkWeight_append1 (g : List (String × List (String × ℤ)))
    (q : List String) (u v : String) (hl : q.getLast? = some u) :
    walkWeight g (q ++ [v]) = walkWeight g q + (dget2 g u v).getD 0 := by
  induction q with
  | nil => cases hl
  | cons x rest ih =>
      cases rest with
      | nil =>
          simp only [List.getLast?_singleton, Option.some.injEq] at hl
          subst hl
          simp [walkWeight]
      | cons y rest2 =>
          rw [List.getLast?_cons_cons] at hl
          have h3 := ih hl
          simp only [List.cons_append] at h3 ⊢
          simp only [walkWeight] at h3 ⊢
          rw [h3]
          ring

theorem walkWeight_reverse (g : List (String × List (String × ℤ)))
    (hsymm : ∀ u v, dget2 g u v = dget2 g v u) (p : List String) :
    walkWeight g p.reverse = walkWeight g p := by
  induction p with
  | nil => rfl
  | cons u rest ih =>
      cases rest with
      | nil => rfl
      | cons v rest2 =>
          rw [List.reverse_cons]
          have hlast : (v :: rest2).reverse.getLast? = some v := by
            rw [List.getLast?_reverse]
            simp
          rw [walkWeight_append1 g _ v u hlast, ih]
          simp only [walkWeight]
          rw [hsymm v u]
          ring

theorem isWalk_reverse (g : List (String × List (String × ℤ)))
    (hsymm : ∀ u v, dget2 g u v = dget2 g v u) (p : List String)
    (hw : IsWalkIn g p) : IsWalkIn g p.reverse := by
  rw [IsWalkIn, List.chain'_reverse]
  refine List.Chain'.imp ?_ hw
  intro a b h
  simp only [flip, EdgeIn]
  rw [hsymm b a]
  exact h

theorem reachable_symm (g : List (String × List (String × ℤ)))
    (hsymm : ∀ u v, dget2 g u v = dget2 g v u) (a b : String)
    (h : ReachableIn g a b) : ReachableIn g b a := by
  obtain ⟨p, hw, hh, hl⟩ := h
  exact ⟨p.reverse, isWalk_reverse g hsymm p hw,
    by rw [List.head?_reverse]; exact hl,
    by rw [List.getLast?_reverse]; exact hh⟩

theorem mem_map_fst_dset {κ α : Type} [DecidableEq κ] (m : List (κ × α)) (k x : κ)
    (v : α) (hx : x ∈ (dset m k v).map Prod.fst) :
    x ∈ m.map Prod.fst ∨ x = k := by
  induction m with
  | nil => simpa [dset] using hx
  | cons p rest ih =>
      simp only [dset] at hx
      by_cases h : p.1 = k
      · rw [if_pos h] at hx
        simp only [List.map_cons, List.mem_cons] at hx ⊢
        rcases hx with h1 | h1
        · exact Or.inr h1
        · exact Or.inl (Or.inr h1)
      · rw [if_neg h] at hx
        simp only [List.map_cons, List.mem_cons] at hx ⊢
        rcases hx with h1 | h1
        · exact Or.inl (Or.inl h1)
        · rcases ih h1 with h2 | h2
          · exact Or.inl (Or.inr h2)
          · exact Or.inr h2

theorem dset_nodup {κ α : Type} [DecidableEq κ] (m : List (κ × α)) (k : κ) (v : α)
    (hm : (m.map Prod.fst).Nodup) : ((dset m k v).map Prod.fst).Nodup := by
  induction m with
  | nil => simp [dset]
  | cons p rest ih =>
      simp only [List.map_cons, List.nodup_cons] at hm
      simp only [dset]
      by_cases h : p.1 = k
      · rw [if_pos h]
        simp only [List.map_cons, List.nodup_cons]
        exact ⟨by rw [← h]; exact hm.1, hm.2⟩
      · rw [if_neg h]
        simp only [List.map_cons, List.nodup_cons]
        refine ⟨?_, ih hm.2⟩
        intro hc
        rcases mem_map_fst_dset rest k p.1 v hc with h1 | h1
        · exact hm.1 h1
        · exact h h1

theorem mem_map_fst_ensureKey {κ α : Type} [DecidableEq κ] (m : List (κ × α)) (k x : κ)
    (v : α) (hx : x ∈ (ensureKey m k v).map Prod.fst) :
    x ∈ m.map Prod.fst ∨ x = k := by
  induction m with
  | nil => simpa [ensureKey] using hx
  | cons p rest ih =>
      simp only [ensureKey] at hx
      by_cases h : p.1 = k
      · rw [if_pos h] at hx
        exact Or.inl hx
      · rw [if_neg h] at hx
        simp only [List.map_cons, List.mem_cons] at hx ⊢
        rcases hx with h1 | h1
        · exact Or.inl (Or.inl h1)
        · rcases ih h1 with h2 | h2
          · exact Or.inl (Or.inr h2)
          · exact Or.inr h2

theorem ensureKey_nodup {κ α : Type} [DecidableEq κ] (m : List (κ × α)) (k : κ) (v : α)
    (hm : (m.map Prod.fst).Nodup) : ((ensureKey m k v).map Prod.fst).Nodup := by
  induction m with
  | nil => simp [ensureKey]
  | cons p rest ih =>
      simp only [List.map_cons, List.nodup_cons] at hm
      simp only [ensureKey]
      by_cases h : p.1 = k
      · rw [if_pos h]
        simp only [List.map_cons, List.nodup_cons]
        exact ⟨hm.1, hm.2⟩
      · rw [if_neg h]
        simp only [List.map_cons, List.nodup_cons]
        refine ⟨?_, ih hm.2⟩
        intro hc
        rcases mem_map_fst_ensureKey rest k p.1 v hc with h1 | h1
        · exact hm.1 h1
        · exact h h1

theorem mem_map_fst_updAdj (g : List (String × List (String × ℤ))) (a b x : String)
    (d : ℤ) (hx : x ∈ (updAdj g a b d).map Prod.fst) :
    x ∈ g.map Prod.fst ∨ x = a := by
  induction g with
  | nil => simpa [updAdj] using hx
  | cons p rest ih =>
      simp only [updAdj] at hx
      by_cases h : p.1 = a
      · rw [if_pos h] at hx
        simp only [List.map_cons, List.mem_cons] at hx ⊢
        rcases hx with h1 | h1
        · exact Or.inl (Or.inl (h ▸ h1))
        · exact Or.inl (Or.inr h1)
      · rw [if_neg h] at hx
        simp only [List.map_cons, List.mem_cons] at hx ⊢
        rcases hx with h1 | h1
        · exact Or.inl (Or.inl h1)
        · rcases ih h1 with h2 | h2
          · exact Or.inl (Or.inr h2)
          · exact Or.inr h2

theorem updAdj_nodup (g : List (String × List (String × ℤ))) (a b : String) (d : ℤ)
    (hm : (g.map Prod.fst).Nodup) : ((updAdj g a b d).map Prod.fst).Nodup := by
  induction g with
  | nil => simp [updAdj]
  | cons p rest ih =>
      simp only [List.map_cons, List.nodup_cons] at hm
      simp only [updAdj]
      by_cases h : p.1 = a
      · rw [if_pos h]
        simp only [List.map_cons, List.nodup_cons]
        exact ⟨h ▸ hm.1, hm.2⟩
      · rw [if_neg h]
        simp only [List.map_cons, List.nodup_cons]
        refine ⟨?_, ih hm.2⟩
        intro hc
        rcases mem_map_fst_updAdj rest a b p.1 d hc with h1 | h1
        · exact hm.1 h1
        · exact h h1

theorem addEdge_adj_nodup (g : List (String × List (String × ℤ)))
    (e : String × String × ℤ)
    (hadj : ∀ u adj, dget g u = some adj → (adj.map Prod.fst).Nodup) :
    ∀ u adj, dget (addEdge g e) u = some adj → (adj.map Prod.fst).Nodup := by
  obtain ⟨a, b, d⟩ := e
  have hG2 : ∀ x X, dget (ensureKey (ensureKey g a []) b []) x = some X →
      (X.map Prod.fst).Nodup := by
    intro x X hX
    rw [dget_ensure2] at hX
    by_cases hx : x = a ∨ x = b
    · rw [if_pos hx] at hX
      cases hX
      cases hg : dget g x with
      | none => simp [hg]
      | some adj0 =>
          simp only [hg, Option.getD_some]
          exact hadj x adj0 hg
    · rw [if_neg hx] at hX
      exact hadj x X hX
  have hG2D : ∀ x, (((dget (ensureKey (ensureKey g a []) b []) x).getD []).map
      Prod.fst).Nodup := by
    intro x
    cases hX : dget (ensureKey (ensureKey g a []) b []) x with
    | none => simp
    | some X => simpa using hG2 x X hX
  intro u adj hu
  simp only [addEdge, dget_updAdj] at hu
  by_cases hbu : b = u
  · rw [if_pos hbu] at hu
    cases hu
    apply dset_nodup
    by_cases hab : a = b
    · rw [if_pos hab]
      simp only [Option.getD_some]
      exact dset_nodup _ _ _ (hG2D a)
    · rw [if_neg hab]
      exact hG2D b
  · rw [if_neg hbu] at hu
    by_cases hau : a = u
    · rw [if_pos hau] at hu
      cases hu
      exact dset_nodup _ _ _ (hG2D a)
    · rw [if_neg hau] at hu
      exact hG2 u adj hu

theorem dget2_addEdge_cases (g : List (String × List (String × ℤ)))
    (e : String × String × ℤ) (u v : String) (w : ℤ)
    (h : dget2 (addEdge g e) u v = some w) :
    w = e.2.2 ∨ dget2 g u v = some w := by
  by_cases hp : (u = e.1 ∧ v = e.2.1) ∨ (u = e.2.1 ∧ v = e.1)
  · rcases hp with ⟨h1, h2⟩ | ⟨h1, h2⟩
    · subst h1; subst h2
      left
      rw [(dget2_addEdge_self g e).1] at h
      cases h
      rfl
    · subst h1; subst h2
      left
      rw [(dget2_addEdge_self g e).2] at h
      cases h
      rfl
  · rw [not_or] at hp
    right
    rw [← dget2_addEdge_other g e u v hp.1 hp.2]
    exact h

theorem addEdge_keys_nodup (g : List (String × List (String × ℤ)))
    (e : String × String × ℤ) (hk : (g.map Prod.fst).Nodup) :
    ((addEdge g e).map Prod.fst).Nodup := by
  exact updAdj_nodup _ _ _ _ (updAdj_nodup _ _ _ _
    (ensureKey_nodup _ _ _ (ensureKey_nodup _ _ _ hk)))

theorem foldl_graphWF (L : List (String × String × ℤ))
    (g : List (String × List (String × ℤ))) (hg : GraphWF g)
    (hL : ∀ e ∈ L, 0 < e.2.2) : GraphWF (L.foldl addEdge g) := by
  induction L generalizing g with
  | nil => exact hg
  | cons e rest ih =>
      refine ih (addEdge g e) ⟨?_, ?_, ?_⟩ (fun x hx => hL x (List.mem_cons_of_mem _ hx))
      · intro u v w hw
        rcases dget2_addEdge_cases g e u v w hw with h | h
        · rw [h]
          exact hL e (List.mem_cons_self _ _)
        · exact hg.pos u v w h
      · exact addEdge_adj_nodup g e hg.adj_nodup
      · exact addEdge_keys_nodup g e hg.keys_nodup

set_option maxRecDepth 10000 in
/-- The constructed metro graph is well-formed: positive weights,
duplicate-free keys and adjacency lists. -/
theorem metroGraph_wf : GraphWF metroGraph := by
  refine foldl_graphWF all_lines [] ⟨?_, ?_, ?_⟩ ?_
  · intro u v w hw
    simp [dget2, dget] at hw
  · intro u adj hadj
    simp [dget] at hadj
  · simp
  · decide

theorem mem_of_dget {κ α : Type} [DecidableEq κ] (m : List (κ × α)) (k : κ) (v : α)
    (h : dget m k = some v) : (k, v) ∈ m := by
  induction m with
  | nil => cases h
  | cons p rest ih =>
      simp only [dget] at h
      by_cases hp : p.1 = k
      · cases p
        simp only at hp
        subst hp
        rw [if_pos rfl] at h
        cases h
        simp
      · cases p
        rw [if_neg hp] at h
        exact List.mem_cons_of_mem _ (ih h)

theorem dget_of_mem_nodup {κ α : Type} [DecidableEq κ] (m : List (κ × α)) (k : κ)
    (v : α) (hnd : (m.map Prod.fst).Nodup) (h : (k, v) ∈ m) : dget m k = some v := by
  induction m with
  | nil => cases h
  | cons p rest ih =>
      simp only [List.map_cons, List.nodup_cons] at hnd
      rcases List.mem_cons.mp h with h1 | h1
      · rw [← h1]
        simp [dget]
      · simp only [dget]
        by_cases hp : p.1 = k
        · exfalso
          apply hnd.1
          rw [hp]
          exact List.mem_map_of_mem Prod.fst h1
        · rw [if_neg hp]
          exact ih hnd.2 h1

theorem walk_extend (g : List (String × List (String × ℤ))) (a u v : String)
    (W w : ℤ) (hw : ∃ p, IsWalkIn g p ∧ p.head? = some a ∧ p.getLast? = some u ∧
      walkWeight g p = W) (he : dget2 g u v = some w) :
    ∃ p, IsWalkIn g p ∧ p.head? = some a ∧ p.getLast? = some v ∧
      walkWeight g p = W + w := by
  obtain ⟨p, hwp, hh, hl, hW⟩ := hw
  refine ⟨p ++ [v], ?_, ?_, by simp, ?_⟩
  · refine List.Chain'.append hwp (by simp [IsWalkIn]) ?_
    intro x hx y hy
    simp only [List.head?_cons, Option.mem_def, Option.some.injEq] at hy
    subst hy
    rw [hl] at hx
    simp only [Option.mem_def, Option.some.injEq] at hx
    subst hx
    simp [EdgeIn, he]
  · cases p with
    | nil => simp at hh
    | cons z zs => simpa using hh
  · rw [walkWeight_append1 g p u v hl, hW, he]
    simp

theorem relaxFold_cons (u : String) (d : ℤ) (s : DState) (p : String × ℤ)
    (rest : List (String × ℤ)) :
    relaxFold u d s (p :: rest) = relaxFold u d (relaxStep u d s p) rest := rfl

theorem relaxStep_visited (u : String) (d : ℤ) (s : DState) (p : String × ℤ) :
    (relaxStep u d s p).visited = s.visited := by
  unfold relaxStep
  by_cases h1 : smem p.1 s.visited = true
  · rw [if_pos h1]
  · rw [if_neg (by simp [h1])]
    by_cases h2 : ltOpt (d + p.2) (s.dist p.1) = true
    · rw [if_pos h2]
    · rw [if_neg (by simp [h2])]

theorem relaxStep_dist_visited (u : String) (d : ℤ) (s : DState) (p : String × ℤ)
    (v : String) (hv : smem v s.visited = true) :
    (relaxStep u d s p).dist v = s.dist v := by
  unfold relaxStep
  by_cases h1 : smem p.1 s.visited = true
  · rw [if_pos h1]
  · rw [if_neg (by simp [h1])]
    by_cases h2 : ltOpt (d + p.2) (s.dist p.1) = true
    · rw [if_pos h2]
      have hvp : ¬ v = p.1 := by
        intro hvp
        rw [hvp] at hv
        rw [hv] at h1
        exact h1 rfl
      simp only [if_neg hvp]
    · rw [if_neg (by simp [h2])]

theorem relaxStep_dist_le (u : String) (d : ℤ) (s : DState) (p : String × ℤ)
    (v : String) (dv : ℤ) (hv : s.dist v = some dv) :
    ∃ dv', (relaxStep u d s p).dist v = some dv' ∧ dv' ≤ dv := by
  unfold relaxStep
  by_cases h1 : smem p.1 s.visited = true
  · rw [if_pos h1]; exact ⟨dv, hv, le_refl dv⟩
  · rw [if_neg (by simp [h1])]
    by_cases h2 : ltOpt (d + p.2) (s.dist p.1) = true
    · rw [if_pos h2]
      by_cases hvp : v = p.1
      · subst hvp
        rw [hv] at h2
        simp only [ltOpt, decide_eq_true_eq] at h2
        exact ⟨d + p.2, by simp, le_of_lt h2⟩
      · exact ⟨dv, by simp [hvp, hv], le_refl dv⟩
    · rw [if_neg (by simp [h2])]
      exact ⟨dv, hv, le_refl dv⟩

theorem relaxStep_dist_new (u : String) (d : ℤ) (s : DState) (p : String × ℤ)
    (v : String) (dv' : ℤ) (hv : (relaxStep u d s p).dist v = some dv') :
    s.dist v = some dv' ∨
      (v = p.1 ∧ dv' = d + p.2 ∧ smem v s.visited = false) := by
  unfold relaxStep at hv
  by_cases h1 : smem p.1 s.visited = true
  · rw [if_pos h1] at hv; exact Or.inl hv
  · rw [if_neg (by simp [h1])] at hv
    by_cases h2 : ltOpt (d + p.2) (s.dist p.1) = true
    · rw [if_pos h2] at hv
      simp only at hv
      by_cases hvp : v = p.1
      · rw [if_pos hvp] at hv
        cases hv
        exact Or.inr ⟨hvp, rfl, by rw [hvp]; simpa using h1⟩
      · rw [if_neg hvp] at hv
        exact Or.inl hv
    · rw [if_neg (by simp [h2])] at hv
      exact Or.inl hv

theorem relaxStep_queue_mem (u : String) (d : ℤ) (s : DState) (p : String × ℤ)
    (y : ℤ × String) (hy : y ∈ (relaxStep u d s p).queue) :
    y ∈ s.queue ∨ y = (d + p.2, p.1) := by
  unfold relaxStep at hy
  by_cases h1 : smem p.1 s.visited = true
  · rw [if_pos h1] at hy; exact Or.inl hy
  · rw [if_neg (by simp [h1])] at hy
    by_cases h2 : ltOpt (d + p.2) (s.dist p.1) = true
    · rw [if_pos h2] at hy
      simp only at hy
      rcases List.mem_cons.mp hy with h | h
      · exact Or.inr h
      · exact Or.inl h
    · rw [if_neg (by simp [h2])] at hy
      exact Or.inl hy

theorem relaxFold_visited (u : String) (d : ℤ) (s : DState) (nbrs : List (String × ℤ)) :
    (relaxFold u d s nbrs).visited = s.visited := by
  induction nbrs generalizing s with
  | nil => rfl
  | cons p rest ih =>
      rw [relaxFold_cons, ih, relaxStep_visited]

theorem relaxFold_dist_visited (u : String) (d : ℤ) (s : DState)
    (nbrs : List (String × ℤ)) (v : String) (hv : smem v s.visited = true) :
    (relaxFold u d s nbrs).dist v = s.dist v := by
  induction nbrs generalizing s with
  | nil => rfl
  | cons p rest ih =>
      rw [relaxFold_cons,
        ih (relaxStep u d s p) (by rw [relaxStep_visited]; exact hv),
        relaxStep_dist_visited u d s p v hv]

theorem relaxFold_dist_le (u : String) (d : ℤ) (s : DState)
    (nbrs : List (String × ℤ)) (v : String) (dv : ℤ) (hv : s.dist v = some dv) :
    ∃ dv', (relaxFold u d s nbrs).dist v = some dv' ∧ dv' ≤ dv := by
  induction nbrs generalizing s dv with
  | nil => exact ⟨dv, hv, le_refl dv⟩
  | cons p rest ih =>
      obtain ⟨dm, h1, h2⟩ := relaxStep_dist_le u d s p v dv hv
      obtain ⟨dv', h3, h4⟩ := ih (relaxStep u d s p) dm h1
      exact ⟨dv', by rw [relaxFold_cons]; exact h3, le_trans h4 h2⟩

theorem relaxFold_dist_new (u : String) (d : ℤ) (s : DState)
    (nbrs : List (String × ℤ)) (v : String) (dv' : ℤ)
    (hv : (relaxFold u d s nbrs).dist v = some dv') :
    s.dist v = some dv' ∨
      (∃ w, (v, w) ∈ nbrs ∧ dv' = d + w ∧ smem v s.visited = false) := by
  induction nbrs generalizing s with
  | nil => exact Or.inl hv
  | cons p rest ih =>
      rw [relaxFold_cons] at hv
      rcases ih (relaxStep u d s p) hv with h | ⟨w, hw1, hw2, hw3⟩
      · rcases relaxStep_dist_new u d s p v dv' h with h' | ⟨hv1, hv2, hv3⟩
        · exact Or.inl h'
        · refine Or.inr ⟨p.2, ?_, by rw [hv2], hv3⟩
          rw [hv1]
          exact List.mem_cons_self _ _
      · rw [relaxStep_visited] at hw3
        exact Or.inr ⟨w, List.mem_cons_of_mem _ hw1, hw2, hw3⟩

theorem relaxFold_queue_mem (u : String) (d : ℤ) (s : DState)
    (nbrs : List (String × ℤ)) (y : ℤ × String)
    (hy : y ∈ (relaxFold u d s nbrs).queue) :
    y ∈ s.queue ∨ ∃ w, (y.2, w) ∈ nbrs ∧ y.1 = d + w := by
  induction nbrs generalizing s with
  | nil => exact Or.inl hy
  | cons p rest ih =>
      rw [relaxFold_cons] at hy
      rcases ih (relaxStep u d s p) hy with h | ⟨w, hw1, hw2⟩
      · rcases relaxStep_queue_mem u d s p y h with h' | h'
        · exact Or.inl h'
        · refine Or.inr ⟨p.2, ?_, by rw [h']⟩
          rw [h']
          exact List.mem_cons_self _ _
      · exact Or.inr ⟨w, List.mem_cons_of_mem _ hw1, hw2⟩

theorem relaxFold_queue_len (u : String) (d : ℤ) (s : DState)
    (nbrs : List (String × ℤ)) :
    (relaxFold u d s nbrs).queue.length ≤ s.queue.length + nbrs.length := by
  induction nbrs generalizing s with
  | nil => exact le_refl _
  | cons p rest ih =>
      rw [relaxFold_cons]
      refine le_trans (ih (relaxStep u d s p)) ?_
      have hstep : (relaxStep u d s p).queue.length ≤ s.queue.length + 1 := by
        unfold relaxStep
        by_cases h1 : smem p.1 s.visited = true
        · rw [if_pos h1]; omega
        · rw [if_neg (by simp [h1])]
          by_cases h2 : ltOpt (d + p.2) (s.dist p.1) = true
          · rw [if_pos h2]; simp
          · rw [if_neg (by simp [h2])]; omega
      simp only [List.length_cons]
      omega

theorem relaxFold_relaxed (u : String) (d : ℤ) (s : DState)
    (nbrs : List (String × ℤ)) (p : String × ℤ) (hp : p ∈ nbrs)
    (hnv : smem p.1 s.visited = false) :
    ∃ dn, (relaxFold u d s nbrs).dist p.1 = some dn ∧ dn ≤ d + p.2 := by
  induction nbrs generalizing s with
  | nil => cases hp
  | cons q rest ih =>
      rw [relaxFold_cons]
      rcases List.mem_cons.mp hp with h | h
      · subst h
        have hkey : ∃ dm, (relaxStep u d s p).dist p.1 = some dm ∧ dm ≤ d + p.2 := by
          unfold relaxStep
          rw [if_neg (by simp [hnv])]
          by_cases h2 : ltOpt (d + p.2) (s.dist p.1) = true
          · rw [if_pos h2]
            exact ⟨d + p.2, by simp, le_refl _⟩
          · cases hd : s.dist p.1 with
            | none => rw [hd] at h2; simp [ltOpt] at h2
            | some dm =>
                rw [hd] at h2
                simp only [ltOpt, decide_eq_true_eq] at h2
                rw [if_neg (by simp [ltOpt, hd]; omega)]
                exact ⟨dm, hd, by omega⟩
        obtain ⟨dm, h1, h2⟩ := hkey
        obtain ⟨dn, h3, h4⟩ := relaxFold_dist_le u d (relaxStep u d s p) rest p.1 dm h1
        exact ⟨dn, h3, le_trans h4 h2⟩
      · exact ih (relaxStep u d s q) h (by rw [relaxStep_visited]; exact hnv)

theorem popMin_char (Q : List (ℤ × String)) (e : ℤ × String) (q : List (ℤ × String))
    (h : popMin Q = some (e, q)) :
    e ∈ Q ∧ q = eraseEntry e Q ∧ ∀ y ∈ Q, pqLt y e = false := by
  cases Q with
  | nil => cases h
  | cons x xs =>
      simp only [popMin, Option.some.injEq] at h
      injection h with h1 h2
      subst h1
      subst h2
      exact ⟨minEntry_mem x xs, rfl, minEntry_not_lt x xs⟩

theorem walk_concat_cases (g : List (String × List (String × ℤ)))
    (p : List String) (a z : String) (hw : IsWalkIn g p) (hh : p.head? = some a)
    (hl : p.getLast? = some z) :
    (p = [a] ∧ z = a) ∨
    ∃ p' z' w, IsWalkIn g p' ∧ p'.head? = some a ∧ p'.getLast? = some z' ∧
      dget2 g z' z = some w ∧ walkWeight g p = walkWeight g p' + w ∧
      p'.length < p.length := by
  rcases List.eq_nil_or_concat p with hnil | ⟨L, b, hcat⟩
  · rw [hnil] at hh; cases hh
  · rw [List.concat_eq_append] at hcat
    subst hcat
    have hzb : z = b := by
      rw [List.getLast?_concat] at hl
      cases hl
      rfl
    subst hzb
    cases L with
    | nil =>
        left
        simp only [List.nil_append] at hh ⊢
        simp only [List.head?_cons, Option.some.injEq] at hh
        rw [hh]
        exact ⟨rfl, rfl⟩
    | cons x L2 =>
        right
        have hLne : x :: L2 ≠ [] := by simp
        obtain ⟨z', hz'⟩ := Option.isSome_iff_exists.mp
          (by rw [List.getLast?_isSome]; exact hLne)
        rw [IsWalkIn, List.chain'_append] at hw
        obtain ⟨hw1, _, hw3⟩ := hw
        have hedge : EdgeIn g z' z := by
          apply hw3 z' _ z
          · simp
          · rw [hz']; rfl
        obtain ⟨w, hw'⟩ := Option.isSome_iff_exists.mp hedge
        refine ⟨x :: L2, z', w, hw1, ?_, hz', hw', ?_, by simp⟩
        · rw [List.head?_append_of_ne_nil _ hLne] at hh
          exact hh
        · rw [walkWeight_append1 g (x :: L2) z' z hz', hw']
          simp

theorem dijk_cut (g : List (String × List (String × ℤ))) (a endS : String)
    (s : DState) (inv : DijkInv g a endS s)
    (hpos : ∀ u v w, dget2 g u v = some w → 0 < w) :
    ∀ n p z, p.length ≤ n → IsWalkIn g p → p.head? = some a →
      p.getLast? = some z → ¬ z ∈ s.visited →
      ∃ dy y, s.dist y = some dy ∧ (dy, y) ∈ s.queue ∧ dy ≤ walkWeight g p := by
  intro n
  induction n with
  | zero =>
      intro p z hlen hw hh hl hnv
      rw [List.length_eq_zero.mp (Nat.le_zero.mp hlen)] at hh
      cases hh
  | succ n ih =>
      intro p z hlen hw hh hl hnv
      rcases walk_concat_cases g p a z hw hh hl with ⟨hp, hz⟩ | ⟨p', z', w, hw', hh', hl', he', hW, hlt⟩
      · rw [hz] at hnv
        refine ⟨0, a, inv.dist_src, inv.queue_complete a hnv 0 inv.dist_src, ?_⟩
        rw [hp]
        simp [walkWeight]
      · by_cases hz' : z' ∈ s.visited
        · have hds := inv.vis_some z' hz'
          obtain ⟨dz', hdz'⟩ := Option.isSome_iff_exists.mp hds
          have hopt := inv.vis_opt z' hz' dz' hdz' p' hw' hh' hl'
          obtain ⟨dz, hdz, hle⟩ := inv.relax_closed z' hz' dz' hdz' z w he'
          refine ⟨dz, z, hdz, inv.queue_complete z hnv dz hdz, ?_⟩
          rw [hW]
          linarith
        · obtain ⟨dy, y, h1, h2, h3⟩ := ih p' z' (by omega) hw' hh' hl' hz'
          refine ⟨dy, y, h1, h2, ?_⟩
          have hwpos := hpos z' z w he'
          rw [hW]
          linarith

theorem relaxStep_queue_sub (u : String) (d : ℤ) (s : DState) (p : String × ℤ)
    (y : ℤ × String) (hy : y ∈ s.queue) : y ∈ (relaxStep u d s p).queue := by
  unfold relaxStep
  by_cases h1 : smem p.1 s.visited = true
  · rw [if_pos h1]; exact hy
  · rw [if_neg (by simp [h1])]
    by_cases h2 : ltOpt (d + p.2) (s.dist p.1) = true
    · rw [if_pos h2]
      exact List.mem_cons_of_mem _ hy
    · rw [if_neg (by simp [h2])]
      exact hy

theorem relaxFold_queue_sub (u : String) (d : ℤ) (s : DState)
    (nbrs : List (String × ℤ)) (y : ℤ × String) (hy : y ∈ s.queue) :
    y ∈ (relaxFold u d s nbrs).queue := by
  induction nbrs generalizing s with
  | nil => exact hy
  | cons p rest ih =>
      rw [relaxFold_cons]
      exact ih (relaxStep u d s p) (relaxStep_queue_sub u d s p y hy)

theorem relaxStep_qc (u : String) (d : ℤ) (s : DState) (p : String × ℤ)
    (hqc : ∀ v, smem v s.visited = false → ∀ dv, s.dist v = some dv →
      (dv, v) ∈ s.queue) :
    ∀ v, smem v (relaxStep u d s p).visited = false → ∀ dv,
      (relaxStep u d s p).dist v = some dv → (dv, v) ∈ (relaxStep u d s p).queue := by
  unfold relaxStep
  by_cases h1 : smem p.1 s.visited = true
  · rw [if_pos h1]; exact hqc
  · rw [if_neg (by simp [h1])]
    by_cases h2 : ltOpt (d + p.2) (s.dist p.1) = true
    · rw [if_pos h2]
      intro v hv dv hdv
      simp only at hv hdv ⊢
      by_cases hvp : v = p.1
      · rw [if_pos hvp] at hdv
        cases hdv
        rw [hvp]
        exact List.mem_cons_self _ _
      · rw [if_neg hvp] at hdv
        exact List.mem_cons_of_mem _ (hqc v hv dv hdv)
    · rw [if_neg (by simp [h2])]
      exact hqc

theorem relaxFold_qc (u : String) (d : ℤ) (s : DState) (nbrs : List (String × ℤ))
    (hqc : ∀ v, smem v s.visited = false → ∀ dv, s.dist v = some dv →
      (dv, v) ∈ s.queue) :
    ∀ v, smem v (relaxFold u d s nbrs).visited = false → ∀ dv,
      (relaxFold u d s nbrs).dist v = some dv → (dv, v) ∈ (relaxFold u d s nbrs).queue := by
  induction nbrs generalizing s with
  | nil => exact hqc
  | cons p rest ih =>
      rw [relaxFold_cons]
      exact ih (relaxStep u d s p) (relaxStep_qc u d s p hqc)

theorem relaxStep_qg (u : String) (d : ℤ) (s : DState) (p : String × ℤ)
    (hqg : ∀ y ∈ s.queue, ∃ dx, s.dist y.2 = some dx ∧ dx ≤ y.1) :
    ∀ y ∈ (relaxStep u d s p).queue, ∃ dx,
      (relaxStep u d s p).dist y.2 = some dx ∧ dx ≤ y.1 := by
  unfold relaxStep
  by_cases h1 : smem p.1 s.visited = true
  · rw [if_pos h1]; exact hqg
  · rw [if_neg (by simp [h1])]
    by_cases h2 : ltOpt (d + p.2) (s.dist p.1) = true
    · rw [if_pos h2]
      intro y hy
      simp only [List.mem_cons] at hy
      simp only
      rcases hy with hy | hy
      · rw [hy]
        simp
      · obtain ⟨dx, hdx, hle⟩ := hqg y hy
        by_cases hvp : y.2 = p.1
        · rw [if_pos hvp]
          refine ⟨d + p.2, rfl, ?_⟩
          rw [hvp] at hdx
          rw [hdx] at h2
          simp only [ltOpt, decide_eq_true_eq] at h2
          omega
        · rw [if_neg hvp]
          exact ⟨dx, hdx, hle⟩
    · rw [if_neg (by simp [h2])]
      exact hqg

theorem relaxFold_qg (u : String) (d : ℤ) (s : DState) (nbrs : List (String × ℤ))
    (hqg : ∀ y ∈ s.queue, ∃ dx, s.dist y.2 = some dx ∧ dx ≤ y.1) :
    ∀ y ∈ (relaxFold u d s nbrs).queue, ∃ dx,
      (relaxFold u d s nbrs).dist y.2 = some dx ∧ dx ≤ y.1 := by
  induction nbrs generalizing s with
  | nil => exact hqg
  | cons p rest ih =>
      rw [relaxFold_cons]
      exact ih (relaxStep u d s p) (relaxStep_qg u d s p hqg)

theorem relaxStep_vm (u : String) (d : ℤ) (s : DState) (p : String × ℤ)
    (hpw : 0 ≤ p.2)
    (hvm : ∀ y ∈ s.visited, ∀ dy, s.dist y = some dy → ∀ en ∈ s.queue, dy ≤ en.1)
    (hb : ∀ y ∈ s.visited, ∀ dy, s.dist y = some dy → dy ≤ d) :
    (∀ y ∈ (relaxStep u d s p).visited, ∀ dy, (relaxStep u d s p).dist y = some dy →
      ∀ en ∈ (relaxStep u d s p).queue, dy ≤ en.1) ∧
    (∀ y ∈ (relaxStep u d s p).visited, ∀ dy,
      (relaxStep u d s p).dist y = some dy → dy ≤ d) := by
  unfold relaxStep
  by_cases h1 : smem p.1 s.visited = true
  · rw [if_pos h1]; exact ⟨hvm, hb⟩
  · rw [if_neg (by simp [h1])]
    by_cases h2 : ltOpt (d + p.2) (s.dist p.1) = true
    · rw [if_pos h2]
      constructor
      · intro y hy dy hdy en hen
        simp only at hy hdy hen
        have hyp : ¬ y = p.1 := by
          intro h
          rw [h] at hy
          rw [smem_iff] at h1
          exact h1 hy
        rw [if_neg hyp] at hdy
        simp only [List.mem_cons] at hen
        rcases hen with hen | hen
        · rw [hen]
          have := hb y hy dy hdy
          simp only
          omega
        · exact hvm y hy dy hdy en hen
      · intro y hy dy hdy
        simp only at hy hdy
        have hyp : ¬ y = p.1 := by
          intro h
          rw [h] at hy
          rw [smem_iff] at h1
          exact h1 hy
        rw [if_neg hyp] at hdy
        exact hb y hy dy hdy
    · rw [if_neg (by simp [h2])]
      exact ⟨hvm, hb⟩

theorem relaxFold_vm (u : String) (d : ℤ) (s : DState) (nbrs : List (String × ℤ))
    (hpw : ∀ p ∈ nbrs, 0 ≤ p.2)
    (hvm : ∀ y ∈ s.visited, ∀ dy, s.dist y = some dy → ∀ en ∈ s.queue, dy ≤ en.1)
    (hb : ∀ y ∈ s.visited, ∀ dy, s.dist y = some dy → dy ≤ d) :
    ∀ y ∈ (relaxFold u d s nbrs).visited, ∀ dy,
      (relaxFold u d s nbrs).dist y = some dy →
      ∀ en ∈ (relaxFold u d s nbrs).queue, dy ≤ en.1 := by
  induction nbrs generalizing s with
  | nil => exact hvm
  | cons p rest ih =>
      rw [relaxFold_cons]
      obtain ⟨h1, h2⟩ := relaxStep_vm u d s p (hpw p (List.mem_cons_self _ _)) hvm hb
      exact ih (relaxStep u d s p) (fun q hq => hpw q (List.mem_cons_of_mem _ hq)) h1 h2

theorem relaxStep_src (u : String) (d : ℤ) (s : DState) (p : String × ℤ)
    (a : String) (hsrc : s.dist a = some 0) (hd : 0 ≤ d) (hpw : 0 ≤ p.2) :
    (relaxStep u d s p).dist a = some 0 := by
  unfold relaxStep
  by_cases h1 : smem p.1 s.visited = true
  · rw [if_pos h1]; exact hsrc
  · rw [if_neg (by simp [h1])]
    by_cases h2 : ltOpt (d + p.2) (s.dist p.1) = true
    · rw [if_pos h2]
      simp only
      by_cases hvp : a = p.1
      · rw [← hvp, hsrc] at h2
        simp only [ltOpt, decide_eq_true_eq] at h2
        omega
      · rw [if_neg hvp]
        exact hsrc
    · rw [if_neg (by simp [h2])]
      exact hsrc

theorem relaxFold_src (u : String) (d : ℤ) (s : DState) (nbrs : List (String × ℤ))
    (a : String) (hsrc : s.dist a = some 0) (hd : 0 ≤ d)
    (hpw : ∀ p ∈ nbrs, 0 ≤ p.2) :
    (relaxFold u d s nbrs).dist a = some 0 := by
  induction nbrs generalizing s with
  | nil => exact hsrc
  | cons p rest ih =>
      rw [relaxFold_cons]
      exact ih (relaxStep u d s p)
        (relaxStep_src u d s p a hsrc hd (hpw p (List.mem_cons_self _ _)))
        (fun q hq => hpw q (List.mem_cons_of_mem _ hq))

theorem smem_false_iff (s : String) (l : List String) :
    smem s l = false ↔ ¬ s ∈ l := by
  rw [← smem_iff]
  simp

theorem dijk_step_skip (g : List (String × List (String × ℤ))) (a endS : String)
    (s : DState) (e : ℤ × String) (q : List (ℤ × String))
    (inv : DijkInv g a endS s) (hpop : popMin s.queue = some (e, q))
    (hv : smem e.2 s.visited = true) :
    DijkInv g a endS { s with queue := q } := by
  obtain ⟨heq, hqe, hmin⟩ := popMin_char s.queue e q hpop
  have hsub : ∀ y ∈ q, y ∈ s.queue := by
    rw [hqe]
    exact eraseEntry_subset e s.queue
  refine ⟨inv.sound, inv.vis_some, inv.vis_opt, inv.relax_closed, ?_, ?_, ?_,
    inv.dist_src, inv.end_unvisited⟩
  · intro v hnv dv hdv
    have hmem := inv.queue_complete v hnv dv hdv
    have hne : (dv, v) ≠ e := by
      intro h
      apply hnv
      rw [smem_iff] at hv
      have : v = e.2 := by rw [← h]
      rw [this]
      exact hv
    rw [hqe]
    exact mem_eraseEntry_of_ne e (dv, v) s.queue hmem hne
  · intro y hy
    exact inv.queue_geq y (hsub y hy)
  · intro y hy dy hdy en hen
    exact inv.vis_mono y hy dy hdy en (hsub en hen)

theorem dijk_stale_false (g : List (String × List (String × ℤ))) (a endS : String)
    (s : DState) (e : ℤ × String) (q : List (ℤ × String))
    (inv : DijkInv g a endS s) (hpop : popMin s.queue = some (e, q))
    (hnv : smem e.2 s.visited = false) (hstale : gtOpt e.1 (s.dist e.2) = true) :
    False := by
  obtain ⟨heq, hqe, hmin⟩ := popMin_char s.queue e q hpop
  obtain ⟨de, hde, hdee⟩ := inv.queue_geq e heq
  rw [hde] at hstale
  simp only [gtOpt, decide_eq_true_eq] at hstale
  have hmem := inv.queue_complete e.2 ((smem_false_iff _ _).mp hnv) de hde
  have := hmin (de, e.2) hmem
  simp only [pqLt] at this
  by_cases h : de < e.1
  · rw [if_pos h] at this
    cases this
  · exact h hstale

theorem dijk_terminal (g : List (String × List (String × ℤ))) (a endS : String)
    (s : DState) (e : ℤ × String) (q : List (ℤ × String))
    (inv : DijkInv g a endS s)
    (hpos : ∀ u v w, dget2 g u v = some w → 0 < w)
    (hpop : popMin s.queue = some (e, q)) (hend : e.2 = endS) :
    ∃ de, s.dist endS = some de ∧ IsMinDist g a endS de := by
  obtain ⟨heq, hqe, hmin⟩ := popMin_char s.queue e q hpop
  obtain ⟨de, hde, hdee⟩ := inv.queue_geq e heq
  rw [hend] at hde
  refine ⟨de, hde, inv.sound endS de hde, ?_⟩
  intro p hw hh hl
  obtain ⟨dy, y, hdy, hqy, hwle⟩ := dijk_cut g a endS s inv hpos p.length p endS
    (le_refl _) hw hh hl inv.end_unvisited
  have h1 := hmin (dy, y) hqy
  simp only [pqLt] at h1
  by_cases h2 : dy < e.1
  · rw [if_pos h2] at h1
    cases h1
  · omega

theorem dijk_step_relax (g : List (String × List (String × ℤ))) (a endS : String)
    (s : DState) (e : ℤ × String) (q : List (ℤ × String))
    (inv : DijkInv g a endS s) (wf : GraphWF g)
    (hpop : popMin s.queue = some (e, q)) (hnv : smem e.2 s.visited = false)
    (hne : ¬ e.2 = endS) (hstale : gtOpt e.1 (s.dist e.2) = false) :
    DijkInv g a endS
      (relaxFold e.2 e.1 { s with queue := q, visited := e.2 :: s.visited }
        ((dget g e.2).getD [])) := by
  obtain ⟨heq, hqe, hmin⟩ := popMin_char s.queue e q hpop
  obtain ⟨de, hde, hdee⟩ := inv.queue_geq e heq
  have hdist : s.dist e.2 = some e.1 := by
    rw [hde] at hstale
    simp only [gtOpt, decide_eq_false_iff_not, not_lt] at hstale
    rw [hde]
    congr 1
    omega
  have hnvp : ¬ e.2 ∈ s.visited := (smem_false_iff _ _).mp hnv
  have hnbr_edge : ∀ p ∈ (dget g e.2).getD [], dget2 g e.2 p.1 = some p.2 := by
    cases hg : dget g e.2 with
    | none => intro p hp; simp at hp
    | some adj =>
        intro p hp
        simp only [Option.getD_some] at hp
        rw [dget2, hg]
        exact dget_of_mem_nodup adj p.1 p.2 (wf.adj_nodup e.2 adj hg)
          (by rw [Prod.mk.eta]; exact hp)
  have hnbr_pos : ∀ p ∈ (dget g e.2).getD [], 0 < p.2 :=
    fun p hp => wf.pos _ _ _ (hnbr_edge p hp)
  have hnbr_nonneg : ∀ p ∈ (dget g e.2).getD [], 0 ≤ p.2 :=
    fun p hp => le_of_lt (hnbr_pos p hp)
  have he1_nonneg : 0 ≤ e.1 := by
    obtain ⟨p, hw, hh, hl, hW⟩ := inv.sound e.2 e.1 hdist
    rw [← hW]
    exact walkWeight_nonneg g wf.pos p
  have hqsub : ∀ y ∈ q, y ∈ s.queue := by
    rw [hqe]
    exact eraseEntry_subset e s.queue
  have hminle : ∀ y ∈ q, e.1 ≤ y.1 := by
    intro y hy
    have h1 := hmin y (hqsub y hy)
    simp only [pqLt] at h1
    by_cases h2 : y.1 < e.1
    · rw [if_pos h2] at h1
      cases h1
    · omega
  have hvopt_e2 : ∀ p, IsWalkIn g p → p.head? = some a → p.getLast? = some e.2 →
      e.1 ≤ walkWeight g p := by
    intro p hw hh hl
    obtain ⟨dy, y, hdy, hqy, hwle⟩ := dijk_cut g a endS s inv wf.pos p.length p e.2
      (le_refl _) hw hh hl hnvp
    have h1 := hmin (dy, y) hqy
    simp only [pqLt] at h1
    by_cases h2 : dy < e.1
    · rw [if_pos h2] at h1
      cases h1
    · omega
  have hb1 : ∀ y ∈ (e.2 :: s.visited), ∀ dy, s.dist y = some dy → dy ≤ e.1 := by
    intro y hy dy hdy
    rcases List.mem_cons.mp hy with h | h
    · rw [h, hdist] at hdy
      cases hdy
      exact le_refl _
    · exact inv.vis_mono y h dy hdy e heq
  have hvm1 : ∀ y ∈ (e.2 :: s.visited), ∀ dy, s.dist y = some dy →
      ∀ en ∈ q, dy ≤ en.1 := by
    intro y hy dy hdy en hen
    exact le_trans (hb1 y hy dy hdy) (hminle en hen)
  have hqc1 : ∀ v, smem v (e.2 :: s.visited) = false → ∀ dv,
      s.dist v = some dv → (dv, v) ∈ q := by
    intro v hv dv hdv
    simp only [smem] at hv
    by_cases h1 : e.2 = v
    · rw [if_pos h1] at hv
      cases hv
    · rw [if_neg h1] at hv
      have hmem := inv.queue_complete v ((smem_false_iff _ _).mp hv) dv hdv
      have hne2 : (dv, v) ≠ e := by
        intro h
        apply h1
        rw [← h]
      rw [hqe]
      exact mem_eraseEntry_of_ne e (dv, v) s.queue hmem hne2
  have hqg1 : ∀ y ∈ q, ∃ dx, s.dist y.2 = some dx ∧ dx ≤ y.1 :=
    fun y hy => inv.queue_geq y (hqsub y hy)
  refine ⟨?_, ?_, ?_, ?_, ?_, ?_, ?_, ?_, ?_⟩
  · intro v dv hdv
    rcases relaxFold_dist_new e.2 e.1 _ _ v dv hdv with h | ⟨w, hw1, hw2, hw3⟩
    · exact inv.sound v dv h
    · have hedge := hnbr_edge (v, w) hw1
      rw [hw2]
      exact walk_extend g a e.2 v e.1 w (inv.sound e.2 e.1 hdist) hedge
  · intro v hv
    rw [relaxFold_visited] at hv
    have hsm : smem v ({ s with queue := q, visited := e.2 :: s.visited } : DState).visited = true := by
      rw [smem_iff]
      exact hv
    rw [relaxFold_dist_visited _ _ _ _ v hsm]
    rcases List.mem_cons.mp hv with h | h
    · rw [h]
      show (s.dist e.2).isSome = true
      rw [hdist]
      rfl
    · exact inv.vis_some v h
  · intro v hv dv hdv
    rw [relaxFold_visited] at hv
    have hsm : smem v ({ s with queue := q, visited := e.2 :: s.visited } : DState).visited = true := by
      rw [smem_iff]
      exact hv
    rw [relaxFold_dist_visited _ _ _ _ v hsm] at hdv
    rcases List.mem_cons.mp hv with h | h
    · intro p hw hh hl
      have hdv' : s.dist e.2 = some dv := by rw [← h]; exact hdv
      rw [hdist] at hdv'
      cases hdv'
      rw [h] at hl
      exact hvopt_e2 p hw hh hl
    · exact inv.vis_opt v h dv hdv
  · intro x hx dx hdx y w hxy
    rw [relaxFold_visited] at hx
    have hsmx : smem x ({ s with queue := q, visited := e.2 :: s.visited } : DState).visited = true := by
      rw [smem_iff]
      exact hx
    rw [relaxFold_dist_visited _ _ _ _ x hsmx] at hdx
    rcases List.mem_cons.mp hx with h | h
    · have hdx' : s.dist e.2 = some dx := by rw [← h]; exact hdx
      rw [hdist] at hdx'
      cases hdx'
      have hyw : (y, w) ∈ (dget g e.2).getD [] := by
        rw [h] at hxy
        rw [dget2] at hxy
        cases hg : dget g e.2 with
        | none => rw [hg] at hxy; cases hxy
        | some adj =>
            rw [hg] at hxy
            simp only [Option.getD_some]
            exact mem_of_dget adj y w hxy
      have hwpos := hnbr_pos (y, w) hyw
      by_cases hyv : smem y ({ s with queue := q, visited := e.2 :: s.visited } : DState).visited = true
      · rw [relaxFold_dist_visited _ _ _ _ y hyv]
        have hyv' : y ∈ e.2 :: s.visited := by
          rw [← smem_iff]
          exact hyv
        rcases List.mem_cons.mp hyv' with h2 | h2
        · refine ⟨e.1, by rw [h2]; exact hdist, by omega⟩
        · have hys := inv.vis_some y h2
          obtain ⟨dy, hdy⟩ := Option.isSome_iff_exists.mp hys
          refine ⟨dy, hdy, ?_⟩
          have := hb1 y (List.mem_cons_of_mem _ h2) dy hdy
          omega
      · obtain ⟨dn, hdn, hdnle⟩ := relaxFold_relaxed e.2 e.1
          { s with queue := q, visited := e.2 :: s.visited } ((dget g e.2).getD [])
          (y, w) hyw (by simpa using hyv)
        exact ⟨dn, hdn, hdnle⟩
    · have hxs := inv.relax_closed x h dx hdx y w hxy
      obtain ⟨dy, hdy, hle⟩ := hxs
      obtain ⟨dy', hdy', hle'⟩ := relaxFold_dist_le e.2 e.1
        { s with queue := q, visited := e.2 :: s.visited } ((dget g e.2).getD [])
        y dy hdy
      exact ⟨dy', hdy', by omega⟩
  · intro v hnv2 dv hdv
    have hsm : smem v (relaxFold e.2 e.1 { s with queue := q, visited := e.2 :: s.visited } ((dget g e.2).getD [])).visited = false := by
      rw [smem_false_iff]
      exact hnv2
    exact relaxFold_qc e.2 e.1 _ _ hqc1 v hsm dv hdv
  · exact relaxFold_qg e.2 e.1 _ _ hqg1
  · intro y hy dy hdy en hen
    rw [relaxFold_visited] at hy
    exact relaxFold_vm e.2 e.1 _ _ hnbr_nonneg hvm1 hb1 y
      (by rw [relaxFold_visited]; exact hy) dy hdy en hen
  · exact relaxFold_src e.2 e.1 _ _ a inv.dist_src he1_nonneg hnbr_nonneg
  · rw [relaxFold_visited]
    intro h
    rcases List.mem_cons.mp h with h1 | h1
    · exact hne h1.symm
    · exact inv.end_unvisited h1

theorem foldr_deg_sum (f : String → Nat) (l : List String) :
    l.foldr (fun v acc => acc + f v + 1) 0 = (l.map (fun v => f v + 1)).sum := by
  induction l with
  | nil => rfl
  | cons a rest ih =>
      simp only [List.foldr_cons, List.map_cons, List.sum_cons, ih]
      omega

theorem mem_keys_of_dget_some {κ α : Type} [DecidableEq κ] (m : List (κ × α))
    (k : κ) (v : α) (h : dget m k = some v) : k ∈ m.map Prod.fst := by
  induction m with
  | nil => cases h
  | cons p rest ih =>
      simp only [dget] at h
      by_cases hp : p.1 = k
      · rw [← hp]
        simp
      · rw [if_neg hp] at h
        exact List.mem_cons_of_mem _ (ih h)

theorem filter_smem_cons_pos (vis : List String) (a : String) (K : List String)
    (h : smem a vis = false) :
    (a :: K).filter (fun v => ! smem v vis) = a :: K.filter (fun v => ! smem v vis) := by
  simp [List.filter_cons, h]

theorem filter_smem_cons_neg (vis : List String) (a : String) (K : List String)
    (h : smem a vis = true) :
    (a :: K).filter (fun v => ! smem v vis) = K.filter (fun v => ! smem v vis) := by
  simp [List.filter_cons, h]

theorem filter_sum_remove (f : String → Nat) (K : List String) (vis : List String)
    (z : String) (hnd : K.Nodup) (hz : z ∈ K) (hzv : smem z vis = false) :
    ((K.filter (fun v => ! smem v (z :: vis))).map f).sum + f z
      = ((K.filter (fun v => ! smem v vis)).map f).sum := by
  induction K with
  | nil => cases hz
  | cons a K2 ih =>
      rw [List.nodup_cons] at hnd
      by_cases haz : a = z
      · have hp1 : smem a (z :: vis) = true := by
          simp only [smem]
          rw [if_pos haz.symm]
        have hp2 : smem a vis = false := by rw [haz]; exact hzv
        rw [filter_smem_cons_neg _ _ _ hp1, filter_smem_cons_pos _ _ _ hp2]
        have hfeq : K2.filter (fun v => ! smem v (z :: vis)) =
            K2.filter (fun v => ! smem v vis) := by
          apply List.filter_congr
          intro v hv
          have hvz : ¬ z = v := by
            intro h
            rw [← haz] at h
            rw [h] at hnd
            exact hnd.1 hv
          simp only [smem]
          rw [if_neg hvz]
        rw [hfeq, List.map_cons, List.sum_cons, haz]
        omega
      · have hz2 : z ∈ K2 := by
          rcases List.mem_cons.mp hz with h | h
          · exact absurd h.symm haz
          · exact h
        have hpa : smem a (z :: vis) = smem a vis := by
          simp only [smem]
          rw [if_neg (fun h => haz h.symm)]
        cases hk : smem a vis with
        | false =>
            rw [filter_smem_cons_pos _ _ _ (by rw [hpa]; exact hk),
              filter_smem_cons_pos _ _ _ hk]
            simp only [List.map_cons, List.sum_cons]
            have := ih hnd.2 hz2
            omega
        | true =>
            rw [filter_smem_cons_neg _ _ _ (by rw [hpa]; exact hk),
              filter_smem_cons_neg _ _ _ hk]
            exact ih hnd.2 hz2

theorem pot_skip (g : List (String × List (String × ℤ))) (s : DState)
    (e : ℤ × String) (q : List (ℤ × String)) (hpop : popMin s.queue = some (e, q)) :
    dijPot g { s with queue := q } + 1 = dijPot g s := by
  obtain ⟨heq, hqe, hmin⟩ := popMin_char s.queue e q hpop
  have h1 : dijPot g { s with queue := q } =
      q.length + ((g.map Prod.fst).filter (fun v => ! smem v s.visited)).foldr
        (fun v acc => acc + ((dget g v).getD []).length + 1) 0 := rfl
  have h2 : dijPot g s =
      s.queue.length + ((g.map Prod.fst).filter (fun v => ! smem v s.visited)).foldr
        (fun v acc => acc + ((dget g v).getD []).length + 1) 0 := rfl
  rw [h1, h2, hqe]
  have := eraseEntry_length e s.queue heq
  omega

theorem pot_relax (g : List (String × List (String × ℤ))) (s : DState)
    (e : ℤ × String) (q : List (ℤ × String))
    (hkn : (g.map Prod.fst).Nodup)
    (hpop : popMin s.queue = some (e, q)) (hnv : smem e.2 s.visited = false) :
    dijPot g (relaxFold e.2 e.1 { s with queue := q, visited := e.2 :: s.visited }
      ((dget g e.2).getD [])) < dijPot g s := by
  obtain ⟨heq, hqe, hmin⟩ := popMin_char s.queue e q hpop
  have hql : q.length + 1 = s.queue.length := by
    rw [hqe]
    exact eraseEntry_length e s.queue heq
  have hq'len := relaxFold_queue_len e.2 e.1
    { s with queue := q, visited := e.2 :: s.visited } ((dget g e.2).getD [])
  have hqfield : ({ s with queue := q, visited := e.2 :: s.visited } : DState).queue
      = q := rfl
  rw [hqfield] at hq'len
  have h1 : dijPot g (relaxFold e.2 e.1
      { s with queue := q, visited := e.2 :: s.visited } ((dget g e.2).getD [])) =
      (relaxFold e.2 e.1 { s with queue := q, visited := e.2 :: s.visited }
        ((dget g e.2).getD [])).queue.length +
      ((g.map Prod.fst).filter (fun v => ! smem v (e.2 :: s.visited))).foldr
        (fun v acc => acc + ((dget g v).getD []).length + 1) 0 := by
    show _ + ((g.map Prod.fst).filter (fun v => ! smem v (relaxFold e.2 e.1
      { s with queue := q, visited := e.2 :: s.visited }
      ((dget g e.2).getD [])).visited)).foldr _ 0 = _
    rw [relaxFold_visited]
  have h2 : dijPot g s =
      s.queue.length + ((g.map Prod.fst).filter (fun v => ! smem v s.visited)).foldr
        (fun v acc => acc + ((dget g v).getD []).length + 1) 0 := rfl
  rw [h1, h2, foldr_deg_sum, foldr_deg_sum]
  cases hg : dget g e.2 with
  | some adj =>
      simp only [hg, Option.getD_some] at hq'len ⊢
      have hzk : e.2 ∈ g.map Prod.fst := mem_keys_of_dget_some g e.2 adj hg
      have hsum2 := filter_sum_remove (fun v => ((dget g v).getD []).length + 1)
        (g.map Prod.fst) s.visited e.2 hkn hzk hnv
      simp only [hg, Option.getD_some] at hsum2
      omega
  | none =>
      simp only [hg, Option.getD_none, List.length_nil] at hq'len ⊢
      have hfold : relaxFold e.2 e.1
          { s with queue := q, visited := e.2 :: s.visited }
          ([] : List (String × ℤ)) =
          { s with queue := q, visited := e.2 :: s.visited } := rfl
      rw [hfold]
      have hqf : ({ s with queue := q, visited := e.2 :: s.visited } : DState).queue
          = q := rfl
      rw [hqf]
      have hzk : ¬ e.2 ∈ g.map Prod.fst := by
        intro hmem
        rcases List.mem_map.mp hmem with ⟨p, hp, hpe⟩
        have h3 := dget_of_mem_nodup g p.1 p.2 hkn hp
        rw [hpe, hg] at h3
        cases h3
      have hfeq : (g.map Prod.fst).filter (fun v => ! smem v (e.2 :: s.visited)) =
          (g.map Prod.fst).filter (fun v => ! smem v s.visited) := by
        apply List.filter_congr
        intro v hv
        have hvz : ¬ e.2 = v := by
          intro h
          rw [h] at hzk
          exact hzk hv
        simp only [smem]
        rw [if_neg hvz]
      rw [hfeq]
      omega

theorem dloop_min (g : List (String × List (String × ℤ))) (a endS : String)
    (wf : GraphWF g) :
    ∀ f s, DijkInv g a endS s → dijPot g s < f → ReachableIn g a endS →
    ∃ de, (dloop g endS f s).dist endS = some de ∧ IsMinDist g a endS de := by
  intro f
  induction f with
  | zero =>
      intro s _ hpot _
      exact absurd hpot (Nat.not_lt_zero _)
  | succ f ih =>
      intro s inv hpot hreach
      rw [dloop]
      cases hpop : popMin s.queue with
      | none =>
          exfalso
          obtain ⟨p, hw, hh, hl⟩ := hreach
          obtain ⟨dy, y, hdy, hqy, _⟩ := dijk_cut g a endS s inv wf.pos p.length p
            endS (le_refl _) hw hh hl inv.end_unvisited
          cases hq : s.queue with
          | nil => rw [hq] at hqy; cases hqy
          | cons x xs => rw [hq] at hpop; simp [popMin] at hpop
      | some pr =>
          obtain ⟨e, q⟩ := pr
          simp only
          by_cases h1 : smem e.2 s.visited = true
          · rw [if_pos h1]
            have inv' := dijk_step_skip g a endS s e q inv hpop h1
            have hpot' : dijPot g { s with queue := q } < f := by
              have := pot_skip g s e q hpop
              omega
            exact ih { s with queue := q } inv' hpot' hreach
          · rw [if_neg (by simp [h1])]
            have hnv : smem e.2 s.visited = false := by simpa using h1
            by_cases h2 : e.2 = endS
            · rw [if_pos h2]
              obtain ⟨de, hde, hmin⟩ := dijk_terminal g a endS s e q inv wf.pos
                hpop h2
              refine ⟨de, ?_, hmin⟩
              show s.dist endS = some de
              exact hde
            · rw [if_neg h2]
              by_cases h3 : gtOpt e.1 (s.dist e.2) = true
              · exact (dijk_stale_false g a endS s e q inv hpop hnv h3).elim
              · rw [if_neg (by simp [h3])]
                have inv' := dijk_step_relax g a endS s e q inv wf hpop hnv h2
                  (by simpa using h3)
                have hpot' : dijPot g (relaxFold e.2 e.1
                    { s with queue := q, visited := e.2 :: s.visited }
                    ((dget g e.2).getD [])) < f := by
                  have := pot_relax g s e q wf.keys_nodup hpop hnv
                  omega
                exact ih _ inv' hpot' hreach

theorem initInv (g : List (String × List (String × ℤ))) (a endS : String) :
    DijkInv g a endS (initDState a) := by
  refine ⟨?_, ?_, ?_, ?_, ?_, ?_, ?_, ?_, ?_⟩
  · intro v dv hdv
    simp only [initDState] at hdv
    by_cases h : v = a
    · rw [if_pos h] at hdv
      cases hdv
      subst h
      exact ⟨[v], by simp [IsWalkIn], rfl, rfl, rfl⟩
    · rw [if_neg h] at hdv
      cases hdv
  · intro v hv
    cases hv
  · intro v hv
    cases hv
  · intro x hx
    cases hx
  · intro v hnv dv hdv
    simp only [initDState] at hdv ⊢
    by_cases h : v = a
    · rw [if_pos h] at hdv
      cases hdv
      rw [h]
      simp
    · rw [if_neg h] at hdv
      cases hdv
  · intro y hy
    simp only [initDState, List.mem_singleton] at hy
    subst hy
    refine ⟨0, ?_, le_refl 0⟩
    simp [initDState]
  · intro y hy
    cases hy
  · simp [initDState]
  · intro h
    cases h

theorem sum_deg_keys (g : List (String × List (String × ℤ)))
    (hnd : (g.map Prod.fst).Nodup) :
    ((g.map Prod.fst).map (fun v => ((dget g v).getD []).length + 1)).sum
      = (g.map (fun p => p.2.length)).sum + g.length := by
  induction g with
  | nil => rfl
  | cons p g2 ih =>
      simp only [List.map_cons, List.nodup_cons] at hnd ⊢
      simp only [List.sum_cons, List.length_cons]
      have h1 : dget (p :: g2) p.1 = some p.2 := by
        simp [dget]
      have h2 : (g2.map Prod.fst).map (fun v => ((dget (p :: g2) v).getD []).length + 1)
          = (g2.map Prod.fst).map (fun v => ((dget g2 v).getD []).length + 1) := by
        apply List.map_congr_left
        intro v hv
        have hvp : ¬ p.1 = v := by
          intro h
          rw [h] at hnd
          exact hnd.1 hv
        simp only [dget]
        rw [if_neg hvp]
      rw [h1, h2, ih hnd.2]
      simp only [Option.getD_some]
      omega

theorem init_pot (g : List (String × List (String × ℤ))) (a : String)
    (hnd : (g.map Prod.fst).Nodup) :
    dijPot g (initDState a) < dijFuel g := by
  have h1 : dijPot g (initDState a) = 1 +
      ((g.map Prod.fst).filter (fun v => ! smem v ([] : List String))).foldr
        (fun v acc => acc + ((dget g v).getD []).length + 1) 0 := rfl
  have h2 : (g.map Prod.fst).filter (fun v => ! smem v ([] : List String))
      = g.map Prod.fst := by
    apply List.filter_eq_self.mpr
    intro v _
    rfl
  have h3 : dijFuel g = 2 + g.length + (g.map (fun p => p.2.length)).sum := rfl
  rw [h1, h2, foldr_deg_sum, sum_deg_keys g hnd, h3]
  omega

theorem findShortestPathIn_min (smap : List (String × String))
    (g : List (String × List (String × ℤ))) (slines : List (String × List String))
    (wf : GraphWF g) (A B a b : String)
    (hA : ¬ A = "") (hB : ¬ B = "")
    (hrA : resolveStation smap A = some a) (hrB : resolveStation smap B = some b)
    (hga : (dget g a).isSome = true) (hgb : (dget g b).isSome = true)
    (hreach : ReachableIn g a b) :
    IsMinDist g a b ((findShortestPathIn smap g slines A B).2.1) := by
  obtain ⟨de, hde, hmin⟩ := dloop_min g a b wf (dijFuel g) (initDState a)
    (initInv g a b) (init_pot g a wf.keys_nodup) hreach
  unfold findShortestPathIn
  rw [if_neg (by rw [not_or]; exact ⟨hA, hB⟩)]
  simp only [hrA, hrB]
  rw [if_neg (by
    rw [not_or]
    constructor
    · rw [Option.isNone_iff_eq_none]
      intro h
      rw [h] at hga
      cases hga
    · rw [Option.isNone_iff_eq_none]
      intro h
      rw [h] at hgb
      cases hgb)]
  rw [hde]
  simp only [round2]
  exact hmin

theorem IsMinDist_symm (g : List (String × List (String × ℤ)))
    (hsymm : ∀ u v, dget2 g u v = dget2 g v u) (a b : String) (d : ℤ)
    (h : IsMinDist g a b d) : IsMinDist g b a d := by
  obtain ⟨⟨p, hw, hh, hl, hW⟩, hmin⟩ := h
  constructor
  · exact ⟨p.reverse, isWalk_reverse g hsymm p hw,
      by rw [List.head?_reverse]; exact hl,
      by rw [List.getLast?_reverse]; exact hh,
      by rw [walkWeight_reverse g hsymm]; exact hW⟩
  · intro p2 hw2 hh2 hl2
    have h2 := hmin p2.reverse (isWalk_reverse g hsymm p2 hw2)
      (by rw [List.head?_reverse]; exact hl2)
      (by rw [List.getLast?_reverse]; exact hh2)
    rw [walkWeight_reverse g hsymm] at h2
    exact h2

theorem IsMinDist_unique (g : List (String × List (String × ℤ)))
    (a b : String) (d1 d2 : ℤ) (h1 : IsMinDist g a b d1)
    (h2 : IsMinDist g a b d2) : d1 = d2 := by
  obtain ⟨⟨p1, hw1, hh1, hl1, hW1⟩, hm1⟩ := h1
  obtain ⟨⟨p2, hw2, hh2, hl2, hW2⟩, hm2⟩ := h2
  have a1 := hm1 p2 hw2 hh2 hl2
  have a2 := hm2 p1 hw1 hh1 hl1
  omega

/-- C8: for every pair of mutually reachable stations, the total distance
returned by `find_shortest_path` for the query `(A, B)` equals the total
distance returned for the query `(B, A)` (distances here in exact tenths
of km, which the source's two-decimal rounding of one-decimal sums leaves
unchanged). -/
theorem C8_distance_symmetric (A B a b : String)
    (hA : ¬ A = "") (hB : ¬ B = "")
    (hrA : resolveStation (stationMapOf metroStations) A = some a)
    (hrB : resolveStation (stationMapOf metroStations) B = some b)
    (hga : (dget metroGraph a).isSome = true)
    (hgb : (dget metroGraph b).isSome = true)
    (hreach : ReachableIn metroGraph a b) :
    (find_shortest_path A B).2.1 = (find_shortest_path B A).2.1 := by
  have h1 := findShortestPathIn_min (stationMapOf metroStations) metroGraph
    metroStationLines metroGraph_wf A B a b hA hB hrA hrB hga hgb hreach
  have h2 := findShortestPathIn_min (stationMapOf metroStations) metroGraph
    metroStationLines metroGraph_wf B A b a hB hA hrB hrA hgb hga
    (reachable_symm metroGraph metroGraph_symm a b hreach)
  have h3 := IsMinDist_symm metroGraph metroGraph_symm a b _ h1
  exact IsMinDist_unique metroGraph b a _ _ h3 h2

set_option maxRecDepth 400000 in
/-- Witness for C8 at the adjacent stations Rajiv Chowk and New Delhi. -/
theorem C8_distance_symmetric_witness :
    (find_shortest_path ("Rajiv Chowk") ("New Delhi")).2.1 =
      (find_shortest_path ("New Delhi") ("Rajiv Chowk")).2.1 :=
  C8_distance_symmetric ("Rajiv Chowk") ("New Delhi") ("Rajiv Chowk") ("New Delhi")
    (by decide) (by decide)
    (by rw [metroStations_eq, metroStationMap_eq]; decide)
    (by rw [metroStations_eq, metroStationMap_eq]; decide)
    (by rw [metroGraph_eq]; decide)
    (by rw [metroGraph_eq]; decide)
    ⟨["Rajiv Chowk", "New Delhi"],
      by
        rw [metroGraph_eq]
        simp only [IsWalkIn, List.chain'_cons, List.chain'_singleton, and_true,
          EdgeIn]
        decide,
      rfl, rfl⟩

end DelhiMetro
